import Mathlib

/-!
# Multiple-scattering microsurface model (MicrosurfaceScattering.cpp / .h)

A shallow embedding of the random-walk engine of `src/acg_final/MicrosurfaceScattering.cpp`.

Conventions of the embedding

* The scalar type `F` stands for `float` / `double`.  The definitions only use the operations the
  source uses (`+ - * /`, unary minus, `<`, `<=`, `==`, literals), so they can be read over an
  exact ordered field (`ℚ`, `ℝ`: the "exact arithmetic" reading of the code) and over scalars that
  carry a NaN (`NanRat` below), for which `x != x` can hold.
* A float literal such as `0.9999f` is the cast `lit 0.9999` of its decimal value, with two
  exceptions: the thresholds `0.0001f` and `0.00001f` are the casts of the `float` values they
  denote, `13743895 / 2 ^ 37` and `2748779 / 2 ^ 38`.  Both lie below the decimal, so a test
  `x < 0.0001f` fails at the `float` `x = 0.0001f` where `x < 0.0001` would succeed.  (The other
  thresholds, `0.9999f` and `0.9999999f`, also lie below their decimals, but they only occur in
  tests `x > c` and `x < -c`, which no `float` decides differently for the two values.)
* Functions of the C math library (`expf`, `logf`, `sqrtf`, `powf`, `acosf`, `tanf`, `sinf`, `cosf`,
  `atan2`) and the constant `M_PI` of `<cmath>` are parameters of the definitions that call them;
  theorems about real arithmetic instantiate them with `Real.exp`, `Real.rpow`, ...
* The virtual sampler `sampleP22_11` of the slope distributions is a parameter of the functions that
  call it (`sampleD_wi` and the `samplePhaseFunction` of the dielectric and diffuse materials); its
  two implementations are `MicrosurfaceSlopeBeckmann.sampleP22_11` (whose search loop takes fuel)
  and `MicrosurfaceSlopeGGX.sampleP22_11` (whose `isinf` is a parameter).
* The global random source `generateRandomNumber()` is a fixed sequence of draws together with the
  number of draws already consumed (`Rng`), passed through every function that draws.
* `while` loops take a fuel argument bounding the number of executions of the loop body and
  return `none` when it is exhausted.
* Virtual member functions are fields of records (`MicrosurfaceHeight`, `MicrosurfaceSlope`,
  `Material`); a call of one is taken to return.
* The `int` bounce counters are integers without overflow (`Int`).
-/

namespace MicrosurfaceScattering

variable {F : Type} [RatCast F] [Add F] [Sub F] [Mul F] [Div F] [Neg F] [LT F] [LE F] [BEq F]
  [DecidableRel (fun a b : F => a < b)] [DecidableRel (fun a b : F => a ≤ b)]

/-! ## Scalars, constants and numeric utilities -/

/-- A float literal, given by its decimal value. -/
def lit (q : ℚ) : F := (q : F)

/-- The macro `FLT_MAX` = `numeric_limits<float>::max()` = (2^24 - 1) * 2^104. -/
def FLT_MAX : F := lit 340282346638528859811704183484516925440

/-- The macro `INV_SQRT_2_M_PI`. -/
def INV_SQRT_2_M_PI : F := lit 0.3989422804014326779

/-- The macro `INV_SQRT_2`. -/
def INV_SQRT_2 : F := lit 0.7071067811865475244

/-- The macro `SQRT_2`. -/
def SQRT_2 : F := lit 1.41421356237309504880

/-- The macro `INV_2_SQRT_M_PI`. -/
def INV_2_SQRT_M_PI : F := lit 0.28209479177387814347

/-- The function `std::min(a, b)`: `(b < a) ? b : a`. -/
def stdmin (a b : F) : F := if b < a then b else a

/-- The function `std::max(a, b)`: `(a < b) ? b : a`. -/
def stdmax (a b : F) : F := if a < b then b else a

/-- The functions `fabs` / `fabsf`. -/
def fabsf (x : F) : F := if x < lit 0 then -x else x

/-- The function `IsFiniteNumber`. -/
def IsFiniteNumber (x : F) : Bool := decide (x ≤ FLT_MAX) && decide (x ≥ -FLT_MAX)

/-- The function `sign`. -/
def sign (a : F) : F := if a ≥ lit 0.0 then lit 1.0 else -(lit 1.0)

/-- The function `serf`: Abramowitz-Stegun formula 7.1.26 for the error function. -/
def serf (exp : F → F) (x : F) : F :=
  let a1 : F := lit 0.254829592
  let a2 : F := -(lit 0.284496736)
  let a3 : F := lit 1.421413741
  let a4 : F := -(lit 1.453152027)
  let a5 : F := lit 1.061405429
  let p : F := lit 0.3275911
  let sign : F := if x < lit 0 then -(lit 1) else lit 1
  let x := fabsf x
  let t := lit 1.0 / (lit 1.0 + p * x)
  let y := lit 1.0 - (((((a5 * t + a4) * t) + a3) * t + a2) * t + a1) * t * exp (-x * x)
  sign * y

/-- The polynomial of formula 7.1.26 in the Horner form in which `serf` evaluates it; together
with `serfAbs` it names the parts of `serf` in the statements about it. -/
def serfPoly (t : F) : F :=
  ((((lit 1.061405429 * t + -(lit 1.453152027)) * t + lit 1.421413741) * t
    + -(lit 0.284496736)) * t + lit 0.254829592) * t

/-- The value `y` that `serf` computes from `x = fabs(x)`, before the sign is applied. -/
def serfAbs (exp : F → F) (x : F) : F :=
  lit 1.0 - serfPoly (lit 1.0 / (lit 1.0 + lit 0.3275911 * x)) * exp (-x * x)

/-- The function `serfinv`. -/
def serfinv (logf sqrtf : F → F) (x : F) : F :=
  let w := -(logf ((lit 1.0 - x) * (lit 1.0 + x)))
  if w < lit 5.000000 then
    let w := w - lit 2.500000
    let p : F := lit 2.81022636e-08
    let p := lit 3.43273939e-07 + p * w
    let p := -(lit 3.5233877e-06) + p * w
    let p := -(lit 4.39150654e-06) + p * w
    let p := lit 0.00021858087 + p * w
    let p := -(lit 0.00125372503) + p * w
    let p := -(lit 0.00417768164) + p * w
    let p := lit 0.246640727 + p * w
    let p := lit 1.50140941 + p * w
    p * x
  else
    let w := sqrtf w - lit 3.000000
    let p : F := -(lit 0.000200214257)
    let p := lit 0.000100950558 + p * w
    let p := lit 0.00134934322 + p * w
    let p := -(lit 0.00367342844) + p * w
    let p := lit 0.00573950773 + p * w
    let p := -(lit 0.0076224613) + p * w
    let p := lit 0.00943887047 + p * w
    let p := lit 1.00167406 + p * w
    let p := lit 2.83297682 + p * w
    p * x

/-- The value `p` that `serfinv` computes in its branch `w < 5`, as a function of the shifted
argument `w - 2.5`; it names this part of `serfinv` in the statements about it. -/
def serfinvCentral (w : F) : F :=
  let p : F := lit 2.81022636e-08
  let p := lit 3.43273939e-07 + p * w
  let p := -(lit 3.5233877e-06) + p * w
  let p := -(lit 4.39150654e-06) + p * w
  let p := lit 0.00021858087 + p * w
  let p := -(lit 0.00125372503) + p * w
  let p := -(lit 0.00417768164) + p * w
  let p := lit 0.246640727 + p * w
  let p := lit 1.50140941 + p * w
  p

/-- The global random source: the sequence of values `dis(gen)` produces, and how many of them
have been consumed. -/
structure Rng (F : Type) where
  draws : Nat → F
  pos : Nat

/-- The function `generateRandomNumber`: the next draw and the advanced source. -/
def generateRandomNumber (g : Rng F) : F × Rng F :=
  (g.draws g.pos, { draws := g.draws, pos := g.pos + 1 })

/-! ## Vectors -/

/-- Modelled from the spec: the 3D direction type `Vector3f` of the host renderer (its header
`geometry.h` is not among the sources): three scalar components `x`, `y`, `z`. -/
structure Vector3f (F : Type) where
  x : F
  y : F
  z : F

/-- Modelled from the spec: unary minus of `Vector3f`, componentwise. -/
instance : Neg (Vector3f F) := ⟨fun v => ⟨-v.x, -v.y, -v.z⟩⟩

/-- Modelled from the spec: sum of two `Vector3f`, componentwise. -/
instance : Add (Vector3f F) := ⟨fun v w => ⟨v.x + w.x, v.y + w.y, v.z + w.z⟩⟩

/-- Modelled from the spec: the inner product `Dot` of two `Vector3f`. -/
def Dot (v w : Vector3f F) : F := v.x * w.x + v.y * w.y + v.z * w.z

/-- Modelled from the spec: `Normalize` of the host renderer, `v / v.Length()` with the division
carried out as a multiplication by `1 / Length`. -/
def Normalize (sqrtf : F → F) (v : Vector3f F) : Vector3f F :=
  let inv := lit 1 / sqrtf (v.x * v.x + v.y * v.y + v.z * v.z)
  ⟨v.x * inv, v.y * inv, v.z * inv⟩

/-- Modelled from the spec: difference of two `Vector3f`, componentwise. -/
instance : Sub (Vector3f F) := ⟨fun v w => ⟨v.x - w.x, v.y - w.y, v.z - w.z⟩⟩

/-- Modelled from the spec: `v * s` for a `Vector3f` and a scalar, componentwise. -/
def Vector3f.mul (v : Vector3f F) (s : F) : Vector3f F := ⟨s * v.x, s * v.y, s * v.z⟩

/-- Modelled from the spec: `s * v` for a scalar and a `Vector3f`, which the host renderer
defines as `v * s`. -/
def Vector3f.smul (s : F) (v : Vector3f F) : Vector3f F := v.mul s

/-- Modelled from the spec: `v / f` for a `Vector3f` and a scalar, a multiplication by
`1 / f`. -/
def Vector3f.div (v : Vector3f F) (f : F) : Vector3f F :=
  ⟨v.x * (lit 1 / f), v.y * (lit 1 / f), v.z * (lit 1 / f)⟩

/-- Modelled from the spec: the 2D vector type `Vector2f` of the host renderer. -/
structure Vector2f (F : Type) where
  x : F
  y : F

/-! ## Height distributions -/

/-- The abstract class `MicrosurfaceHeight`: its three pure virtual functions. -/
structure MicrosurfaceHeight (F : Type) where
  P1 : F → F
  C1 : F → F
  invC1 : F → F

/-- The function `MicrosurfaceHeightUniform::P1`. -/
def MicrosurfaceHeightUniform.P1 (h : F) : F :=
  if decide (h ≥ -(lit 1.0)) && decide (h ≤ lit 1.0) then lit 0.5 else lit 0.0

/-- The function `MicrosurfaceHeightUniform::C1`. -/
def MicrosurfaceHeightUniform.C1 (h : F) : F :=
  stdmin (lit 1.0) (stdmax (lit 0.0) (lit 0.5 * (h + lit 1.0)))

/-- The function `MicrosurfaceHeightUniform::invC1`. -/
def MicrosurfaceHeightUniform.invC1 (U : F) : F :=
  stdmax (-(lit 1.0)) (stdmin (lit 1.0) (lit 2.0 * U - lit 1.0))

/-- The class `MicrosurfaceHeightUniform`. -/
def MicrosurfaceHeightUniform : MicrosurfaceHeight F :=
  { P1 := MicrosurfaceHeightUniform.P1
    C1 := MicrosurfaceHeightUniform.C1
    invC1 := MicrosurfaceHeightUniform.invC1 }

/-- The function `MicrosurfaceHeightGaussian::P1`. -/
def MicrosurfaceHeightGaussian.P1 (expf : F → F) (h : F) : F :=
  INV_SQRT_2_M_PI * expf (-(lit 0.5) * h * h)

/-- The function `MicrosurfaceHeightGaussian::C1`. -/
def MicrosurfaceHeightGaussian.C1 (exp : F → F) (h : F) : F :=
  lit 0.5 + lit 0.5 * serf exp (INV_SQRT_2 * h)

/-- The function `MicrosurfaceHeightGaussian::invC1`. -/
def MicrosurfaceHeightGaussian.invC1 (logf sqrtf : F → F) (U : F) : F :=
  SQRT_2 * serfinv logf sqrtf (lit 2.0 * U - lit 1.0)

/-- The class `MicrosurfaceHeightGaussian`; `exp` is the double-precision exponential `serf`
calls, `expf`, `logf`, `sqrtf` the single-precision functions. -/
def MicrosurfaceHeightGaussian (exp expf logf sqrtf : F → F) : MicrosurfaceHeight F :=
  { P1 := MicrosurfaceHeightGaussian.P1 expf
    C1 := MicrosurfaceHeightGaussian.C1 exp
    invC1 := MicrosurfaceHeightGaussian.invC1 logf sqrtf }

/-! ## Slope distributions -/

/-- The abstract class `MicrosurfaceSlope`: the pure virtual functions `P22`, `Lambda` and
`projectedArea` (the arguments are those of the source, in its order). -/
structure MicrosurfaceSlope (F : Type) where
  P22 : F → F → F → F → F
  Lambda : Vector3f F → F → F → F
  projectedArea : Vector3f F → F → F → F

/-- The function `MicrosurfaceSlope::D`. -/
def MicrosurfaceSlope.D (s : MicrosurfaceSlope F) (wm : Vector3f F) (m_alpha_x m_alpha_y : F) : F :=
  if wm.z ≤ lit 0.0 then lit 0.0
  else
    let slope_x := -wm.x / wm.z
    let slope_y := -wm.y / wm.z
    s.P22 slope_x slope_y m_alpha_x m_alpha_y / (wm.z * wm.z * wm.z * wm.z)

/-- The function `MicrosurfaceSlope::D_wi`. -/
def MicrosurfaceSlope.D_wi (s : MicrosurfaceSlope F) (wi wm : Vector3f F)
    (m_alpha_x m_alpha_y : F) : F :=
  if wm.z ≤ lit 0.0 then lit 0.0
  else
    let projectedarea := s.projectedArea wi m_alpha_x m_alpha_y
    if projectedarea == lit 0 then lit 0
    else
      let c := lit 1.0 / projectedarea
      c * stdmax (lit 0.0) (Dot wi wm) * s.D wm m_alpha_x m_alpha_y

/-- The function `MicrosurfaceSlope::alpha_i`. -/
def alpha_i (sqrtf : F → F) (wi : Vector3f F) (m_alpha_x m_alpha_y : F) : F :=
  let invSinTheta2 := lit 1.0 / (lit 1.0 - wi.z * wi.z)
  let cosPhi2 := wi.x * wi.x * invSinTheta2
  let sinPhi2 := wi.y * wi.y * invSinTheta2
  sqrtf (cosPhi2 * m_alpha_x * m_alpha_x + sinPhi2 * m_alpha_y * m_alpha_y)

/-- The function `MicrosurfaceSlope::sampleD_wi`.  The virtual `sampleP22_11` of the slope
distribution is the parameter `sampleP22_11`. -/
def MicrosurfaceSlope.sampleD_wi (sqrtf acosf cosf sinf : F → F) (atan2 : F → F → F)
    (sampleP22_11 : F → F → F → Vector2f F) (wi : Vector3f F) (U1 U2 m_alpha_x m_alpha_y : F) :
    Vector3f F :=
  let wi_11 := Normalize sqrtf ⟨m_alpha_x * wi.x, m_alpha_y * wi.y, wi.z⟩
  let slope_11 := sampleP22_11 (acosf wi_11.z) U1 U2
  let phi := atan2 wi_11.y wi_11.x
  let slope : Vector2f F :=
    ⟨cosf phi * slope_11.x - sinf phi * slope_11.y, sinf phi * slope_11.x + cosf phi * slope_11.y⟩
  let slope : Vector2f F := ⟨slope.x * m_alpha_x, slope.y * m_alpha_y⟩
  if (slope.x != slope.x) || !IsFiniteNumber slope.x then
    if wi.z > lit 0 then ⟨lit 0.0, lit 0.0, lit 1.0⟩
    else Normalize sqrtf ⟨wi.x, wi.y, lit 0.0⟩
  else Normalize sqrtf ⟨-slope.x, -slope.y, lit 1.0⟩

/-- The function `MicrosurfaceSlopeBeckmann::P22`. -/
def MicrosurfaceSlopeBeckmann.P22 (M_PI : F) (expf : F → F)
    (slope_x slope_y m_alpha_x m_alpha_y : F) : F :=
  lit 1.0 / (M_PI * m_alpha_x * m_alpha_y) *
    expf (-slope_x * slope_x / (m_alpha_x * m_alpha_x) - slope_y * slope_y / (m_alpha_y * m_alpha_y))

/-- The function `MicrosurfaceSlopeBeckmann::Lambda`. -/
def MicrosurfaceSlopeBeckmann.Lambda (exp expf sqrtf acosf tanf : F → F)
    (wi : Vector3f F) (alpha_u alpha_v : F) : F :=
  if wi.z > lit 0.9999 then lit 0.0
  else if wi.z < -(lit 0.9999) then -(lit 1.0)
  else
    let theta_i := acosf wi.z
    let a := lit 1.0 / tanf theta_i / alpha_i sqrtf wi alpha_u alpha_v
    lit 0.5 * (serf exp a - lit 1.0) + INV_2_SQRT_M_PI / a * expf (-a * a)

/-- The function `MicrosurfaceSlopeBeckmann::projectedArea`. -/
def MicrosurfaceSlopeBeckmann.projectedArea (exp expf sqrtf acosf tanf sinf : F → F)
    (wi : Vector3f F) (alpha_u alpha_v : F) : F :=
  if wi.z > lit 0.9999 then lit 1.0
  else if wi.z < -(lit 0.9999) then lit 0.0
  else
    let alphai := alpha_i sqrtf wi alpha_u alpha_v
    let theta_i := acosf wi.z
    let a := lit 1.0 / tanf theta_i / alphai
    lit 0.5 * (serf exp a + lit 1.0) * wi.z + INV_2_SQRT_M_PI * alphai * sinf theta_i * expf (-a * a)

/-- The class `MicrosurfaceSlopeBeckmann`. -/
def MicrosurfaceSlopeBeckmann (M_PI : F) (exp expf sqrtf acosf tanf sinf : F → F) :
    MicrosurfaceSlope F :=
  { P22 := MicrosurfaceSlopeBeckmann.P22 M_PI expf
    Lambda := MicrosurfaceSlopeBeckmann.Lambda exp expf sqrtf acosf tanf
    projectedArea := MicrosurfaceSlopeBeckmann.projectedArea exp expf sqrtf acosf tanf sinf }

/-- The function `MicrosurfaceSlopeGGX::P22`. -/
def MicrosurfaceSlopeGGX.P22 (M_PI : F) (slope_x slope_y m_alpha_x m_alpha_y : F) : F :=
  let tmp := lit 1.0 + slope_x * slope_x / (m_alpha_x * m_alpha_x)
    + slope_y * slope_y / (m_alpha_y * m_alpha_y)
  lit 1.0 / (M_PI * m_alpha_x * m_alpha_y) / (tmp * tmp)

/-- The function `MicrosurfaceSlopeGGX::Lambda`. -/
def MicrosurfaceSlopeGGX.Lambda (sqrtf acosf tanf : F → F)
    (wi : Vector3f F) (alpha_u alpha_v : F) : F :=
  if wi.z > lit 0.9999 then lit 0.0
  else if wi.z < -(lit 0.9999) then -(lit 1.0)
  else
    let theta_i := acosf wi.z
    let a := lit 1.0 / tanf theta_i / alpha_i sqrtf wi alpha_u alpha_v
    lit 0.5 * (-(lit 1.0) + sign a * sqrtf (lit 1 + lit 1 / (a * a)))

/-- The function `MicrosurfaceSlopeGGX::projectedArea`. -/
def MicrosurfaceSlopeGGX.projectedArea (sqrtf acosf sinf : F → F)
    (wi : Vector3f F) (alpha_u alpha_v : F) : F :=
  if wi.z > lit 0.9999 then lit 1.0
  else if wi.z < -(lit 0.9999) then lit 0.0
  else
    let theta_i := acosf wi.z
    let sin_theta_i := sinf theta_i
    let alphai := alpha_i sqrtf wi alpha_u alpha_v
    lit 0.5 * (wi.z + sqrtf (wi.z * wi.z + sin_theta_i * sin_theta_i * alphai * alphai))

/-- The class `MicrosurfaceSlopeGGX`. -/
def MicrosurfaceSlopeGGX (M_PI : F) (sqrtf acosf tanf sinf : F → F) : MicrosurfaceSlope F :=
  { P22 := MicrosurfaceSlopeGGX.P22 M_PI
    Lambda := MicrosurfaceSlopeGGX.Lambda sqrtf acosf tanf
    projectedArea := MicrosurfaceSlopeGGX.projectedArea sqrtf acosf sinf }

/-! ## Samplers of the visible slopes -/

/-- The `while` loop of `MicrosurfaceSlopeBeckmann::sampleP22_11`, from the state `serf_min`,
`serf_max`, `serf_current`; the result is the state the loop is left with (by its guard or by a
`break`).  The call `abs(diff)` is the floating-point overload, `fabsf`; the tolerance
`0.00001f` is the `float` `2748779 / 2 ^ 38`. -/
def MicrosurfaceSlopeBeckmann.sampleP22_11_loop (exp expf logf sqrtf : F → F)
    (sin_theta_i cos_theta_i slope_i c U : F) : Nat → F → F → F → Option (F × F × F)
  | fuel, serf_min, serf_max, serf_current =>
    if serf_max - serf_min > lit (2748779 / 2 ^ 38) then
      match fuel with
      | 0 => none
      | fuel + 1 =>
        let serf_current :=
          if !(decide (serf_current ≥ serf_min) && decide (serf_current ≤ serf_max)) then
            lit 0.5 * (serf_min + serf_max)
          else serf_current
        let slope := serfinv logf sqrtf serf_current
        let CDF :=
          if slope ≥ slope_i then lit 1.0
          else c * (INV_2_SQRT_M_PI * sin_theta_i * expf (-slope * slope)
            + cos_theta_i * (lit 0.5 + lit 0.5 * serf exp slope))
        let diff := CDF - U
        if fabsf diff < lit (2748779 / 2 ^ 38) then some (serf_min, serf_max, serf_current)
        else if diff > lit 0.0 then
          if serf_max == serf_current then some (serf_min, serf_max, serf_current)
          else
            let serf_max := serf_current
            let derivative := lit 0.5 * c * cos_theta_i - lit 0.5 * c * sin_theta_i * slope
            MicrosurfaceSlopeBeckmann.sampleP22_11_loop exp expf logf sqrtf sin_theta_i
              cos_theta_i slope_i c U fuel serf_min serf_max (serf_current - diff / derivative)
        else
          if serf_min == serf_current then some (serf_min, serf_max, serf_current)
          else
            let serf_min := serf_current
            let derivative := lit 0.5 * c * cos_theta_i - lit 0.5 * c * sin_theta_i * slope
            MicrosurfaceSlopeBeckmann.sampleP22_11_loop exp expf logf sqrtf sin_theta_i
              cos_theta_i slope_i c U fuel serf_min serf_max (serf_current - diff / derivative)
    else some (serf_min, serf_max, serf_current)

/-- The function `MicrosurfaceSlopeBeckmann::sampleP22_11`; the threshold `0.0001f` of its two
tests is the `float` `13743895 / 2 ^ 37`. -/
def MicrosurfaceSlopeBeckmann.sampleP22_11 (exp expf logf sqrtf cosf sinf : F → F) (fuel : Nat)
    (theta_i U U_2 : F) : Option (Vector2f F) :=
  if theta_i < lit (13743895 / 2 ^ 37) then
    let r := sqrtf (-(logf U))
    let phi := lit 6.28318530718 * U_2
    some ⟨r * cosf phi, r * sinf phi⟩
  else
    let sin_theta_i := sinf theta_i
    let cos_theta_i := cosf theta_i
    let slope_i := cos_theta_i / sin_theta_i
    let a := cos_theta_i / sin_theta_i
    let projectedarea := lit 0.5 * (serf exp a + lit 1.0) * cos_theta_i
      + INV_2_SQRT_M_PI * sin_theta_i * expf (-a * a)
    if projectedarea < lit (13743895 / 2 ^ 37) || projectedarea != projectedarea then
      some ⟨lit 0, lit 0⟩
    else
      let c := lit 1.0 / projectedarea
      let serf_min := -(lit 0.9999)
      let serf_max := stdmax serf_min (serf exp slope_i)
      let serf_current := lit 0.5 * (serf_min + serf_max)
      match MicrosurfaceSlopeBeckmann.sampleP22_11_loop exp expf logf sqrtf sin_theta_i
          cos_theta_i slope_i c U fuel serf_min serf_max serf_current with
      | none => none
      | some s =>
        some ⟨serfinv logf sqrtf (stdmin s.2.1 (stdmax s.1 s.2.2)),
          serfinv logf sqrtf (lit 2.0 * U_2 - lit 1.0)⟩

/-- The function `MicrosurfaceSlopeGGX::sampleP22_11`; `isinf` is the classification function of
`<cmath>`, and the threshold `0.0001f` of its two tests is the `float` `13743895 / 2 ^ 37`.  The
locals `slope_i`, `check_inf_x` and `check_inf_y`, which the function computes and does not use,
are left out. -/
def MicrosurfaceSlopeGGX.sampleP22_11 (sqrtf cosf sinf : F → F) (isinf : F → Bool)
    (theta_i U U_2 : F) : Vector2f F :=
  if theta_i < lit (13743895 / 2 ^ 37) then
    let r := sqrtf (U / (lit 1.0 - U))
    let phi := lit 6.28318530718 * U_2
    ⟨r * cosf phi, r * sinf phi⟩
  else
    let sin_theta_i := sinf theta_i
    let cos_theta_i := cosf theta_i
    let tan_theta_i := sin_theta_i / cos_theta_i
    let projectedarea := lit 0.5 * (cos_theta_i + lit 1.0)
    if projectedarea < lit (13743895 / 2 ^ 37) || projectedarea != projectedarea then
      ⟨lit 0, lit 0⟩
    else
      let c := lit 1.0 / projectedarea
      let A := lit 2.0 * U / cos_theta_i / c - lit 1.0
      let B := tan_theta_i
      let tmp :=
        if !isinf (lit 1.0 / (A * A - lit 1.0)) then lit 1.0 / (A * A - lit 1.0)
        else if cos_theta_i > lit 1.0 then lit 10000000.0 else -(lit 10000000.0)
      let D := sqrtf (stdmax (lit 0.0) (B * B * tmp * tmp - (A * A - B * B) * tmp))
      let slope_x_1 := B * tmp - D
      let slope_x_2 := B * tmp + D
      let slope_x :=
        if A < lit 0.0 || slope_x_2 > lit 1.0 / tan_theta_i then slope_x_1 else slope_x_2
      let S := if U_2 > lit 0.5 then lit 1.0 else -(lit 1.0)
      let U2 := if U_2 > lit 0.5 then lit 2.0 * (U_2 - lit 0.5) else lit 2.0 * (lit 0.5 - U_2)
      let z := (U2 * (U2 * (U2 * lit 0.27385 - lit 0.73369) + lit 0.46341))
        / (U2 * (U2 * (U2 * lit 0.093073 + lit 0.309420) - lit 1.000000) + lit 0.597999)
      ⟨slope_x, S * z * sqrtf (lit 1.0 + slope_x * slope_x)⟩

/-! ## The microsurface and its random walk -/

/-- The data members of the class `Microsurface`. -/
structure Microsurface (F : Type) where
  m_microsurfaceheight : MicrosurfaceHeight F
  m_microsurfaceslope : MicrosurfaceSlope F
  m_alphau : F
  m_alphav : F

/-- The pure virtual functions of the class `Microsurface`, which a material supplies.  Each
receives the instance and the random source, and returns the advanced source with its result. -/
structure Material (F : Type) where
  evalPhaseFunction : Microsurface F → Vector3f F → Vector3f F → Rng F → F × Rng F
  samplePhaseFunction : Microsurface F → Vector3f F → Rng F → Vector3f F × Rng F
  evalSingleScattering : Microsurface F → Vector3f F → Vector3f F → Rng F → F × Rng F

/-- The constructor `Microsurface(height_uniform, slope_beckmann)`, followed by the roughness
`m_alphau`, `m_alphav` (which the constructor leaves unset and `refresh_alpha` assigns). -/
def Microsurface.create (M_PI : F) (exp expf logf sqrtf acosf tanf sinf : F → F)
    (height_uniform slope_beckmann : Bool) (alphau alphav : F) : Microsurface F :=
  { m_microsurfaceheight :=
      if height_uniform then MicrosurfaceHeightUniform
      else MicrosurfaceHeightGaussian exp expf logf sqrtf
    m_microsurfaceslope :=
      if slope_beckmann then MicrosurfaceSlopeBeckmann M_PI exp expf sqrtf acosf tanf sinf
      else MicrosurfaceSlopeGGX M_PI sqrtf acosf tanf sinf
    m_alphau := alphau
    m_alphav := alphav }

/-- The function `Microsurface::refresh_alpha`. -/
def Microsurface.refresh_alpha (ms : Microsurface F) (alphau alphav : F) : Microsurface F :=
  { ms with m_alphau := alphau, m_alphav := alphav }

/-- The function `Microsurface::G_1(wi)`: masking at the mean level. -/
def Microsurface.G_1 (ms : Microsurface F) (wi : Vector3f F) : F :=
  if wi.z > lit 0.9999 then lit 1.0
  else if wi.z ≤ lit 0.0 then lit 0.0
  else
    let Lambda := ms.m_microsurfaceslope.Lambda wi ms.m_alphau ms.m_alphav
    lit 1.0 / (lit 1.0 + Lambda)

/-- The function `Microsurface::G_1(wi, h0)`: masking at height `h0`. -/
def Microsurface.G_1_h (powf : F → F → F) (ms : Microsurface F) (wi : Vector3f F) (h0 : F) : F :=
  if wi.z > lit 0.9999 then lit 1.0
  else if wi.z ≤ lit 0.0 then lit 0.0
  else
    let C1_h0 := ms.m_microsurfaceheight.C1 h0
    let Lambda := ms.m_microsurfaceslope.Lambda wi ms.m_alphau ms.m_alphav
    powf C1_h0 Lambda

/-- The function `Microsurface::sampleHeight`; the grazing threshold `0.0001f` is the `float`
`13743895 / 2 ^ 37`. -/
def Microsurface.sampleHeight (powf : F → F → F) (ms : Microsurface F) (wr : Vector3f F)
    (hr U : F) : F :=
  if wr.z > lit 0.9999 then FLT_MAX
  else if wr.z < -(lit 0.9999) then
    ms.m_microsurfaceheight.invC1 (U * ms.m_microsurfaceheight.C1 hr)
  else if fabsf wr.z < lit (13743895 / 2 ^ 37) then hr
  else
    let G_1_ := ms.G_1_h powf wr hr
    if U > lit 1.0 - G_1_ then FLT_MAX
    else
      ms.m_microsurfaceheight.invC1
        (ms.m_microsurfaceheight.C1 hr /
          powf (lit 1.0 - U) (lit 1.0 / ms.m_microsurfaceslope.Lambda wr ms.m_alphau ms.m_alphav))

/-- The loop of `Microsurface::sample`, from the state `wr`, `hr`, `scatteringOrder` and the
random source.  The result is the returned direction, the value left in `scatteringOrder` and the
random source. -/
def Microsurface.sampleLoop (powf : F → F → F) (mat : Material F) (ms : Microsurface F) :
    Nat → Vector3f F → F → Int → Rng F → Option (Vector3f F × Int × Rng F)
  | 0, _, _, _, _ => none
  | fuel + 1, wr, hr, scatteringOrder, g =>
    let u := generateRandomNumber g
    let hr := ms.sampleHeight powf wr hr u.1
    if hr == FLT_MAX then some (wr, scatteringOrder, u.2)
    else
      let scatteringOrder := scatteringOrder + 1
      let w := mat.samplePhaseFunction ms (-wr) u.2
      if (hr != hr) || (w.1.z != w.1.z) then some (⟨lit 0, lit 0, lit 1⟩, scatteringOrder, w.2)
      else Microsurface.sampleLoop powf mat ms fuel w.1 hr scatteringOrder w.2

/-- The function `Microsurface::sample(wi, scatteringOrder)`. -/
def Microsurface.sample (powf : F → F → F) (mat : Material F) (ms : Microsurface F) (fuel : Nat)
    (wi : Vector3f F) (g : Rng F) : Option (Vector3f F × Int × Rng F) :=
  let wr := -wi
  let hr := lit 1.0 + ms.m_microsurfaceheight.invC1 (lit 0.999)
  ms.sampleLoop powf mat fuel wr hr 0 g

/-- The loop of `Microsurface::eval`, from the state `wr`, `hr`, `sum`,
`current_scatteringOrder` and the random source.  The result is the returned value and the random
source. -/
def Microsurface.evalLoop (powf : F → F → F) (mat : Material F) (ms : Microsurface F)
    (wo : Vector3f F) (scatteringOrder : Int) :
    Nat → Vector3f F → F → F → Int → Rng F → Option (F × Rng F)
  | fuel, wr, hr, sum, current_scatteringOrder, g =>
    if scatteringOrder == 0 || current_scatteringOrder ≤ scatteringOrder then
      match fuel with
      | 0 => none
      | fuel + 1 =>
        let u := generateRandomNumber g
        let hr := ms.sampleHeight powf wr hr u.1
        if hr == FLT_MAX then some (sum, u.2)
        else
          let current_scatteringOrder := current_scatteringOrder + 1
          let phasefunction := mat.evalPhaseFunction ms (-wr) wo u.2
          let shadowing := ms.G_1_h powf wo hr
          let I := phasefunction.1 * shadowing
          let sum :=
            if IsFiniteNumber I &&
                (scatteringOrder == 0 || current_scatteringOrder == scatteringOrder) then sum + I
            else sum
          let w := mat.samplePhaseFunction ms (-wr) phasefunction.2
          if (hr != hr) || (w.1.z != w.1.z) then some (lit 0.0, w.2)
          else Microsurface.evalLoop powf mat ms wo scatteringOrder fuel w.1 hr sum
            current_scatteringOrder w.2
    else some (sum, g)

/-- The function `Microsurface::eval(wi, wo, scatteringOrder)`. -/
def Microsurface.eval (powf : F → F → F) (mat : Material F) (ms : Microsurface F) (fuel : Nat)
    (wi wo : Vector3f F) (scatteringOrder : Int) (g : Rng F) : Option (F × Rng F) :=
  if wo.z < lit 0 then some (lit 0, g)
  else
    let wr := -wi
    let hr := lit 1.0 + ms.m_microsurfaceheight.invC1 (lit 0.999)
    ms.evalLoop powf mat wo scatteringOrder fuel wr hr (lit 0) 0 g

/-! ## The conductor material -/

/-- The function `MicrosurfaceConductor::evalPhaseFunction`. -/
def MicrosurfaceConductor.evalPhaseFunction (sqrtf : F → F) (ms : Microsurface F)
    (wi wo : Vector3f F) : F :=
  let wh := Normalize sqrtf (wi + wo)
  if wh.z < lit 0.0 then lit 0.0
  else lit 0.25 * ms.m_microsurfaceslope.D_wi wi wh ms.m_alphau ms.m_alphav / Dot wi wh

/-- The function `MicrosurfaceConductor::evalSingleScattering`. -/
def MicrosurfaceConductor.evalSingleScattering (sqrtf : F → F) (ms : Microsurface F)
    (wi wo : Vector3f F) : F :=
  let wh := Normalize sqrtf (wi + wo)
  let D := ms.m_microsurfaceslope.D wh ms.m_alphau ms.m_alphav
  let G2 := lit 1.0 / (lit 1.0 + ms.m_microsurfaceslope.Lambda wi ms.m_alphau ms.m_alphav
    + ms.m_microsurfaceslope.Lambda wo ms.m_alphau ms.m_alphav)
  D * G2 / (lit 4.0 * wi.z)

/-- The class `MicrosurfaceConductor` as a material.  Its `samplePhaseFunction` (reflection about
a sampled visible normal) is a parameter: the samplers of the slope distributions are not part of
this development. -/
def MicrosurfaceConductor (sqrtf : F → F)
    (samplePhaseFunction : Microsurface F → Vector3f F → Rng F → Vector3f F × Rng F) :
    Material F :=
  { evalPhaseFunction := fun ms wi wo g => (MicrosurfaceConductor.evalPhaseFunction sqrtf ms wi wo, g)
    samplePhaseFunction := samplePhaseFunction
    evalSingleScattering := fun ms wi wo g =>
      (MicrosurfaceConductor.evalSingleScattering sqrtf ms wi wo, g) }

/-! ## The dielectric material -/

/-- The function `MicrosurfaceDielectric::refract`. -/
def MicrosurfaceDielectric.refract (sqrtf : F → F) (wi wm : Vector3f F) (eta : F) : Vector3f F :=
  let cos_theta_i := Dot wi wm
  let cos_theta_t2 := lit 1.0 - (lit 1.0 - cos_theta_i * cos_theta_i) / (eta * eta)
  let cos_theta_t := -(sqrtf (stdmax (lit 0.0) cos_theta_t2))
  wm.mul (Dot wi wm / eta + cos_theta_t) - wi.div eta

/-- The function `MicrosurfaceDielectric::Fresnel`. -/
def MicrosurfaceDielectric.Fresnel (sqrtf : F → F) (wi wm : Vector3f F) (eta : F) : F :=
  let cos_theta_i := Dot wi wm
  let cos_theta_t2 := lit 1.0 - (lit 1.0 - cos_theta_i * cos_theta_i) / (eta * eta)
  if cos_theta_t2 ≤ lit 0.0 then lit 1.0
  else
    let cos_theta_t := sqrtf cos_theta_t2
    let Rs := (cos_theta_i - eta * cos_theta_t) / (cos_theta_i + eta * cos_theta_t)
    let Rp := (eta * cos_theta_i - cos_theta_t) / (eta * cos_theta_i + cos_theta_t)
    lit 0.5 * (Rs * Rs + Rp * Rp)

/-- The function `MicrosurfaceDielectric::samplePhaseFunction(wi, wi_outside, wo_outside)` of an
instance with relative index `m_eta`.  The reference parameter `wo_outside` is passed in with the
value the caller's variable holds and returned with the value it holds afterwards. -/
def MicrosurfaceDielectric.samplePhaseFunction (sqrtf acosf cosf sinf : F → F)
    (atan2 : F → F → F) (sampleP22_11 : F → F → F → Vector2f F) (m_eta : F)
    (ms : Microsurface F) (wi : Vector3f F) (wi_outside wo_outside : Bool) (g : Rng F) :
    Vector3f F × Bool × Rng F :=
  let u1 := generateRandomNumber g
  let u2 := generateRandomNumber u1.2
  let eta := if wi_outside then m_eta else lit 1.0 / m_eta
  let wm :=
    if wi_outside then
      MicrosurfaceSlope.sampleD_wi sqrtf acosf cosf sinf atan2 sampleP22_11 wi u1.1 u2.1
        ms.m_alphau ms.m_alphav
    else
      -(MicrosurfaceSlope.sampleD_wi sqrtf acosf cosf sinf atan2 sampleP22_11 (-wi) u1.1 u2.1
        ms.m_alphau ms.m_alphav)
  let F_ := MicrosurfaceDielectric.Fresnel sqrtf wi wm eta
  let u3 := generateRandomNumber u2.2
  if u3.1 < F_ then
    let wo := -wi + (Vector3f.smul (lit 2.0) wm).mul (Dot wi wm)
    (wo, wo_outside, u3.2)
  else
    let wo := MicrosurfaceDielectric.refract sqrtf wi wm eta
    (Normalize sqrtf wo, !wi_outside, u3.2)

/-! ## The diffuse material -/

/-- The function `buildOrthonormalBasis`: the pair of outputs (`omega_1`, `omega_2`). -/
def buildOrthonormalBasis (omega_3 : Vector3f F) : Vector3f F × Vector3f F :=
  if omega_3.z < -(lit 0.9999999) then
    (⟨lit 0.0, -(lit 1.0), lit 0.0⟩, ⟨-(lit 1.0), lit 0.0, lit 0.0⟩)
  else
    let a := lit 1.0 / (lit 1.0 + omega_3.z)
    let b := -omega_3.x * omega_3.y * a
    (⟨lit 1.0 - omega_3.x * omega_3.x * a, b, -omega_3.x⟩,
      ⟨b, lit 1.0 - omega_3.y * omega_3.y * a, -omega_3.y⟩)

/-- The concentric map of `MicrosurfaceDiffuse::samplePhaseFunction`: the pair (`r`, `phi`)
computed from `r1`, `r2`. -/
def MicrosurfaceDiffuse.concentricMap (M_PI r1 r2 : F) : F × F :=
  if (r1 == lit 0) && (r2 == lit 0) then (lit 0, lit 0)
  else if r1 * r1 > r2 * r2 then (r1, (M_PI / lit 4.0) * (r2 / r1))
  else (r2, (M_PI / lit 2.0) - (r1 / r2) * (M_PI / lit 4.0))

/-- The function `MicrosurfaceDiffuse::samplePhaseFunction`. -/
def MicrosurfaceDiffuse.samplePhaseFunction (M_PI : F) (sqrtf acosf cosf sinf : F → F)
    (atan2 : F → F → F) (sampleP22_11 : F → F → F → Vector2f F) (ms : Microsurface F)
    (wi : Vector3f F) (g : Rng F) : Vector3f F × Rng F :=
  let u1 := generateRandomNumber g
  let u2 := generateRandomNumber u1.2
  let u3 := generateRandomNumber u2.2
  let u4 := generateRandomNumber u3.2
  let wm := MicrosurfaceSlope.sampleD_wi sqrtf acosf cosf sinf atan2 sampleP22_11 wi u1.1 u2.1
    ms.m_alphau ms.m_alphav
  let w := buildOrthonormalBasis wm
  let r1 := lit 2.0 * u3.1 - lit 1.0
  let r2 := lit 2.0 * u4.1 - lit 1.0
  let c := MicrosurfaceDiffuse.concentricMap M_PI r1 r2
  let x := c.1 * cosf c.2
  let y := c.1 * sinf c.2
  let z := sqrtf (stdmax (lit 0.0) (lit 1.0 - x * x - y * y))
  let wo := Vector3f.smul x w.1 + Vector3f.smul y w.2 + Vector3f.smul z wm
  (wo, u4.2)

/-! ## Traces of the random walk

The hypotheses "the walk makes `n` bounces and then escapes" of the statements below are phrased
with these functions, which replay the calls of one iteration of the loops of `sample` and `eval`
in the order of the source. -/

/-- One bounce of the walk of `Microsurface::sample` from the state (`wr`, `hr`, random source):
the height sample, then the phase-function sample.  The result is `none` when the sampled height
is the escape sentinel or the NaN test fires, and the next state otherwise. -/
def Microsurface.sampleBounce (powf : F → F → F) (mat : Material F) (ms : Microsurface F)
    (s : Vector3f F × F × Rng F) : Option (Vector3f F × F × Rng F) :=
  let u := generateRandomNumber s.2.2
  let hr := ms.sampleHeight powf s.1 s.2.1 u.1
  if hr == FLT_MAX then none
  else
    let w := mat.samplePhaseFunction ms (-s.1) u.2
    if (hr != hr) || (w.1.z != w.1.z) then none else some (w.1, hr, w.2)

/-- The state of the walk of `Microsurface::sample` after `n` bounces from the state `s`, when none
of them escapes or fires the NaN test. -/
def Microsurface.sampleWalk (powf : F → F → F) (mat : Material F) (ms : Microsurface F) :
    Nat → Vector3f F × F × Rng F → Option (Vector3f F × F × Rng F)
  | 0, s => some s
  | n + 1, s =>
    match ms.sampleBounce powf mat s with
    | none => none
    | some s' => Microsurface.sampleWalk powf mat ms n s'

/-- One bounce of the walk of `Microsurface::eval` towards `wo` from the state (`wr`, `hr`, random
source): the height sample, the next-event term `I = evalPhaseFunction(-wr, wo) * G_1(wo, hr)`,
then the phase-function sample.  The result is `none` when the sampled height is the escape
sentinel or the NaN test fires, and the term with the next state otherwise. -/
def Microsurface.evalBounce (powf : F → F → F) (mat : Material F) (ms : Microsurface F)
    (wo : Vector3f F) (s : Vector3f F × F × Rng F) : Option (F × (Vector3f F × F × Rng F)) :=
  let u := generateRandomNumber s.2.2
  let hr := ms.sampleHeight powf s.1 s.2.1 u.1
  if hr == FLT_MAX then none
  else
    let phasefunction := mat.evalPhaseFunction ms (-s.1) wo u.2
    let shadowing := ms.G_1_h powf wo hr
    let I := phasefunction.1 * shadowing
    let w := mat.samplePhaseFunction ms (-s.1) phasefunction.2
    if (hr != hr) || (w.1.z != w.1.z) then none else some (I, (w.1, hr, w.2))

/-- The next-event terms of the first `n` bounces of the walk of `Microsurface::eval` from the
state `s`, in order, and the state after them, when none of these bounces escapes or fires the NaN
test. -/
def Microsurface.evalWalk (powf : F → F → F) (mat : Material F) (ms : Microsurface F)
    (wo : Vector3f F) : Nat → Vector3f F × F × Rng F → Option (List F × (Vector3f F × F × Rng F))
  | 0, s => some ([], s)
  | n + 1, s =>
    match ms.evalBounce powf mat wo s with
    | none => none
    | some b =>
      match Microsurface.evalWalk powf mat ms wo n b.2 with
      | none => none
      | some r => some (b.1 :: r.1, r.2)

/-- What `eval` adds to `sum` for a next-event term `I`: the test `IsFiniteNumber(I)` drops a
term that is not finite. -/
def finiteTerm (I : F) : F := if IsFiniteNumber I then I else lit 0

/-! ## Scalars with a NaN

Exact rationals extended by one NaN value: arithmetic propagates the NaN and every comparison with
it, `==` included, is false, as for floats. -/

/-- A rational number or NaN. -/
inductive NanRat where
  | nan : NanRat
  | fin (q : ℚ) : NanRat

/-- Lifts a binary operation on rationals, propagating NaN. -/
def NanRat.map₂ (f : ℚ → ℚ → ℚ) : NanRat → NanRat → NanRat
  | NanRat.fin a, NanRat.fin b => NanRat.fin (f a b)
  | _, _ => NanRat.nan

/-- Lifts a comparison on rationals; false when an argument is NaN. -/
def NanRat.cmp (f : ℚ → ℚ → Bool) : NanRat → NanRat → Bool
  | NanRat.fin a, NanRat.fin b => f a b
  | _, _ => false

instance : RatCast NanRat := ⟨NanRat.fin⟩

instance : Add NanRat := ⟨NanRat.map₂ (fun a b => a + b)⟩

instance : Sub NanRat := ⟨NanRat.map₂ (fun a b => a - b)⟩

instance : Mul NanRat := ⟨NanRat.map₂ (fun a b => a * b)⟩

instance : Div NanRat := ⟨fun x y =>
  match x, y with
  | NanRat.fin a, NanRat.fin b => if b = 0 then NanRat.nan else NanRat.fin (a / b)
  | _, _ => NanRat.nan⟩

instance : Neg NanRat := ⟨fun x =>
  match x with
  | NanRat.fin a => NanRat.fin (-a)
  | NanRat.nan => NanRat.nan⟩

instance : LT NanRat := ⟨fun x y => NanRat.cmp (fun a b => decide (a < b)) x y = true⟩

instance : LE NanRat := ⟨fun x y => NanRat.cmp (fun a b => decide (a ≤ b)) x y = true⟩

instance : BEq NanRat := ⟨NanRat.cmp (fun a b => decide (a = b))⟩

instance : DecidableRel (fun a b : NanRat => a < b) :=
  fun x y => inferInstanceAs (Decidable (NanRat.cmp (fun a b => decide (a < b)) x y = true))

instance : DecidableRel (fun a b : NanRat => a ≤ b) :=
  fun x y => inferInstanceAs (Decidable (NanRat.cmp (fun a b => decide (a ≤ b)) x y = true))

/-! ## Fixtures for concrete walks

Implementations of the material interface that are not in the source; the statements below are
instantiated with them on concrete walks. -/

/-- A test material: specular reflection about the macroscopic normal `(0, 0, 1)`, with the
constant phase function `1`; it draws no random number. -/
def mirrorMaterial : Material F :=
  { evalPhaseFunction := fun _ _ _ g => (lit 1, g)
    samplePhaseFunction := fun _ wi g => (⟨-wi.x, -wi.y, wi.z⟩, g)
    evalSingleScattering := fun _ _ _ g => (lit 0, g) }

/-- A test material whose sampled direction is NaN in every component. -/
def nanMaterial : Material NanRat :=
  { evalPhaseFunction := fun _ _ _ g => (NanRat.nan, g)
    samplePhaseFunction := fun _ _ g => (⟨NanRat.nan, NanRat.nan, NanRat.nan⟩, g)
    evalSingleScattering := fun _ _ _ g => (NanRat.nan, g) }

/-- A test slope distribution over `NanRat` that answers NaN to every query. -/
def nanSlope : MicrosurfaceSlope NanRat :=
  { P22 := fun _ _ _ _ => NanRat.nan
    Lambda := fun _ _ _ => NanRat.nan
    projectedArea := fun _ _ _ => NanRat.nan }

/-- The random source whose draws are all `1/2`, with nothing consumed yet. -/
def halfRng : Rng F := { draws := fun _ => lit 0.5, pos := 0 }

/-! ## The loops follow the walk -/

section Walk

set_option linter.unusedSectionVars false

theorem Vector3f.neg_def (v : Vector3f F) : -v = ⟨-v.x, -v.y, -v.z⟩ := rfl

theorem sampleLoop_step (powf : F → F → F) (mat : Material F) (ms : Microsurface F)
    (fuel : Nat) (s s1 : Vector3f F × F × Rng F) (order : Int)
    (hb : ms.sampleBounce powf mat s = some s1) :
    ms.sampleLoop powf mat (fuel + 1) s.1 s.2.1 order s.2.2
      = ms.sampleLoop powf mat fuel s1.1 s1.2.1 (order + 1) s1.2.2 := by
  unfold Microsurface.sampleBounce at hb
  rw [Microsurface.sampleLoop]
  simp only at hb ⊢
  split_ifs at hb ⊢ with h1 h2
  cases hb
  rfl

theorem sampleLoop_sampleWalk (powf : F → F → F) (mat : Material F) (ms : Microsurface F)
    (n : Nat) : ∀ (fuel : Nat) (s s' : Vector3f F × F × Rng F) (order : Int),
      ms.sampleWalk powf mat n s = some s' →
      ms.sampleLoop powf mat (fuel + n) s.1 s.2.1 order s.2.2
        = ms.sampleLoop powf mat fuel s'.1 s'.2.1 (order + n) s'.2.2 := by
  induction n with
  | zero =>
    intro fuel s s' order h
    simp only [Microsurface.sampleWalk, Option.some.injEq] at h
    subst h
    simp
  | succ n ih =>
    intro fuel s s' order h
    simp only [Microsurface.sampleWalk] at h
    cases hb : ms.sampleBounce powf mat s with
    | none => rw [hb] at h; cases h
    | some s1 =>
      rw [hb] at h
      have e := ih fuel s1 s' (order + 1) h
      rw [← add_assoc, sampleLoop_step powf mat ms (fuel + n) s s1 order hb, e]
      congr 1
      push_cast
      ring

theorem sampleWalk_succ (powf : F → F → F) (mat : Material F) (ms : Microsurface F)
    (n : Nat) : ∀ (s s' : Vector3f F × F × Rng F),
      ms.sampleWalk powf mat (n + 1) s = some s' →
      ∃ t, ms.sampleWalk powf mat n s = some t ∧ ms.sampleBounce powf mat t = some s' := by
  induction n with
  | zero =>
    intro s s' h
    refine ⟨s, rfl, ?_⟩
    simp only [Microsurface.sampleWalk] at h
    cases hb : ms.sampleBounce powf mat s with
    | none => simp only [hb] at h; cases h
    | some s1 =>
      simp only [hb, Option.some.injEq] at h
      rw [h]
  | succ n ih =>
    intro s s' h
    rw [Microsurface.sampleWalk] at h
    cases hb : ms.sampleBounce powf mat s with
    | none => simp only [hb] at h; cases h
    | some s1 =>
      simp only [hb] at h
      obtain ⟨t, ht, hbt⟩ := ih s1 s' h
      refine ⟨t, ?_, hbt⟩
      rw [Microsurface.sampleWalk]
      simp only [hb]
      exact ht

theorem sampleBounce_dir (powf : F → F → F) (mat : Material F) (ms : Microsurface F)
    (t s' : Vector3f F × F × Rng F) (h : ms.sampleBounce powf mat t = some s') :
    s'.1 = (mat.samplePhaseFunction ms (-t.1) (generateRandomNumber t.2.2).2).1 := by
  unfold Microsurface.sampleBounce at h
  simp only at h
  split_ifs at h
  cases h
  rfl

/-- C4. `sample` returns the final walk direction together with the number of bounces taken: when
the walk makes `n` bounces and the `(n+1)`-th height sample is the escape sentinel, the result is
the direction `wr` after the `n`-th bounce (the output of the `n`-th `samplePhaseFunction` call,
`-wi` when `n = 0`) with `scatteringOrder = n`; when instead the NaN test fires on the next
bounce, the result is the surface normal `(0, 0, 1)`. -/
theorem sample_final_direction (powf : F → F → F) (mat : Material F) (ms : Microsurface F)
    (wi : Vector3f F) (g : Rng F) (n fuel : Nat) (wr : Vector3f F) (hr : F) (g' : Rng F)
    (hfuel : n < fuel)
    (hwalk : ms.sampleWalk powf mat n
      (-wi, lit 1.0 + ms.m_microsurfaceheight.invC1 (lit 0.999), g) = some (wr, hr, g')) :
    (n = 0 → wr = -wi) ∧
    (0 < n → ∃ t, ms.sampleWalk powf mat (n - 1)
        (-wi, lit 1.0 + ms.m_microsurfaceheight.invC1 (lit 0.999), g) = some t ∧
        wr = (mat.samplePhaseFunction ms (-t.1) (generateRandomNumber t.2.2).2).1) ∧
    ((ms.sampleHeight powf wr hr (generateRandomNumber g').1 == FLT_MAX) = true →
      ms.sample powf mat fuel wi g = some (wr, (n : Int), (generateRandomNumber g').2)) ∧
    ((ms.sampleHeight powf wr hr (generateRandomNumber g').1 == FLT_MAX) = false →
      ((ms.sampleHeight powf wr hr (generateRandomNumber g').1
          != ms.sampleHeight powf wr hr (generateRandomNumber g').1) ||
        ((mat.samplePhaseFunction ms (-wr) (generateRandomNumber g').2).1.z
          != (mat.samplePhaseFunction ms (-wr) (generateRandomNumber g').2).1.z)) = true →
      ms.sample powf mat fuel wi g = some (⟨lit 0, lit 0, lit 1⟩, (n : Int) + 1,
        (mat.samplePhaseFunction ms (-wr) (generateRandomNumber g').2).2)) := by
  obtain ⟨fuel', rfl⟩ : ∃ fuel', fuel = fuel' + 1 + n := ⟨fuel - n - 1, by omega⟩
  have e := sampleLoop_sampleWalk powf mat ms n (fuel' + 1) _ _ 0 hwalk
  simp only [zero_add] at e
  refine ⟨?_, ?_, ?_, ?_⟩
  · intro h0
    subst h0
    simp only [Microsurface.sampleWalk, Option.some.injEq, Prod.mk.injEq] at hwalk
    exact hwalk.1.symm
  · intro hn
    obtain ⟨m, rfl⟩ : ∃ m, n = m + 1 := ⟨n - 1, by omega⟩
    obtain ⟨t, ht, hb⟩ := sampleWalk_succ powf mat ms m _ _ hwalk
    exact ⟨t, ht, sampleBounce_dir powf mat ms t _ hb⟩
  · intro hesc
    simp only [Microsurface.sample]
    rw [e, Microsurface.sampleLoop]
    simp only [hesc, if_true]
  · intro hesc hnan
    simp only [Microsurface.sample]
    rw [e, Microsurface.sampleLoop]
    simp only [hesc, hnan, if_true]
    simp

/-- C17. Dielectric `samplePhaseFunction wi wi_outside wo_outside`, with `wm` the sampled visible
normal (`sampleD_wi wi` outside, `-sampleD_wi (-wi)` inside), `eta` the relative index (`m_eta`
outside, `1 / m_eta` inside) and `U3` the third draw: when `U3 < Fresnel wi wm eta` it returns the
mirror direction `-wi + 2 * wm * Dot wi wm` and leaves the medium flag as it was; otherwise it
returns the normalised `refract wi wm eta` and sets the flag to `!wi_outside`.  Three draws are
consumed in both cases. -/
theorem dielectric_samplePhaseFunction_cases (sqrtf acosf cosf sinf : F → F) (atan2 : F → F → F)
    (sampleP22_11 : F → F → F → Vector2f F) (m_eta : F) (ms : Microsurface F) (wi : Vector3f F)
    (wi_outside wo_outside : Bool) (g : Rng F) (eta : F) (wm : Vector3f F)
    (heta : eta = if wi_outside then m_eta else lit 1.0 / m_eta)
    (hwm : wm =
      if wi_outside then
        MicrosurfaceSlope.sampleD_wi sqrtf acosf cosf sinf atan2 sampleP22_11 wi
          (g.draws g.pos) (g.draws (g.pos + 1)) ms.m_alphau ms.m_alphav
      else
        -(MicrosurfaceSlope.sampleD_wi sqrtf acosf cosf sinf atan2 sampleP22_11 (-wi)
          (g.draws g.pos) (g.draws (g.pos + 1)) ms.m_alphau ms.m_alphav)) :
    (g.draws (g.pos + 2) < MicrosurfaceDielectric.Fresnel sqrtf wi wm eta →
      MicrosurfaceDielectric.samplePhaseFunction sqrtf acosf cosf sinf atan2 sampleP22_11 m_eta
          ms wi wi_outside wo_outside g
        = (-wi + (Vector3f.smul (lit 2.0) wm).mul (Dot wi wm), wo_outside,
            ⟨g.draws, g.pos + 3⟩)) ∧
    (¬ g.draws (g.pos + 2) < MicrosurfaceDielectric.Fresnel sqrtf wi wm eta →
      MicrosurfaceDielectric.samplePhaseFunction sqrtf acosf cosf sinf atan2 sampleP22_11 m_eta
          ms wi wi_outside wo_outside g
        = (Normalize sqrtf (MicrosurfaceDielectric.refract sqrtf wi wm eta), !wi_outside,
            ⟨g.draws, g.pos + 3⟩)) := by
  subst heta hwm
  constructor
  · intro h
    simp only [MicrosurfaceDielectric.samplePhaseFunction, generateRandomNumber]
    rw [if_pos h]
  · intro h
    simp only [MicrosurfaceDielectric.samplePhaseFunction, generateRandomNumber]
    rw [if_neg h]

theorem D_wi_guards (s : MicrosurfaceSlope F) (wi wm : Vector3f F) (m_alpha_x m_alpha_y : F) :
    (wm.z ≤ lit 0.0 → s.D_wi wi wm m_alpha_x m_alpha_y = lit 0.0) ∧
      (¬ wm.z ≤ lit 0.0 → (s.projectedArea wi m_alpha_x m_alpha_y == lit 0) = true →
        s.D_wi wi wm m_alpha_x m_alpha_y = lit 0) := by
  constructor
  · intro h
    simp only [MicrosurfaceSlope.D_wi]
    rw [if_pos h]
  · intro h h0
    simp only [MicrosurfaceSlope.D_wi]
    rw [if_neg h, if_pos h0]

end Walk

/-! ## Exact arithmetic: basic facts -/

section Exact

variable {K : Type} [LinearOrderedField K]

theorem stdmin_eq_min (a b : K) : stdmin a b = min a b := by
  unfold stdmin
  split_ifs with h
  · exact (min_eq_right h.le).symm
  · exact (min_eq_left (not_lt.mp h)).symm

theorem stdmax_eq_max (a b : K) : stdmax a b = max a b := by
  unfold stdmax
  split_ifs with h
  · exact (max_eq_right h.le).symm
  · exact (max_eq_left (not_lt.mp h)).symm

theorem uniform_C1_eq (h : K) :
    MicrosurfaceHeightUniform.C1 h = min 1 (max 0 ((h + 1) / 2)) := by
  simp only [MicrosurfaceHeightUniform.C1, stdmin_eq_min, stdmax_eq_max, lit]
  norm_num
  ring_nf

theorem uniform_invC1_eq (U : K) :
    MicrosurfaceHeightUniform.invC1 U = max (-1) (min 1 (2 * U - 1)) := by
  simp only [MicrosurfaceHeightUniform.invC1, stdmin_eq_min, stdmax_eq_max, lit]
  norm_num

/-- C8. Round trip of the uniform height distribution: for `0 ≤ U < 1`, `C1 (invC1 U) = U`
exactly, and `invC1 U` lies in `[-1, 1]`. -/
theorem uniform_C1_invC1_roundtrip (U : K) (h0 : 0 ≤ U) (h1 : U < 1) :
    MicrosurfaceHeightUniform.C1 (MicrosurfaceHeightUniform.invC1 U) = U ∧
      -1 ≤ MicrosurfaceHeightUniform.invC1 U ∧ MicrosurfaceHeightUniform.invC1 U ≤ 1 := by
  have hinv : MicrosurfaceHeightUniform.invC1 U = 2 * U - 1 := by
    rw [uniform_invC1_eq, min_eq_right (by linarith), max_eq_right (by linarith)]
  refine ⟨?_, ?_, ?_⟩
  · rw [hinv, uniform_C1_eq]
    have : (2 * U - 1 + 1) / 2 = U := by ring
    rw [this, max_eq_right h0, min_eq_right h1.le]
  · rw [hinv]; linarith
  · rw [hinv]; linarith

theorem uniform_C1_invC1_roundtrip_witness :
    MicrosurfaceHeightUniform.C1 (MicrosurfaceHeightUniform.invC1 (1 / 4 : ℚ)) = 1 / 4 ∧
      -1 ≤ MicrosurfaceHeightUniform.invC1 (1 / 4 : ℚ) ∧
      MicrosurfaceHeightUniform.invC1 (1 / 4 : ℚ) ≤ 1 :=
  uniform_C1_invC1_roundtrip (1 / 4 : ℚ) (by norm_num) (by norm_num)

/-- C9. The uniform height CDF is a clamped, monotone map into `[0, 1]`: `C1 h ≤ C1 h'` for
`h ≤ h'`, `C1 h = 0` for `h ≤ -1`, `C1 h = 0.5 * (h + 1)` for `-1 ≤ h ≤ 1`, `C1 h = 1` for
`1 ≤ h`, and `0 ≤ C1 h ≤ 1`. -/
theorem uniform_C1_clamped_monotone (h h' : K) (hle : h ≤ h') :
    MicrosurfaceHeightUniform.C1 h ≤ MicrosurfaceHeightUniform.C1 h' ∧
      (h ≤ -1 → MicrosurfaceHeightUniform.C1 h = 0) ∧
      (-1 ≤ h → h ≤ 1 → MicrosurfaceHeightUniform.C1 h = 0.5 * (h + 1)) ∧
      (1 ≤ h → MicrosurfaceHeightUniform.C1 h = 1) ∧
      0 ≤ MicrosurfaceHeightUniform.C1 h ∧ MicrosurfaceHeightUniform.C1 h ≤ 1 := by
  refine ⟨?_, ?_, ?_, ?_, ?_, ?_⟩
  · rw [uniform_C1_eq, uniform_C1_eq]
    exact min_le_min le_rfl (max_le_max le_rfl (by linarith))
  · intro hm
    rw [uniform_C1_eq, max_eq_left (by linarith), min_eq_right zero_le_one]
  · intro hm hp
    rw [uniform_C1_eq, max_eq_right (by linarith), min_eq_right (by linarith)]
    norm_num
    ring
  · intro hp
    rw [uniform_C1_eq, max_eq_right (by linarith), min_eq_left (by linarith)]
  · rw [uniform_C1_eq]
    exact le_min zero_le_one (le_max_left _ _)
  · rw [uniform_C1_eq]
    exact min_le_left _ _

theorem uniform_C1_clamped_monotone_witness :
    MicrosurfaceHeightUniform.C1 (-2 : ℚ) ≤ MicrosurfaceHeightUniform.C1 (1 / 2 : ℚ) ∧
      MicrosurfaceHeightUniform.C1 (-2 : ℚ) = 0 ∧
      MicrosurfaceHeightUniform.C1 (1 / 2 : ℚ) = 0.5 * (1 / 2 + 1) ∧
      MicrosurfaceHeightUniform.C1 (3 : ℚ) = 1 :=
  ⟨(uniform_C1_clamped_monotone (-2 : ℚ) (1 / 2) (by norm_num)).1,
    (uniform_C1_clamped_monotone (-2 : ℚ) (1 / 2) (by norm_num)).2.1 (by norm_num),
    (uniform_C1_clamped_monotone (1 / 2 : ℚ) (1 / 2) le_rfl).2.2.1 (by norm_num) (by norm_num),
    (uniform_C1_clamped_monotone (3 : ℚ) 3 le_rfl).2.2.2.1 (by norm_num)⟩

theorem G_1_eq (ms : Microsurface K) (wi : Vector3f K) :
    ms.G_1 wi = if 0.9999 < wi.z then 1 else if wi.z ≤ 0 then 0
      else 1 / (1 + ms.m_microsurfaceslope.Lambda wi ms.m_alphau ms.m_alphav) := by
  simp only [Microsurface.G_1, lit]
  norm_num

theorem G_1_h_eq (powf : K → K → K) (ms : Microsurface K) (wi : Vector3f K) (h0 : K) :
    ms.G_1_h powf wi h0 = if 0.9999 < wi.z then 1 else if wi.z ≤ 0 then 0
      else powf (ms.m_microsurfaceheight.C1 h0)
        (ms.m_microsurfaceslope.Lambda wi ms.m_alphau ms.m_alphav) := by
  simp only [Microsurface.G_1_h, lit]
  norm_num

theorem fabsf_eq_abs (x : K) : fabsf x = |x| := by
  unfold fabsf
  simp only [lit]
  push_cast
  split_ifs with h
  · exact (abs_of_neg h).symm
  · exact (abs_of_nonneg (not_lt.mp h)).symm

theorem sampleHeight_eq (powf : K → K → K) (ms : Microsurface K) (wr : Vector3f K) (hr U : K) :
    ms.sampleHeight powf wr hr U =
      if 0.9999 < wr.z then FLT_MAX
      else if wr.z < -0.9999 then
        ms.m_microsurfaceheight.invC1 (U * ms.m_microsurfaceheight.C1 hr)
      else if |wr.z| < 13743895 / 2 ^ 37 then hr
      else if 1 - ms.G_1_h powf wr hr < U then FLT_MAX
      else ms.m_microsurfaceheight.invC1 (ms.m_microsurfaceheight.C1 hr /
        powf (1 - U) (1 / ms.m_microsurfaceslope.Lambda wr ms.m_alphau ms.m_alphav)) := by
  simp only [Microsurface.sampleHeight, fabsf_eq_abs, lit]
  norm_num

/-- C7. Mean-level masking: `G_1 wi` is `1` when `wi.z > 0.9999`, `0` when `wi.z ≤ 0`, and
`1 / (1 + Lambda wi)` otherwise. -/
theorem G_1_cases (ms : Microsurface K) (wi : Vector3f K) :
    (0.9999 < wi.z → ms.G_1 wi = 1) ∧
      (wi.z ≤ 0 → ms.G_1 wi = 0) ∧
      (0 < wi.z → wi.z ≤ 0.9999 →
        ms.G_1 wi = 1 / (1 + ms.m_microsurfaceslope.Lambda wi ms.m_alphau ms.m_alphav)) := by
  have h9 : (0 : K) < 0.9999 := by norm_num
  refine ⟨?_, ?_, ?_⟩
  · intro h
    rw [G_1_eq, if_pos h]
  · intro h
    rw [G_1_eq, if_neg (by linarith), if_pos h]
  · intro h0 h1
    rw [G_1_eq, if_neg (not_lt.mpr h1), if_neg (not_le.mpr h0)]

/-- Amended C6. Height-conditioned masking: `G_1 wi h0` is `1` when `wi.z > 0.9999`, `0` when
`wi.z ≤ 0`, and `C1 h0` raised to the power `Lambda wi` otherwise. -/
theorem G_1_h_cases (powf : K → K → K) (ms : Microsurface K) (wi : Vector3f K) (h0 : K) :
    (0.9999 < wi.z → ms.G_1_h powf wi h0 = 1) ∧
      (wi.z ≤ 0 → ms.G_1_h powf wi h0 = 0) ∧
      (0 < wi.z → wi.z ≤ 0.9999 →
        ms.G_1_h powf wi h0 = powf (ms.m_microsurfaceheight.C1 h0)
          (ms.m_microsurfaceslope.Lambda wi ms.m_alphau ms.m_alphav)) := by
  have h9 : (0 : K) < 0.9999 := by norm_num
  refine ⟨?_, ?_, ?_⟩
  · intro h
    rw [G_1_h_eq, if_pos h]
  · intro h
    rw [G_1_h_eq, if_neg (by linarith), if_pos h]
  · intro h0 h1
    rw [G_1_h_eq, if_neg (not_lt.mpr h1), if_neg (not_le.mpr h0)]

/-- Amended C5. Case analysis of `sampleHeight wr hr U`: the escape sentinel when
`wr.z > 0.9999`; `invC1 (U * C1 hr)` when `wr.z < -0.9999`; `hr` when `|wr.z|` is below the
`float` `0.0001f = 13743895 / 2 ^ 37` (which is less than `1e-4`); otherwise, from
`|wr.z| = 0.0001f` on, the sentinel when `U > 1 - G_1 wr hr` and
`invC1 (C1 hr / (1 - U) ^ (1 / Lambda wr))` when not, so that for a height distribution whose
`invC1` never yields the sentinel the walk escapes exactly when `U > 1 - G_1 wr hr`. -/
theorem sampleHeight_cases (powf : K → K → K) (ms : Microsurface K) (wr : Vector3f K) (hr U : K) :
    (0.9999 < wr.z → ms.sampleHeight powf wr hr U = FLT_MAX) ∧
      (wr.z < -0.9999 →
        ms.sampleHeight powf wr hr U
          = ms.m_microsurfaceheight.invC1 (U * ms.m_microsurfaceheight.C1 hr)) ∧
      (-0.9999 ≤ wr.z → wr.z ≤ 0.9999 → |wr.z| < 13743895 / 2 ^ 37 →
        ms.sampleHeight powf wr hr U = hr) ∧
      (-0.9999 ≤ wr.z → wr.z ≤ 0.9999 → 13743895 / 2 ^ 37 ≤ |wr.z| →
        (1 - ms.G_1_h powf wr hr < U → ms.sampleHeight powf wr hr U = FLT_MAX) ∧
        (U ≤ 1 - ms.G_1_h powf wr hr →
          ms.sampleHeight powf wr hr U
            = ms.m_microsurfaceheight.invC1 (ms.m_microsurfaceheight.C1 hr /
                powf (1 - U) (1 / ms.m_microsurfaceslope.Lambda wr ms.m_alphau ms.m_alphav))) ∧
        ((∀ x, ms.m_microsurfaceheight.invC1 x ≠ FLT_MAX) →
          (ms.sampleHeight powf wr hr U = FLT_MAX ↔ 1 - ms.G_1_h powf wr hr < U))) := by
  have h9 : (0 : K) < 0.9999 := by norm_num
  refine ⟨?_, ?_, ?_, ?_⟩
  · intro h
    rw [sampleHeight_eq, if_pos h]
  · intro h
    rw [sampleHeight_eq, if_neg (by linarith), if_pos h]
  · intro h1 h2 h3
    rw [sampleHeight_eq, if_neg (not_lt.mpr h2), if_neg (not_lt.mpr h1), if_pos h3]
  · intro h1 h2 h3
    have e : ms.sampleHeight powf wr hr U =
        if 1 - ms.G_1_h powf wr hr < U then FLT_MAX
        else ms.m_microsurfaceheight.invC1 (ms.m_microsurfaceheight.C1 hr /
          powf (1 - U) (1 / ms.m_microsurfaceslope.Lambda wr ms.m_alphau ms.m_alphav)) := by
      rw [sampleHeight_eq, if_neg (not_lt.mpr h2), if_neg (not_lt.mpr h1),
        if_neg (not_lt.mpr h3)]
    refine ⟨?_, ?_, ?_⟩
    · intro h
      rw [e, if_pos h]
    · intro h
      rw [e, if_neg (not_lt.mpr h)]
    · intro hinv
      rw [e]
      constructor
      · intro h
        by_contra hc
        rw [if_neg hc] at h
        exact hinv _ h
      · intro h
        rw [if_pos h]

/-! ## The loop of `eval` -/

theorem lit_zero : (lit 0 : K) = 0 := by simp [lit]

theorem evalLoop_exit (powf : K → K → K) (mat : Material K) (ms : Microsurface K)
    (wo : Vector3f K) (order : Int) (fuel : Nat) (wr : Vector3f K) (hr sum : K) (c : Int)
    (g : Rng K) (h0 : order ≠ 0) (hc : order < c) :
    ms.evalLoop powf mat wo order fuel wr hr sum c g = some (sum, g) := by
  rw [Microsurface.evalLoop.eq_def]
  have : ¬ c ≤ order := not_le.mpr hc
  simp [h0, this]

theorem evalLoop_escape (powf : K → K → K) (mat : Material K) (ms : Microsurface K)
    (wo : Vector3f K) (order : Int) (fuel : Nat) (s : Vector3f K × K × Rng K) (sum : K) (c : Int)
    (hg : order = 0 ∨ c ≤ order)
    (hesc : ms.sampleHeight powf s.1 s.2.1 (generateRandomNumber s.2.2).1 = FLT_MAX) :
    ms.evalLoop powf mat wo order (fuel + 1) s.1 s.2.1 sum c s.2.2
      = some (sum, (generateRandomNumber s.2.2).2) := by
  rw [Microsurface.evalLoop]
  have hg' : (order == 0 || decide (c ≤ order)) = true := by
    rcases hg with h | h <;> simp [h]
  simp only [hg', if_true, hesc, beq_self_eq_true]

theorem evalLoop_step (powf : K → K → K) (mat : Material K) (ms : Microsurface K)
    (wo : Vector3f K) (order : Int) (fuel : Nat) (s : Vector3f K × K × Rng K) (sum : K) (c : Int)
    (b : K × (Vector3f K × K × Rng K))
    (hg : order = 0 ∨ c ≤ order) (hb : ms.evalBounce powf mat wo s = some b) :
    ms.evalLoop powf mat wo order (fuel + 1) s.1 s.2.1 sum c s.2.2
      = ms.evalLoop powf mat wo order fuel b.2.1 b.2.2.1
          (if IsFiniteNumber b.1 && (order == 0 || c + 1 == order) then sum + b.1 else sum)
          (c + 1) b.2.2.2 := by
  unfold Microsurface.evalBounce at hb
  rw [Microsurface.evalLoop]
  have hg' : (order == 0 || decide (c ≤ order)) = true := by
    rcases hg with h | h <;> simp [h]
  simp only [hg', if_true]
  simp only at hb
  split_ifs at hb with h1 h2
  cases hb
  simp only [if_neg h1, if_neg h2]

theorem evalWalk_length (powf : K → K → K) (mat : Material K) (ms : Microsurface K)
    (wo : Vector3f K) (n : Nat) : ∀ (s : Vector3f K × K × Rng K)
      (r : List K × (Vector3f K × K × Rng K)),
      ms.evalWalk powf mat wo n s = some r → r.1.length = n := by
  induction n with
  | zero =>
    intro s r h
    simp only [Microsurface.evalWalk, Option.some.injEq] at h
    subst h
    rfl
  | succ n ih =>
    intro s r h
    simp only [Microsurface.evalWalk] at h
    cases hb : ms.evalBounce powf mat wo s with
    | none => rw [hb] at h; cases h
    | some b =>
      simp only [hb] at h
      cases hr : ms.evalWalk powf mat wo n b.2 with
      | none => simp only [hr] at h; cases h
      | some r' =>
        simp only [hr, Option.some.injEq] at h
        subst h
        simp [ih b.2 r' hr]

theorem evalLoop_all_orders (powf : K → K → K) (mat : Material K) (ms : Microsurface K)
    (wo : Vector3f K) (n : Nat) : ∀ (fuel : Nat) (s : Vector3f K × K × Rng K) (sum : K) (c : Int)
      (r : List K × (Vector3f K × K × Rng K)),
      ms.evalWalk powf mat wo n s = some r →
      ms.sampleHeight powf r.2.1 r.2.2.1 (generateRandomNumber r.2.2.2).1 = FLT_MAX →
      (ms.evalLoop powf mat wo 0 (fuel + n + 1) s.1 s.2.1 sum c s.2.2).map Prod.fst
        = some (sum + (r.1.map finiteTerm).sum) := by
  induction n with
  | zero =>
    intro fuel s sum c r h hesc
    simp only [Microsurface.evalWalk, Option.some.injEq] at h
    subst h
    rw [evalLoop_escape powf mat ms wo 0 (fuel + 0) s sum c (Or.inl rfl) hesc]
    simp
  | succ n ih =>
    intro fuel s sum c r h hesc
    simp only [Microsurface.evalWalk] at h
    cases hb : ms.evalBounce powf mat wo s with
    | none => simp only [hb] at h; cases h
    | some b =>
      simp only [hb] at h
      cases hr : ms.evalWalk powf mat wo n b.2 with
      | none => simp only [hr] at h; cases h
      | some r' =>
        simp only [hr, Option.some.injEq] at h
        subst h
        have e := ih fuel b.2 (if IsFiniteNumber b.1 && ((0 : Int) == 0 || c + 1 == 0)
          then sum + b.1 else sum) (c + 1) r' hr hesc
        rw [show fuel + (n + 1) + 1 = (fuel + n + 1) + 1 by ring,
          evalLoop_step powf mat ms wo 0 (fuel + n + 1) s sum c b (Or.inl rfl) hb, e]
        simp only [List.map_cons, List.sum_cons, finiteTerm, lit_zero, beq_self_eq_true,
          Bool.true_or, Bool.and_true]
        split_ifs <;> simp [add_assoc]

theorem evalLoop_one_order (powf : K → K → K) (mat : Material K) (ms : Microsurface K)
    (wo : Vector3f K) (k : Int) (hk : k ≠ 0) (n : Nat) :
    ∀ (fuel : Nat) (s : Vector3f K × K × Rng K) (sum : K) (c : Int)
      (r : List K × (Vector3f K × K × Rng K)),
      ms.evalWalk powf mat wo n s = some r →
      ms.sampleHeight powf r.2.1 r.2.2.1 (generateRandomNumber r.2.2.2).1 = FLT_MAX →
      (ms.evalLoop powf mat wo k (fuel + n + 1) s.1 s.2.1 sum c s.2.2).map Prod.fst
        = some (sum + if c < k then (r.1.map finiteTerm).getD (k - c - 1).toNat 0 else 0) := by
  induction n with
  | zero =>
    intro fuel s sum c r h hesc
    simp only [Microsurface.evalWalk, Option.some.injEq] at h
    subst h
    by_cases hc : c ≤ k
    · rw [evalLoop_escape powf mat ms wo k (fuel + 0) s sum c (Or.inr hc) hesc]
      simp
    · rw [evalLoop_exit powf mat ms wo k _ s.1 s.2.1 sum c s.2.2 hk (not_le.mp hc)]
      simp
  | succ n ih =>
    intro fuel s sum c r h hesc
    simp only [Microsurface.evalWalk] at h
    cases hb : ms.evalBounce powf mat wo s with
    | none => simp only [hb] at h; cases h
    | some b =>
      simp only [hb] at h
      cases hr : ms.evalWalk powf mat wo n b.2 with
      | none => simp only [hr] at h; cases h
      | some r' =>
        simp only [hr, Option.some.injEq] at h
        subst h
        by_cases hc : c ≤ k
        · have e := ih fuel b.2 (if IsFiniteNumber b.1 && (k == 0 || c + 1 == k)
            then sum + b.1 else sum) (c + 1) r' hr hesc
          rw [show fuel + (n + 1) + 1 = (fuel + n + 1) + 1 by ring,
            evalLoop_step powf mat ms wo k (fuel + n + 1) s sum c b (Or.inr hc) hb, e]
          have hk' : (k == 0) = false := by simpa using hk
          simp only [hk', Bool.false_or, List.map_cons]
          rcases lt_trichotomy (c + 1) k with h1 | h1 | h1
          · have h2 : c < k := by omega
            have h3 : ¬ (c + 1 = k) := by omega
            have h4 : (k - c - 1).toNat = (k - (c + 1) - 1).toNat + 1 := by omega
            simp [h1, h2, h3, h4]
          · have h2 : c < k := by omega
            have h3 : ¬ (c + 1 < k) := by omega
            have h4 : (k - c - 1).toNat = 0 := by omega
            have h5 : (c + 1 == k) = true := by simpa using h1
            rw [if_neg h3, if_pos h2, h4, h5]
            simp only [Bool.and_true, List.getD_cons_zero, finiteTerm, lit_zero, add_zero]
            split_ifs <;> simp
          · have h2 : ¬ c < k := by omega
            have h3 : ¬ (c + 1 < k) := by omega
            have h5 : (c + 1 == k) = false := by
              simp only [beq_eq_false_iff_ne, ne_eq]
              omega
            rw [if_neg h3, if_neg h2, h5]
            simp
        · rw [evalLoop_exit powf mat ms wo k _ s.1 s.2.1 sum c s.2.2 hk (not_le.mp hc)]
          have : ¬ c < k := by omega
          simp [this]


theorem sum_getD_range (L : List K) : ∑ i in Finset.range L.length, L.getD i 0 = L.sum := by
  induction L with
  | nil => simp
  | cons a t ih =>
    rw [List.length_cons, Finset.sum_range_succ']
    simp only [List.getD_cons_succ, List.getD_cons_zero, List.sum_cons, ih]
    ring

theorem sum_Icc_getD (L : List K) (n : Nat) (hn : L.length = n) :
    ∑ k in Finset.Icc 1 n, L.getD (k - 1) 0 = L.sum := by
  rw [← Nat.Ico_succ_right, Finset.sum_Ico_eq_sum_range, ← sum_getD_range, hn]
  apply Finset.sum_congr (by simp)
  intro i _
  congr 1
  omega

/-- C1. Bounce-order selection in `eval`: when the all-orders walk makes `n` bounces with next-event
terms `terms` and then escapes, then on the same draws `eval wi wo 0` is the sum over `k = 1..n` of
`eval wi wo k`, `eval wi wo k = 0` for `k > n`, and for `1 ≤ k ≤ n` the value of `eval wi wo k` is
the `k`-th bounce's term (as far as it passes the finiteness test of the accumulation). -/
theorem eval_order_selection (powf : K → K → K) (mat : Material K) (ms : Microsurface K)
    (wi wo : Vector3f K) (g : Rng K) (n fuel : Nat) (terms : List K)
    (s : Vector3f K × K × Rng K) (hfuel : n < fuel)
    (hwalk : ms.evalWalk powf mat wo n
      (-wi, lit 1.0 + ms.m_microsurfaceheight.invC1 (lit 0.999), g) = some (terms, s))
    (hesc : ms.sampleHeight powf s.1 s.2.1 (generateRandomNumber s.2.2).1 = FLT_MAX) :
    ∃ v : Nat → K,
      (∀ k : Nat, 1 ≤ k → (ms.eval powf mat fuel wi wo (k : Int) g).map Prod.fst = some (v k)) ∧
      (ms.eval powf mat fuel wi wo 0 g).map Prod.fst = some (∑ k in Finset.Icc 1 n, v k) ∧
      (∀ k : Nat, n < k → v k = 0) ∧
      (¬ wo.z < 0 → ∀ k : Nat, 1 ≤ k → k ≤ n → v k = finiteTerm (terms.getD (k - 1) 0)) := by
  obtain ⟨fuel', rfl⟩ : ∃ fuel', fuel = fuel' + n + 1 := ⟨fuel - n - 1, by omega⟩
  have hlen : terms.length = n := evalWalk_length powf mat ms wo n _ _ hwalk
  by_cases hwo : wo.z < 0
  · have hwo' : wo.z < lit 0 := by simpa [lit] using hwo
    refine ⟨fun _ => 0, ?_, ?_, ?_, ?_⟩
    · intro k _
      simp only [Microsurface.eval]
      rw [if_pos hwo']
      simp only [Option.map_some', lit_zero]
    · simp only [Microsurface.eval]
      rw [if_pos hwo']
      simp only [Option.map_some', lit_zero, Finset.sum_const_zero]
    · intro k _
      rfl
    · intro h
      exact absurd hwo h
  · have hwo' : ¬ wo.z < lit 0 := by simpa [lit] using hwo
    refine ⟨fun k => (terms.map finiteTerm).getD (k - 1) 0, ?_, ?_, ?_, ?_⟩
    · intro k hk
      have hk0 : (k : Int) ≠ 0 := by omega
      have e := evalLoop_one_order powf mat ms wo (k : Int) hk0 n fuel' _ (lit 0) 0 _ hwalk hesc
      simp only [Microsurface.eval, if_neg hwo']
      rw [e]
      have h1 : (0 : Int) < (k : Int) := by omega
      have h2 : ((k : Int) - 0 - 1).toNat = k - 1 := by omega
      simp [h1, h2, lit]
    · have e := evalLoop_all_orders powf mat ms wo n fuel' _ (lit 0) 0 _ hwalk hesc
      simp only [Microsurface.eval, if_neg hwo']
      rw [e, sum_Icc_getD _ n (by simpa using hlen)]
      simp [lit]
    · intro k hk
      apply List.getD_eq_default
      simp only [List.length_map, hlen]
      omega
    · intro _ k hk1 hk2
      have hlt : k - 1 < terms.length := by omega
      simp only
      rw [List.getD_eq_getElem _ _ (by simpa using hlt), List.getD_eq_getElem _ _ hlt]
      simp

theorem FLT_MAX_gt_one : (1 : K) < FLT_MAX := by
  simp only [FLT_MAX, lit]
  norm_num

theorem uniform_invC1_le_one (U : K) : MicrosurfaceHeightUniform.invC1 U ≤ 1 := by
  rw [uniform_invC1_eq]
  exact max_le (by norm_num) (min_le_left _ _)

theorem uniform_invC1_ne_FLT_MAX (U : K) : MicrosurfaceHeightUniform.invC1 U ≠ FLT_MAX :=
  ne_of_lt (lt_of_le_of_lt (uniform_invC1_le_one U) FLT_MAX_gt_one)

theorem evalBounce_of_ne (powf : K → K → K) (mat : Material K) (ms : Microsurface K)
    (wo : Vector3f K) (s : Vector3f K × K × Rng K)
    (h : ms.sampleHeight powf s.1 s.2.1 (generateRandomNumber s.2.2).1 ≠ FLT_MAX) :
    ∃ b, ms.evalBounce powf mat wo s = some b := by
  unfold Microsurface.evalBounce
  simp only [beq_iff_eq, if_neg h, bne_self_eq_false, Bool.or_self, Bool.false_eq_true, if_false]
  exact ⟨_, rfl⟩

theorem evalLoop_out_of_fuel (powf : K → K → K) (mat : Material K) (ms : Microsurface K)
    (wo : Vector3f K) (k : Int) (n : Nat) :
    ∀ (s : Vector3f K × K × Rng K) (sum : K) (c : Int)
      (r : List K × (Vector3f K × K × Rng K)),
      ms.evalWalk powf mat wo n s = some r → c + n ≤ k →
      ms.evalLoop powf mat wo k n s.1 s.2.1 sum c s.2.2 = none := by
  induction n with
  | zero =>
    intro s sum c r _ hc
    rw [Microsurface.evalLoop.eq_def]
    have : c ≤ k := by simpa using hc
    simp [this]
  | succ n ih =>
    intro s sum c r h hc
    simp only [Microsurface.evalWalk] at h
    cases hb : ms.evalBounce powf mat wo s with
    | none => simp only [hb] at h; cases h
    | some b =>
      simp only [hb] at h
      cases hr : ms.evalWalk powf mat wo n b.2 with
      | none => simp only [hr] at h; cases h
      | some r' =>
        have hc' : c ≤ k := by push_cast at hc; omega
        rw [evalLoop_step powf mat ms wo k n s sum c b (Or.inr hc') hb]
        exact ih b.2 _ (c + 1) r' hr (by push_cast at hc; omega)

theorem evalLoop_terminates (powf : K → K → K) (mat : Material K) (ms : Microsurface K)
    (wo : Vector3f K) (k : Int) (hk : k ≠ 0) (fuel : Nat) :
    ∀ (s : Vector3f K × K × Rng K) (sum : K) (c : Int), k < c + fuel →
      (ms.evalLoop powf mat wo k fuel s.1 s.2.1 sum c s.2.2).isSome = true := by
  induction fuel with
  | zero =>
    intro s sum c hc
    rw [evalLoop_exit powf mat ms wo k 0 s.1 s.2.1 sum c s.2.2 hk (by simpa using hc)]
    rfl
  | succ fuel ih =>
    intro s sum c hc
    by_cases hg : c ≤ k
    · by_cases hesc : ms.sampleHeight powf s.1 s.2.1 (generateRandomNumber s.2.2).1 = FLT_MAX
      · rw [evalLoop_escape powf mat ms wo k fuel s sum c (Or.inr hg) hesc]
        rfl
      · obtain ⟨b, hb⟩ := evalBounce_of_ne powf mat ms wo s hesc
        rw [evalLoop_step powf mat ms wo k fuel s sum c b (Or.inr hg) hb]
        exact ih b.2 _ (c + 1) (by push_cast at hc; omega)
    · rw [evalLoop_exit powf mat ms wo k _ s.1 s.2.1 sum c s.2.2 hk (not_le.mp hg)]
      rfl

/-- C2, what the code does. With uniform heights, `wi = wo = (0, 0, 1)` and `scatteringOrder = 1`,
for every material, slope distribution, roughness and random source: one execution of the loop
body does not end `eval` (the guard `current_scatteringOrder <= scatteringOrder` holds again after
the first bounce, so a height is drawn for a second bounce); two executions end it. -/
theorem eval_order_one_second_bounce (powf : K → K → K) (mat : Material K)
    (slope : MicrosurfaceSlope K) (alphau alphav : K) (g : Rng K) :
    Microsurface.eval powf mat ⟨MicrosurfaceHeightUniform, slope, alphau, alphav⟩ 1
        ⟨0, 0, 1⟩ ⟨0, 0, 1⟩ 1 g = none ∧
      (Microsurface.eval powf mat ⟨MicrosurfaceHeightUniform, slope, alphau, alphav⟩ 2
        ⟨0, 0, 1⟩ ⟨0, 0, 1⟩ 1 g).isSome = true := by
  have hz : ¬ ((1 : K) < lit 0) := by simp [lit]
  have h1 : ∀ hr U : K, Microsurface.sampleHeight powf
      ⟨MicrosurfaceHeightUniform, slope, alphau, alphav⟩ (-(⟨0, 0, 1⟩ : Vector3f K)) hr U
        ≠ FLT_MAX := by
    intro hr U
    rw [sampleHeight_eq]
    have e : (-(⟨0, 0, 1⟩ : Vector3f K)).z = -1 := rfl
    rw [e, if_neg (by norm_num), if_pos (by norm_num)]
    exact uniform_invC1_ne_FLT_MAX _
  constructor
  · simp only [Microsurface.eval, if_neg hz]
    obtain ⟨b, hb⟩ := evalBounce_of_ne powf mat
      ⟨MicrosurfaceHeightUniform, slope, alphau, alphav⟩ ⟨0, 0, 1⟩
      (-(⟨0, 0, 1⟩ : Vector3f K), lit 1.0 + MicrosurfaceHeightUniform.invC1 (lit 0.999), g)
      (h1 _ _)
    exact evalLoop_out_of_fuel powf mat _ ⟨0, 0, 1⟩ 1 1
      (-(⟨0, 0, 1⟩ : Vector3f K), lit 1.0 + MicrosurfaceHeightUniform.invC1 (lit 0.999), g)
      (lit 0) 0 (b.1 :: [], b.2) (by simp [Microsurface.evalWalk, hb]) (by norm_num)
  · simp only [Microsurface.eval, if_neg hz]
    exact evalLoop_terminates powf mat _ ⟨0, 0, 1⟩ 1 one_ne_zero 2
      (-(⟨0, 0, 1⟩ : Vector3f K), lit 1.0 + MicrosurfaceHeightUniform.invC1 (lit 0.999), g)
      (lit 0) 0 (by norm_num)
/-! ## Concrete walks -/

theorem halfRng_draw (g : Rng K) (h : g.draws = fun _ => lit 0.5) :
    (generateRandomNumber g).1 = 1 / 2 := by
  simp [generateRandomNumber, h, lit]
  norm_num

theorem uniform_first_height (powf : K → K → K) (slope : MicrosurfaceSlope K) (au av : K) :
    Microsurface.sampleHeight powf ⟨MicrosurfaceHeightUniform, slope, au, av⟩
      (-(⟨0, 0, 1⟩ : Vector3f K)) (lit 1.0 + MicrosurfaceHeightUniform.invC1 (lit 0.999))
      (1 / 2) = 0 := by
  rw [sampleHeight_eq]
  have e : (-(⟨0, 0, 1⟩ : Vector3f K)).z = -1 := rfl
  rw [e, if_neg (by norm_num), if_pos (by norm_num)]
  simp only [MicrosurfaceHeightUniform, uniform_C1_eq, uniform_invC1_eq, lit]
  norm_num

theorem sampleHeight_up (powf : K → K → K) (ms : Microsurface K) (hr U : K) :
    ms.sampleHeight powf ⟨0, 0, 1⟩ hr U = FLT_MAX := by
  rw [sampleHeight_eq, if_pos (by norm_num)]

theorem zero_ne_FLT_MAX : ((0 : K) == FLT_MAX) = false := by
  rw [beq_eq_false_iff_ne]
  exact ne_of_lt (lt_trans zero_lt_one FLT_MAX_gt_one)

theorem mirror_sampleWalk_one (powf : K → K → K) (slope : MicrosurfaceSlope K) :
    Microsurface.sampleWalk powf mirrorMaterial ⟨MicrosurfaceHeightUniform, slope, 1, 1⟩ 1
      (-(⟨0, 0, 1⟩ : Vector3f K), lit 1.0 + MicrosurfaceHeightUniform.invC1 (lit 0.999), halfRng)
      = some (⟨0, 0, 1⟩, 0, ⟨fun _ => lit 0.5, 1⟩) := by
  simp only [Microsurface.sampleWalk, Microsurface.sampleBounce]
  rw [halfRng_draw _ rfl, uniform_first_height]
  simp [zero_ne_FLT_MAX, mirrorMaterial, generateRandomNumber, halfRng, Vector3f.neg_def]

theorem mirror_evalWalk_one (powf : K → K → K) (slope : MicrosurfaceSlope K) :
    Microsurface.evalWalk powf mirrorMaterial ⟨MicrosurfaceHeightUniform, slope, 1, 1⟩
      ⟨0, 0, 1⟩ 1
      (-(⟨0, 0, 1⟩ : Vector3f K), lit 1.0 + MicrosurfaceHeightUniform.invC1 (lit 0.999), halfRng)
      = some ([1], (⟨0, 0, 1⟩, 0, ⟨fun _ => lit 0.5, 1⟩)) := by
  simp only [Microsurface.evalWalk, Microsurface.evalBounce]
  rw [halfRng_draw _ rfl, uniform_first_height]
  have hg : Microsurface.G_1_h powf ⟨MicrosurfaceHeightUniform, slope, 1, 1⟩
      (⟨0, 0, 1⟩ : Vector3f K) 0 = 1 := by
    rw [G_1_h_eq, if_pos (by norm_num)]
  simp [zero_ne_FLT_MAX, mirrorMaterial, generateRandomNumber, halfRng, Vector3f.neg_def, hg, lit]


theorem eval_order_selection_witness :
    ∃ v : Nat → ℝ,
      (∀ k : Nat, 1 ≤ k → (Microsurface.eval Real.rpow mirrorMaterial
        ⟨MicrosurfaceHeightUniform,
          MicrosurfaceSlopeGGX Real.pi Real.sqrt Real.arccos Real.tan Real.sin, 1, 1⟩ 2
        ⟨0, 0, 1⟩ ⟨0, 0, 1⟩ (k : Int) halfRng).map Prod.fst = some (v k)) ∧
      (Microsurface.eval Real.rpow mirrorMaterial
        ⟨MicrosurfaceHeightUniform,
          MicrosurfaceSlopeGGX Real.pi Real.sqrt Real.arccos Real.tan Real.sin, 1, 1⟩ 2
        ⟨0, 0, 1⟩ ⟨0, 0, 1⟩ 0 halfRng).map Prod.fst = some (∑ k in Finset.Icc 1 1, v k) ∧
      (∀ k : Nat, 1 < k → v k = 0) ∧
      (¬ (1 : ℝ) < 0 → ∀ k : Nat, 1 ≤ k → k ≤ 1 → v k = finiteTerm ([(1 : ℝ)].getD (k - 1) 0)) :=
  eval_order_selection Real.rpow mirrorMaterial
    ⟨MicrosurfaceHeightUniform,
      MicrosurfaceSlopeGGX Real.pi Real.sqrt Real.arccos Real.tan Real.sin, 1, 1⟩
    ⟨0, 0, 1⟩ ⟨0, 0, 1⟩ halfRng 1 2 [1] (⟨0, 0, 1⟩, 0, ⟨fun _ => lit 0.5, 1⟩) (by norm_num)
    (mirror_evalWalk_one Real.rpow _) (sampleHeight_up Real.rpow _ _ _)

theorem G_1_cases_witness :
    Microsurface.G_1 ⟨MicrosurfaceHeightUniform,
        MicrosurfaceSlopeGGX Real.pi Real.sqrt Real.arccos Real.tan Real.sin, 1, 1⟩
        (⟨0, 0, 1⟩ : Vector3f ℝ) = 1 ∧
      Microsurface.G_1 ⟨MicrosurfaceHeightUniform,
        MicrosurfaceSlopeGGX Real.pi Real.sqrt Real.arccos Real.tan Real.sin, 1, 1⟩
        (⟨0, 0, -1⟩ : Vector3f ℝ) = 0 ∧
      Microsurface.G_1 ⟨MicrosurfaceHeightUniform,
        MicrosurfaceSlopeGGX Real.pi Real.sqrt Real.arccos Real.tan Real.sin, 1, 1⟩
        (⟨3 / 5, 0, 4 / 5⟩ : Vector3f ℝ)
        = 1 / (1 + MicrosurfaceSlopeGGX.Lambda Real.sqrt Real.arccos Real.tan
            (⟨3 / 5, 0, 4 / 5⟩ : Vector3f ℝ) 1 1) :=
  ⟨(G_1_cases _ (⟨0, 0, 1⟩ : Vector3f ℝ)).1 (by norm_num),
    (G_1_cases _ (⟨0, 0, -1⟩ : Vector3f ℝ)).2.1 (by norm_num),
    (G_1_cases _ (⟨3 / 5, 0, 4 / 5⟩ : Vector3f ℝ)).2.2 (by norm_num) (by norm_num)⟩

theorem G_1_h_cases_witness :
    Microsurface.G_1_h Real.rpow ⟨MicrosurfaceHeightUniform,
        MicrosurfaceSlopeGGX Real.pi Real.sqrt Real.arccos Real.tan Real.sin, 1, 1⟩
        (⟨0, 0, 1⟩ : Vector3f ℝ) 0 = 1 ∧
      Microsurface.G_1_h Real.rpow ⟨MicrosurfaceHeightUniform,
        MicrosurfaceSlopeGGX Real.pi Real.sqrt Real.arccos Real.tan Real.sin, 1, 1⟩
        (⟨0, 0, -1⟩ : Vector3f ℝ) 0 = 0 ∧
      Microsurface.G_1_h Real.rpow ⟨MicrosurfaceHeightUniform,
        MicrosurfaceSlopeGGX Real.pi Real.sqrt Real.arccos Real.tan Real.sin, 1, 1⟩
        (⟨3 / 5, 0, 4 / 5⟩ : Vector3f ℝ) 0
        = Real.rpow (MicrosurfaceHeightUniform.C1 (0 : ℝ))
            (MicrosurfaceSlopeGGX.Lambda Real.sqrt Real.arccos Real.tan
              (⟨3 / 5, 0, 4 / 5⟩ : Vector3f ℝ) 1 1) :=
  ⟨(G_1_h_cases Real.rpow _ (⟨0, 0, 1⟩ : Vector3f ℝ) 0).1 (by norm_num),
    (G_1_h_cases Real.rpow _ (⟨0, 0, -1⟩ : Vector3f ℝ) 0).2.1 (by norm_num),
    (G_1_h_cases Real.rpow _ (⟨3 / 5, 0, 4 / 5⟩ : Vector3f ℝ) 0).2.2 (by norm_num) (by norm_num)⟩

/-- C6 as stated fails below the horizon: with uniform heights and GGX slopes, for
`wi = (0, 0, -1)` and `h0 = 0` the code returns `G_1 wi h0 = 0`, while `C1 h0 = 1/2` and
`Lambda wi = -1`, so that `C1 h0 ^ Lambda wi = 2`. -/
theorem G_1_h_counterexample :
    Microsurface.G_1_h Real.rpow ⟨MicrosurfaceHeightUniform,
        MicrosurfaceSlopeGGX Real.pi Real.sqrt Real.arccos Real.tan Real.sin, 1, 1⟩
        (⟨0, 0, -1⟩ : Vector3f ℝ) 0 = 0 ∧
      Real.rpow (MicrosurfaceHeightUniform.C1 (0 : ℝ))
        (MicrosurfaceSlopeGGX.Lambda Real.sqrt Real.arccos Real.tan
          (⟨0, 0, -1⟩ : Vector3f ℝ) 1 1) = 2 := by
  constructor
  · rw [G_1_h_eq, if_neg (by norm_num), if_pos (by norm_num)]
  · have hL : MicrosurfaceSlopeGGX.Lambda Real.sqrt Real.arccos Real.tan
        (⟨0, 0, -1⟩ : Vector3f ℝ) 1 1 = -1 := by
      simp only [MicrosurfaceSlopeGGX.Lambda, lit]
      norm_num
    have hC : MicrosurfaceHeightUniform.C1 (0 : ℝ) = 1 / 2 := by
      rw [uniform_C1_eq]
      norm_num
    rw [hL, hC]
    show (1 / 2 : ℝ) ^ (-1 : ℝ) = 2
    rw [Real.rpow_neg_one]
    norm_num

/-- C5 as stated fails at the grazing threshold, which the code writes `0.0001f`: that `float`
is `13743895 / 2 ^ 37`, below `1e-4`.  With uniform heights and GGX slopes, for
`wr = (1, 0, 0.0001f)`, `hr = 1` and `U = 1/2`, `|wr.z| < 1e-4` holds, but the test
`fabsf(wr.z) < 0.0001f` fails, `G_1 wr hr = C1 hr ^ Lambda wr = 1 ^ Lambda wr = 1` and
`U > 1 - 1`, so that the result is the escape sentinel and not `hr`. -/
theorem sampleHeight_grazing_counterexample :
    |(13743895 / 2 ^ 37 : ℝ)| < 0.0001 ∧
      Microsurface.sampleHeight Real.rpow ⟨MicrosurfaceHeightUniform,
        MicrosurfaceSlopeGGX Real.pi Real.sqrt Real.arccos Real.tan Real.sin, 1, 1⟩
        (⟨1, 0, 13743895 / 2 ^ 37⟩ : Vector3f ℝ) 1 (1 / 2) = FLT_MAX ∧
      (FLT_MAX : ℝ) ≠ 1 := by
  have hG : Microsurface.G_1_h Real.rpow ⟨MicrosurfaceHeightUniform,
      MicrosurfaceSlopeGGX Real.pi Real.sqrt Real.arccos Real.tan Real.sin, 1, 1⟩
      (⟨1, 0, 13743895 / 2 ^ 37⟩ : Vector3f ℝ) 1 = 1 := by
    rw [G_1_h_eq, if_neg (by norm_num), if_neg (by norm_num)]
    have hC : MicrosurfaceHeightUniform.C1 (1 : ℝ) = 1 := by
      rw [uniform_C1_eq]
      norm_num
    simp only [MicrosurfaceHeightUniform, hC]
    exact Real.one_rpow _
  refine ⟨by rw [abs_of_pos] <;> norm_num, ?_, by norm_num [FLT_MAX, lit]⟩
  rw [sampleHeight_eq, if_neg (by norm_num), if_neg (by norm_num),
    if_neg (by rw [abs_of_pos] <;> norm_num), hG, if_pos (by norm_num)]

theorem sampleHeight_cases_witness :
    Microsurface.sampleHeight Real.rpow ⟨MicrosurfaceHeightUniform,
        MicrosurfaceSlopeGGX Real.pi Real.sqrt Real.arccos Real.tan Real.sin, 1, 1⟩
        (⟨0, 0, 1⟩ : Vector3f ℝ) 0 (1 / 2) = FLT_MAX ∧
      Microsurface.sampleHeight Real.rpow ⟨MicrosurfaceHeightUniform,
        MicrosurfaceSlopeGGX Real.pi Real.sqrt Real.arccos Real.tan Real.sin, 1, 1⟩
        (⟨0, 0, -1⟩ : Vector3f ℝ) 0 (1 / 2)
        = MicrosurfaceHeightUniform.invC1 (1 / 2 * MicrosurfaceHeightUniform.C1 (0 : ℝ)) ∧
      Microsurface.sampleHeight Real.rpow ⟨MicrosurfaceHeightUniform,
        MicrosurfaceSlopeGGX Real.pi Real.sqrt Real.arccos Real.tan Real.sin, 1, 1⟩
        (⟨1, 0, 0⟩ : Vector3f ℝ) 0 (1 / 2) = 0 ∧
      Microsurface.sampleHeight Real.rpow ⟨MicrosurfaceHeightUniform,
        MicrosurfaceSlopeGGX Real.pi Real.sqrt Real.arccos Real.tan Real.sin, 1, 1⟩
        (⟨3 / 5, 0, 4 / 5⟩ : Vector3f ℝ) 1 (1 / 2) = FLT_MAX ∧
      Microsurface.sampleHeight Real.rpow ⟨MicrosurfaceHeightUniform,
        MicrosurfaceSlopeGGX Real.pi Real.sqrt Real.arccos Real.tan Real.sin, 1, 1⟩
        (⟨3 / 5, 0, -4 / 5⟩ : Vector3f ℝ) 1 (1 / 2)
        = MicrosurfaceHeightUniform.invC1 (MicrosurfaceHeightUniform.C1 (1 : ℝ) /
            Real.rpow (1 - 1 / 2) (1 / MicrosurfaceSlopeGGX.Lambda Real.sqrt Real.arccos Real.tan
              (⟨3 / 5, 0, -4 / 5⟩ : Vector3f ℝ) 1 1)) ∧
      (Microsurface.sampleHeight Real.rpow ⟨MicrosurfaceHeightUniform,
        MicrosurfaceSlopeGGX Real.pi Real.sqrt Real.arccos Real.tan Real.sin, 1, 1⟩
        (⟨3 / 5, 0, -4 / 5⟩ : Vector3f ℝ) 1 (1 / 2) = FLT_MAX ↔
        1 - Microsurface.G_1_h Real.rpow ⟨MicrosurfaceHeightUniform,
          MicrosurfaceSlopeGGX Real.pi Real.sqrt Real.arccos Real.tan Real.sin, 1, 1⟩
          (⟨3 / 5, 0, -4 / 5⟩ : Vector3f ℝ) 1 < 1 / 2) := by
  have hup : Microsurface.G_1_h Real.rpow ⟨MicrosurfaceHeightUniform,
      MicrosurfaceSlopeGGX Real.pi Real.sqrt Real.arccos Real.tan Real.sin, 1, 1⟩
      (⟨3 / 5, 0, 4 / 5⟩ : Vector3f ℝ) 1 = 1 := by
    rw [G_1_h_eq, if_neg (by norm_num), if_neg (by norm_num)]
    have hC : MicrosurfaceHeightUniform.C1 (1 : ℝ) = 1 := by
      rw [uniform_C1_eq]
      norm_num
    simp only [MicrosurfaceHeightUniform, hC]
    exact Real.one_rpow _
  have hdown : Microsurface.G_1_h Real.rpow ⟨MicrosurfaceHeightUniform,
      MicrosurfaceSlopeGGX Real.pi Real.sqrt Real.arccos Real.tan Real.sin, 1, 1⟩
      (⟨3 / 5, 0, -4 / 5⟩ : Vector3f ℝ) 1 = 0 := by
    rw [G_1_h_eq, if_neg (by norm_num), if_pos (by norm_num)]
  exact ⟨(sampleHeight_cases Real.rpow _ (⟨0, 0, 1⟩ : Vector3f ℝ) 0 (1 / 2)).1 (by norm_num),
    (sampleHeight_cases Real.rpow _ (⟨0, 0, -1⟩ : Vector3f ℝ) 0 (1 / 2)).2.1 (by norm_num),
    (sampleHeight_cases Real.rpow _ (⟨1, 0, 0⟩ : Vector3f ℝ) 0 (1 / 2)).2.2.1
      (by norm_num) (by norm_num) (by norm_num),
    ((sampleHeight_cases Real.rpow _ (⟨3 / 5, 0, 4 / 5⟩ : Vector3f ℝ) 1 (1 / 2)).2.2.2
      (by norm_num) (by norm_num) (by norm_num [abs_of_pos])).1 (by rw [hup]; norm_num),
    ((sampleHeight_cases Real.rpow _ (⟨3 / 5, 0, -4 / 5⟩ : Vector3f ℝ) 1 (1 / 2)).2.2.2
      (by norm_num) (by norm_num) (by norm_num [abs_of_neg])).2.1 (by rw [hdown]; norm_num),
    ((sampleHeight_cases Real.rpow _ (⟨3 / 5, 0, -4 / 5⟩ : Vector3f ℝ) 1 (1 / 2)).2.2.2
      (by norm_num) (by norm_num) (by norm_num [abs_of_neg])).2.2
      (fun x => uniform_invC1_ne_FLT_MAX x)⟩

/-! ## A walk that meets a NaN -/

theorem NanRat.cast_eq (q : ℚ) : ((q : ℚ) : NanRat) = NanRat.fin q := rfl
theorem NanRat.lit_eq (q : ℚ) : (lit q : NanRat) = NanRat.fin q := rfl
theorem NanRat.add_fin (a b : ℚ) : NanRat.fin a + NanRat.fin b = NanRat.fin (a + b) := rfl
theorem NanRat.sub_fin (a b : ℚ) : NanRat.fin a - NanRat.fin b = NanRat.fin (a - b) := rfl
theorem NanRat.mul_fin (a b : ℚ) : NanRat.fin a * NanRat.fin b = NanRat.fin (a * b) := rfl
theorem NanRat.neg_fin (a : ℚ) : -NanRat.fin a = NanRat.fin (-a) := rfl
theorem NanRat.lt_fin (a b : ℚ) : NanRat.fin a < NanRat.fin b ↔ a < b := by
  show NanRat.cmp (fun a b => decide (a < b)) (NanRat.fin a) (NanRat.fin b) = true ↔ a < b
  simp [NanRat.cmp]
theorem NanRat.le_fin (a b : ℚ) : NanRat.fin a ≤ NanRat.fin b ↔ a ≤ b := by
  show NanRat.cmp (fun a b => decide (a ≤ b)) (NanRat.fin a) (NanRat.fin b) = true ↔ a ≤ b
  simp [NanRat.cmp]
theorem NanRat.beq_fin (a b : ℚ) : (NanRat.fin a == NanRat.fin b) = decide (a = b) := rfl
theorem NanRat.bne_nan : (NanRat.nan != NanRat.nan) = true := rfl
theorem nan_first_height (powf : NanRat → NanRat → NanRat) :
    Microsurface.sampleHeight powf ⟨MicrosurfaceHeightUniform, nanSlope, lit 1, lit 1⟩
      (-(⟨lit 0, lit 0, lit 1⟩ : Vector3f NanRat))
      (lit 1.0 + MicrosurfaceHeightUniform.invC1 (lit 0.999 : NanRat))
      (generateRandomNumber (halfRng : Rng NanRat)).1 = NanRat.fin 0 := by
  simp only [Microsurface.sampleHeight, Vector3f.neg_def, MicrosurfaceHeightUniform,
    MicrosurfaceHeightUniform.C1, MicrosurfaceHeightUniform.invC1, stdmin, stdmax,
    generateRandomNumber, halfRng, NanRat.lit_eq, NanRat.neg_fin, NanRat.lt_fin,
    NanRat.mul_fin, NanRat.add_fin, NanRat.sub_fin, gt_iff_lt]
  norm_num [NanRat.lt_fin, NanRat.mul_fin, NanRat.add_fin, NanRat.sub_fin]

theorem sample_final_direction_witness :
    Microsurface.sample Real.rpow mirrorMaterial
        ⟨MicrosurfaceHeightUniform,
          MicrosurfaceSlopeGGX Real.pi Real.sqrt Real.arccos Real.tan Real.sin, 1, 1⟩ 2
        ⟨0, 0, 1⟩ halfRng
      = some (⟨0, 0, 1⟩, ((1 : Nat) : Int),
          (generateRandomNumber (⟨fun _ => lit 0.5, 1⟩ : Rng ℝ)).2) ∧
    Microsurface.sample (fun _ _ => NanRat.nan) nanMaterial
        ⟨MicrosurfaceHeightUniform, nanSlope, lit 1, lit 1⟩ 1 ⟨lit 0, lit 0, lit 1⟩ halfRng
      = some (⟨lit 0, lit 0, lit 1⟩, ((0 : Nat) : Int) + 1,
          (nanMaterial.samplePhaseFunction ⟨MicrosurfaceHeightUniform, nanSlope, lit 1, lit 1⟩
            (-(-(⟨lit 0, lit 0, lit 1⟩ : Vector3f NanRat)))
            (generateRandomNumber (halfRng : Rng NanRat)).2).2) :=
  ⟨(sample_final_direction Real.rpow mirrorMaterial
      ⟨MicrosurfaceHeightUniform,
        MicrosurfaceSlopeGGX Real.pi Real.sqrt Real.arccos Real.tan Real.sin, 1, 1⟩
      ⟨0, 0, 1⟩ halfRng 1 2 ⟨0, 0, 1⟩ 0 ⟨fun _ => lit 0.5, 1⟩ (by norm_num)
      (mirror_sampleWalk_one Real.rpow _)).2.2.1
      (by rw [sampleHeight_up]; exact beq_self_eq_true _),
    (sample_final_direction (fun _ _ => NanRat.nan) nanMaterial
      ⟨MicrosurfaceHeightUniform, nanSlope, lit 1, lit 1⟩
      ⟨lit 0, lit 0, lit 1⟩ halfRng 0 1 (-(⟨lit 0, lit 0, lit 1⟩ : Vector3f NanRat))
      (lit 1.0 + MicrosurfaceHeightUniform.invC1 (lit 0.999)) halfRng (by norm_num)
      rfl).2.2.2
      (by rw [nan_first_height]; rfl)
      (by simp only [nanMaterial, NanRat.bne_nan, Bool.or_true])⟩

/-! ## The Gaussian height CDF -/

theorem serfPoly_eq (t : ℝ) :
    serfPoly t = ((((1.061405429 * t + -1.453152027) * t + 1.421413741) * t + -0.284496736) * t
      + 0.254829592) * t := by
  simp only [serfPoly, lit]
  push_cast
  rfl

theorem serf_eq (x : ℝ) :
    serf Real.exp x = (if x < 0 then -1 else 1) * serfAbs Real.exp |x| := by
  simp only [serf, serfAbs, serfPoly, fabsf_eq_abs, lit]
  push_cast
  rfl

theorem serfPoly_mono (s t : ℝ) (h : s ≤ t) : serfPoly s ≤ serfPoly t := by
  have hd : 0 ≤ t - s := sub_nonneg.mpr h
  have h1 : 0 ≤ 0.254829592 + 2 * (-0.284496736) * ((s + t) / 2)
      + 3 * 1.421413741 * ((s + t) / 2) ^ 2 + 4 * (-1.453152027) * ((s + t) / 2) ^ 3
      + 5 * 1.061405429 * ((s + t) / 2) ^ 4 := by
    nlinarith [sq_nonneg (((s + t) / 2) ^ 2 - 0.5476 * ((s + t) / 2)),
      sq_nonneg ((s + t) / 2 - 0.1064)]
  have h2 : 0 ≤ 1.421413741 + 4 * (-1.453152027) * ((s + t) / 2)
      + 10 * 1.061405429 * ((s + t) / 2) ^ 2 := by
    nlinarith [sq_nonneg ((s + t) / 2 - 0.2738)]
  have key : serfPoly t - serfPoly s
      = (t - s) * ((0.254829592 + 2 * (-0.284496736) * ((s + t) / 2)
      + 3 * 1.421413741 * ((s + t) / 2) ^ 2 + 4 * (-1.453152027) * ((s + t) / 2) ^ 3
      + 5 * 1.061405429 * ((s + t) / 2) ^ 4)
        + (t - s) ^ 2 / 4 * (1.421413741 + 4 * (-1.453152027) * ((s + t) / 2)
      + 10 * 1.061405429 * ((s + t) / 2) ^ 2)
        + 1.061405429 * ((t - s) ^ 2) ^ 2 / 16) := by
    rw [serfPoly_eq, serfPoly_eq]
    ring
  have h3 : 0 ≤ (t - s) ^ 2 / 4 * (1.421413741 + 4 * (-1.453152027) * ((s + t) / 2)
      + 10 * 1.061405429 * ((s + t) / 2) ^ 2) := mul_nonneg (by positivity) h2
  have h4 : 0 ≤ 1.061405429 * ((t - s) ^ 2) ^ 2 / 16 := by positivity
  have h5 := mul_nonneg hd (add_nonneg (add_nonneg h1 h3) h4)
  rw [← key] at h5
  exact sub_nonneg.mp h5

theorem serfPoly_zero : serfPoly (0 : ℝ) = 0 := by
  rw [serfPoly_eq, mul_zero]

theorem serfPoly_one_le : serfPoly (1 : ℝ) ≤ 1 := by
  rw [serfPoly_eq]
  norm_num

theorem serfAbs_def (a : ℝ) :
    serfAbs Real.exp a = 1 - serfPoly (1 / (1 + 0.3275911 * a)) * Real.exp (-a * a) := by
  simp only [serfAbs, lit]
  push_cast
  simp only [show (1.0 : ℝ) = 1 by norm_num]

theorem serfAbs_bounds (a : ℝ) (ha : 0 ≤ a) :
    0 ≤ serfAbs Real.exp a ∧ serfAbs Real.exp a ≤ 1 := by
  rw [serfAbs_def]
  have hden : (1 : ℝ) ≤ 1 + 0.3275911 * a := by
    have : (0 : ℝ) ≤ 0.3275911 * a := mul_nonneg (by norm_num) ha
    linarith
  have ht0 : 0 ≤ 1 / (1 + 0.3275911 * a) := by positivity
  have ht1 : 1 / (1 + 0.3275911 * a) ≤ 1 := by
    rw [div_le_one (by linarith)]
    exact hden
  have hP0 := serfPoly_mono 0 _ ht0
  rw [serfPoly_zero] at hP0
  have hP1 := le_trans (serfPoly_mono _ 1 ht1) serfPoly_one_le
  have he0 : 0 ≤ Real.exp (-a * a) := (Real.exp_pos _).le
  have he1 : Real.exp (-a * a) ≤ 1 := by
    rw [Real.exp_le_one_iff]
    have := mul_self_nonneg a
    linarith
  have hlo := mul_nonneg hP0 he0
  have hhi := mul_le_one₀ hP1 he0 he1
  constructor <;> linarith

theorem serfAbs_mono (a b : ℝ) (ha : 0 ≤ a) (hab : a ≤ b) :
    serfAbs Real.exp a ≤ serfAbs Real.exp b := by
  rw [serfAbs_def, serfAbs_def]
  have hb : 0 ≤ b := le_trans ha hab
  have hda : (0 : ℝ) < 1 + 0.3275911 * a := by positivity
  have htb0 : 0 ≤ 1 / (1 + 0.3275911 * b) := by positivity
  have ht : 1 / (1 + 0.3275911 * b) ≤ 1 / (1 + 0.3275911 * a) := by
    apply one_div_le_one_div_of_le hda
    have : (0.3275911 : ℝ) * a ≤ 0.3275911 * b := mul_le_mul_of_nonneg_left hab (by norm_num)
    linarith
  have hP := serfPoly_mono _ _ ht
  have hP0 := serfPoly_mono 0 _ htb0
  rw [serfPoly_zero] at hP0
  have he : Real.exp (-b * b) ≤ Real.exp (-a * a) := by
    rw [Real.exp_le_exp]
    have := mul_le_mul hab hab ha hb
    linarith
  have he0 : 0 ≤ Real.exp (-b * b) := (Real.exp_pos _).le
  have := mul_le_mul hP he he0 (le_trans hP0 hP)
  linarith

theorem serf_bounds (x : ℝ) : -1 ≤ serf Real.exp x ∧ serf Real.exp x ≤ 1 := by
  rw [serf_eq]
  have hb := serfAbs_bounds |x| (abs_nonneg x)
  split_ifs with h
  · constructor <;> linarith [hb.1, hb.2]
  · constructor <;> linarith [hb.1, hb.2]

theorem serf_mono (x x' : ℝ) (h : x ≤ x') : serf Real.exp x ≤ serf Real.exp x' := by
  rw [serf_eq, serf_eq]
  have hb := serfAbs_bounds |x| (abs_nonneg x)
  have hb' := serfAbs_bounds |x'| (abs_nonneg x')
  by_cases hx : x < 0
  · by_cases hx' : x' < 0
    · rw [if_pos hx, if_pos hx']
      have hm := serfAbs_mono |x'| |x| (abs_nonneg _)
        (by rw [abs_of_neg hx, abs_of_neg hx']; linarith)
      linarith
    · rw [if_pos hx, if_neg hx']
      linarith [hb.1, hb'.1]
  · have hx' : ¬ x' < 0 := by
      intro hc
      exact hx (lt_of_le_of_lt h hc)
    rw [if_neg hx, if_neg hx']
    have hm := serfAbs_mono |x| |x'| (abs_nonneg _)
      (by rw [abs_of_nonneg (not_lt.mp hx), abs_of_nonneg (not_lt.mp hx')]; exact h)
    linarith

theorem serf_nonneg (a : ℝ) (h : 0 ≤ a) : 0 ≤ serf Real.exp a := by
  rw [serf_eq, if_neg (not_lt.mpr h), one_mul]
  exact (serfAbs_bounds |a| (abs_nonneg a)).1

theorem serf_neg (a : ℝ) (h : 0 < a) : serf Real.exp (-a) = -serf Real.exp a := by
  rw [serf_eq, serf_eq, if_pos (by linarith), if_neg (by linarith), abs_neg]
  ring

/-- C10. The Gaussian height CDF built on `serf` is monotonically non-decreasing over the reals with
values in `[0, 1]`. -/
theorem gaussian_C1_monotone_bounded (h h' : ℝ) (hle : h ≤ h') :
    MicrosurfaceHeightGaussian.C1 Real.exp h ≤ MicrosurfaceHeightGaussian.C1 Real.exp h' ∧
      0 ≤ MicrosurfaceHeightGaussian.C1 Real.exp h ∧
      MicrosurfaceHeightGaussian.C1 Real.exp h ≤ 1 ∧
      MicrosurfaceHeightGaussian.C1 Real.exp h
        = 0.5 + 0.5 * serf Real.exp (0.7071067811865475244 * h) := by
  have hdef : ∀ z : ℝ, MicrosurfaceHeightGaussian.C1 Real.exp z
      = 0.5 + 0.5 * serf Real.exp (0.7071067811865475244 * z) := by
    intro z
    simp only [MicrosurfaceHeightGaussian.C1, INV_SQRT_2, lit]
    push_cast
    rfl
  have hb := serf_bounds (0.7071067811865475244 * h)
  have hm := serf_mono (0.7071067811865475244 * h) (0.7071067811865475244 * h')
    (by nlinarith)
  refine ⟨?_, ?_, ?_, hdef h⟩
  · rw [hdef, hdef]
    linarith
  · rw [hdef]
    linarith [hb.1]
  · rw [hdef]
    linarith [hb.2]

theorem gaussian_C1_monotone_bounded_witness :
    MicrosurfaceHeightGaussian.C1 Real.exp (-1) ≤ MicrosurfaceHeightGaussian.C1 Real.exp 2 ∧
      0 ≤ MicrosurfaceHeightGaussian.C1 Real.exp (-1) ∧
      MicrosurfaceHeightGaussian.C1 Real.exp (-1) ≤ 1 :=
  ⟨(gaussian_C1_monotone_bounded (-1) 2 (by norm_num)).1,
    (gaussian_C1_monotone_bounded (-1) 2 (by norm_num)).2.1,
    (gaussian_C1_monotone_bounded (-1) 2 (by norm_num)).2.2.1⟩

/-! ## Single scattering of the conductor -/

theorem Vector3f.neg_neg_eq (v : Vector3f K) : -(-v) = v := by
  cases v
  simp [Vector3f.neg_def]

theorem eval_order_one_value (powf : K → K → K) (mat : Material K) (ms : Microsurface K)
    (wi wo : Vector3f K) (g : Rng K) (hwo : ¬ wo.z < 0)
    (hne : ms.sampleHeight powf (-wi) (lit 1.0 + ms.m_microsurfaceheight.invC1 (lit 0.999))
      (generateRandomNumber g).1 ≠ FLT_MAX) :
    (ms.eval powf mat 2 wi wo 1 g).map Prod.fst
      = some (finiteTerm ((mat.evalPhaseFunction ms wi wo (generateRandomNumber g).2).1 *
          ms.G_1_h powf wo (ms.sampleHeight powf (-wi)
            (lit 1.0 + ms.m_microsurfaceheight.invC1 (lit 0.999)) (generateRandomNumber g).1))) := by
  have hwo' : ¬ wo.z < lit 0 := by simpa [lit] using hwo
  simp only [Microsurface.eval, if_neg hwo']
  obtain ⟨b, hb⟩ := evalBounce_of_ne powf mat ms wo
    (-wi, lit 1.0 + ms.m_microsurfaceheight.invC1 (lit 0.999), g) hne
  rw [evalLoop_step powf mat ms wo 1 1
    (-wi, lit 1.0 + ms.m_microsurfaceheight.invC1 (lit 0.999), g) (lit 0) 0 b
    (Or.inr (by norm_num)) hb]
  have hb1 : b.1 = (mat.evalPhaseFunction ms wi wo (generateRandomNumber g).2).1 *
      ms.G_1_h powf wo (ms.sampleHeight powf (-wi)
        (lit 1.0 + ms.m_microsurfaceheight.invC1 (lit 0.999)) (generateRandomNumber g).1) := by
    unfold Microsurface.evalBounce at hb
    simp only [Vector3f.neg_neg_eq] at hb
    split_ifs at hb
    cases hb
    rfl
  have hsum : (if IsFiniteNumber b.1 && ((1 : Int) == 0 || (0 : Int) + 1 == 1) then lit 0 + b.1
      else (lit 0 : K)) = finiteTerm b.1 := by
    simp only [finiteTerm, lit_zero, zero_add]
    split_ifs <;> simp_all
  rw [hsum, ← hb1]
  by_cases hesc : ms.sampleHeight powf b.2.1 b.2.2.1 (generateRandomNumber b.2.2.2).1 = FLT_MAX
  · rw [evalLoop_escape powf mat ms wo 1 0 b.2 (finiteTerm b.1) (0 + 1) (Or.inr (by norm_num)) hesc]
    rfl
  · obtain ⟨b', hb'⟩ := evalBounce_of_ne powf mat ms wo b.2 hesc
    rw [evalLoop_step powf mat ms wo 1 0 b.2 (finiteTerm b.1) (0 + 1) b'
      (Or.inr (by norm_num)) hb',
      evalLoop_exit powf mat ms wo 1 0 _ _ _ _ _ one_ne_zero (by norm_num)]
    simp

theorem uniform_start_height : (lit 1.0 + MicrosurfaceHeightUniform.invC1 (lit 0.999) : ℝ) = 1.998 := by
  rw [uniform_invC1_eq]
  simp only [lit]
  norm_num

theorem uniform_C1_of_mem (x : ℝ) (h0 : 0 ≤ x) (h1 : x ≤ 1) :
    MicrosurfaceHeightUniform.C1 (MicrosurfaceHeightUniform.invC1 x) = x := by
  rw [uniform_invC1_eq, min_eq_right (by linarith), max_eq_right (by linarith), uniform_C1_eq]
  have : (2 * x - 1 + 1) / 2 = x := by ring
  rw [this, max_eq_right h0, min_eq_right h1]

theorem first_bounce_shadowing (slope : MicrosurfaceSlope ℝ) (au av : ℝ) (wi wo : Vector3f ℝ)
    (hi0 : 0.0001 ≤ wi.z) (hi1 : wi.z ≤ 0.9999) (ho0 : 0 < wo.z) (ho1 : wo.z ≤ 0.9999)
    (hL : slope.Lambda (-wi) au av = -1 - slope.Lambda wi au av)
    (h1 : 0 < 1 + slope.Lambda wi au av)
    (U : ℝ) (hU0 : 0 ≤ U) (hU1 : U ≤ 1) :
    Microsurface.G_1_h Real.rpow ⟨MicrosurfaceHeightUniform, slope, au, av⟩ wo
      (Microsurface.sampleHeight Real.rpow ⟨MicrosurfaceHeightUniform, slope, au, av⟩ (-wi)
        (lit 1.0 + MicrosurfaceHeightUniform.invC1 (lit 0.999)) U)
      = (1 - U) ^ (slope.Lambda wo au av / (1 + slope.Lambda wi au av)) := by
  have hz : (-wi).z = -wi.z := rfl
  have hg : Microsurface.G_1_h Real.rpow ⟨MicrosurfaceHeightUniform, slope, au, av⟩ (-wi)
      (lit 1.0 + MicrosurfaceHeightUniform.invC1 (lit 0.999)) = 0 := by
    rw [G_1_h_eq, hz, if_neg (by linarith), if_pos (by linarith)]
  have hbase : 0 ≤ 1 - U := by linarith
  have hp : 0 < 1 / (1 + slope.Lambda wi au av) := by positivity
  have hx0 : 0 ≤ (1 - U) ^ (1 / (1 + slope.Lambda wi au av)) := Real.rpow_nonneg hbase _
  have hx1 : (1 - U) ^ (1 / (1 + slope.Lambda wi au av)) ≤ 1 :=
    Real.rpow_le_one hbase (by linarith) hp.le
  have hh : Microsurface.sampleHeight Real.rpow ⟨MicrosurfaceHeightUniform, slope, au, av⟩ (-wi)
      (lit 1.0 + MicrosurfaceHeightUniform.invC1 (lit 0.999)) U
      = MicrosurfaceHeightUniform.invC1 ((1 - U) ^ (1 / (1 + slope.Lambda wi au av))) := by
    rw [sampleHeight_eq, hz, if_neg (by linarith), if_neg (by linarith),
      if_neg (by rw [abs_neg, abs_of_pos (by linarith)]; linarith), hg,
      if_neg (by linarith)]
    simp only [MicrosurfaceHeightUniform]
    congr 1
    rw [uniform_start_height, hL]
    have hC : MicrosurfaceHeightUniform.C1 (1.998 : ℝ) = 1 := by
      rw [uniform_C1_eq]
      norm_num
    rw [hC, Real.rpow_eq_pow]
    have he : 1 / (-1 - slope.Lambda wi au av) = -(1 / (1 + slope.Lambda wi au av)) := by
      rw [show -1 - slope.Lambda wi au av = -(1 + slope.Lambda wi au av) by ring]
      rw [one_div, one_div, inv_neg]
    rw [he, Real.rpow_neg hbase, one_div, inv_inv]
  rw [hh, G_1_h_eq, if_neg (by linarith), if_neg (by linarith)]
  simp only [MicrosurfaceHeightUniform]
  rw [uniform_C1_of_mem _ hx0 hx1, Real.rpow_eq_pow, ← Real.rpow_mul hbase]
  congr 1
  field_simp

theorem conductor_phase_eq (slope : MicrosurfaceSlope ℝ) (au av : ℝ) (wi wo : Vector3f ℝ)
    (hni : wi.x * wi.x + wi.y * wi.y + wi.z * wi.z = 1)
    (hno : wo.x * wo.x + wo.y * wo.y + wo.z * wo.z = 1)
    (hi0 : 0 < wi.z) (ho0 : 0 < wo.z)
    (hpa : slope.projectedArea wi au av ≠ 0) :
    MicrosurfaceConductor.evalPhaseFunction Real.sqrt ⟨MicrosurfaceHeightUniform, slope, au, av⟩
        wi wo
      = slope.D (Normalize Real.sqrt (wi + wo)) au av / (4 * slope.projectedArea wi au av) := by
  have hadd : wi + wo = ⟨wi.x + wo.x, wi.y + wo.y, wi.z + wo.z⟩ := rfl
  set L := Real.sqrt ((wi.x + wo.x) * (wi.x + wo.x) + (wi.y + wo.y) * (wi.y + wo.y)
    + (wi.z + wo.z) * (wi.z + wo.z)) with hLdef
  have hsq : 0 < (wi.x + wo.x) * (wi.x + wo.x) + (wi.y + wo.y) * (wi.y + wo.y)
      + (wi.z + wo.z) * (wi.z + wo.z) := by
    nlinarith [mul_self_nonneg (wi.x + wo.x), mul_self_nonneg (wi.y + wo.y),
      mul_pos (add_pos hi0 ho0) (add_pos hi0 ho0)]
  have hL : 0 < L := Real.sqrt_pos.mpr hsq
  have hwh : Normalize Real.sqrt (wi + wo)
      = ⟨(wi.x + wo.x) * (1 / L), (wi.y + wo.y) * (1 / L), (wi.z + wo.z) * (1 / L)⟩ := by
    simp only [Normalize, hadd, lit, hLdef]
    norm_num
  have hz : 0 < (Normalize Real.sqrt (wi + wo)).z := by
    rw [hwh]
    exact mul_pos (add_pos hi0 ho0) (by positivity)
  have hdot : 0 < Dot wi (Normalize Real.sqrt (wi + wo)) := by
    rw [hwh]
    simp only [Dot]
    have : wi.x * ((wi.x + wo.x) * (1 / L)) + wi.y * ((wi.y + wo.y) * (1 / L))
        + wi.z * ((wi.z + wo.z) * (1 / L))
        = ((wi.x + wo.x) * (wi.x + wo.x) + (wi.y + wo.y) * (wi.y + wo.y)
          + (wi.z + wo.z) * (wi.z + wo.z)) / 2 * (1 / L) := by
      have e : wi.x * (wi.x + wo.x) + wi.y * (wi.y + wo.y) + wi.z * (wi.z + wo.z)
          = ((wi.x + wo.x) * (wi.x + wo.x) + (wi.y + wo.y) * (wi.y + wo.y)
            + (wi.z + wo.z) * (wi.z + wo.z)) / 2 := by
        linear_combination (1 / 2) * hni - (1 / 2) * hno
      rw [← e]
      ring
    rw [this]
    positivity
  simp only [MicrosurfaceConductor.evalPhaseFunction, MicrosurfaceSlope.D_wi, lit]
  push_cast
  simp only [show (0.0 : ℝ) = 0 by norm_num, show (1.0 : ℝ) = 1 by norm_num]
  rw [if_neg (not_lt.mpr hz.le), if_neg (not_le.mpr hz)]
  have hb : (slope.projectedArea wi au av == 0) = false := by
    rw [beq_eq_false_iff_ne]
    exact hpa
  simp only [hb]
  rw [stdmax_eq_max, max_eq_right hdot.le]
  norm_num
  field_simp
  ring

theorem alpha_i_neg (wi : Vector3f ℝ) (au av : ℝ) :
    alpha_i Real.sqrt (-wi) au av = alpha_i Real.sqrt wi au av := by
  simp only [alpha_i, Vector3f.neg_def, neg_mul_neg]

theorem alpha_i_pos (wi : Vector3f ℝ) (au av : ℝ)
    (hn : wi.x * wi.x + wi.y * wi.y + wi.z * wi.z = 1) (hz : wi.z * wi.z < 1)
    (hu : 0 < au) (hv : 0 < av) : 0 < alpha_i Real.sqrt wi au av := by
  simp only [alpha_i, lit]
  push_cast
  apply Real.sqrt_pos.mpr
  have hd : 0 < 1 - wi.z * wi.z := by linarith
  have hinv : 0 < 1.0 / (1 - wi.z * wi.z) := by positivity
  have hx : 0 ≤ wi.x * wi.x := mul_self_nonneg _
  have hy : 0 ≤ wi.y * wi.y := mul_self_nonneg _
  have hxy : 0 < wi.x * wi.x + wi.y * wi.y := by linarith
  rcases (lt_or_eq_of_le hx) with h | h
  · have : 0 < wi.x * wi.x * (1.0 / (1 - wi.z * wi.z)) * au * au := by positivity
    have : 0 ≤ wi.y * wi.y * (1.0 / (1 - wi.z * wi.z)) * av * av := by positivity
    linarith
  · have hy' : 0 < wi.y * wi.y := by linarith
    have : 0 ≤ wi.x * wi.x * (1.0 / (1 - wi.z * wi.z)) * au * au := by positivity
    have : 0 < wi.y * wi.y * (1.0 / (1 - wi.z * wi.z)) * av * av := by positivity
    linarith

theorem tan_arccos_pos (z : ℝ) (h0 : 0 < z) (h1 : z < 1) : 0 < Real.tan (Real.arccos z) :=
  Real.tan_pos_of_pos_of_lt_pi_div_two (Real.arccos_pos.mpr h1) (Real.arccos_lt_pi_div_two.mpr h0)

theorem tan_arccos_neg (z : ℝ) : Real.tan (Real.arccos (-z)) = -Real.tan (Real.arccos z) := by
  rw [Real.arccos_neg, Real.tan_pi_sub]

theorem mul_tan_arccos (z : ℝ) (h0 : 0 < z) :
    z * Real.tan (Real.arccos z) = Real.sin (Real.arccos z) := by
  rw [Real.tan_arccos, Real.sin_arccos]
  field_simp

theorem ggx_Lambda_eq (wi : Vector3f ℝ) (au av : ℝ) (h0 : -0.9999 ≤ wi.z) (h1 : wi.z ≤ 0.9999) :
    MicrosurfaceSlopeGGX.Lambda Real.sqrt Real.arccos Real.tan wi au av
      = 0.5 * (-1 + sign (1 / Real.tan (Real.arccos wi.z) / alpha_i Real.sqrt wi au av)
          * Real.sqrt (1 + 1 / ((1 / Real.tan (Real.arccos wi.z) / alpha_i Real.sqrt wi au av)
            * (1 / Real.tan (Real.arccos wi.z) / alpha_i Real.sqrt wi au av)))) := by
  simp only [MicrosurfaceSlopeGGX.Lambda, lit]
  push_cast
  simp only [show (1.0 : ℝ) = 1 by norm_num]
  rw [if_neg (not_lt.mpr h1), if_neg (not_lt.mpr h0)]

theorem sign_of_pos (a : ℝ) (h : 0 < a) : sign a = 1 := by
  simp only [sign, lit]
  push_cast
  rw [if_pos (by norm_num; exact h.le)]
  norm_num

theorem sign_of_neg (a : ℝ) (h : a < 0) : sign a = -1 := by
  simp only [sign, lit]
  push_cast
  rw [if_neg (by norm_num; exact h)]
  norm_num

theorem ggx_smith_of_alpha (wi : Vector3f ℝ) (au av : ℝ)
    (h0 : 0 < wi.z) (h1 : wi.z ≤ 0.9999) (hα : 0 < alpha_i Real.sqrt wi au av) :
    MicrosurfaceSlopeGGX.Lambda Real.sqrt Real.arccos Real.tan (-wi) au av
        = -1 - MicrosurfaceSlopeGGX.Lambda Real.sqrt Real.arccos Real.tan wi au av ∧
      MicrosurfaceSlopeGGX.projectedArea Real.sqrt Real.arccos Real.sin wi au av
        = wi.z * (1 + MicrosurfaceSlopeGGX.Lambda Real.sqrt Real.arccos Real.tan wi au av) ∧
      0 < MicrosurfaceSlopeGGX.Lambda Real.sqrt Real.arccos Real.tan wi au av := by
  have hz1 : wi.z < 1 := by
    have : (0.9999 : ℝ) < 1 := by norm_num
    linarith
  have hT := tan_arccos_pos wi.z h0 hz1
  set α := alpha_i Real.sqrt wi au av with hαdef
  set T := Real.tan (Real.arccos wi.z) with hTdef
  have ha : 0 < 1 / T / α := by positivity
  have hnz : (-wi).z = -wi.z := rfl
  have hLi := ggx_Lambda_eq wi au av (by linarith) h1
  have hLr := ggx_Lambda_eq (-wi) au av (by rw [hnz]; linarith) (by rw [hnz]; linarith)
  rw [hnz, tan_arccos_neg, alpha_i_neg, ← hαdef, ← hTdef] at hLr
  rw [← hαdef, ← hTdef] at hLi
  have hneg : 1 / -T / α = -(1 / T / α) := by
    field_simp
  rw [hneg, sign_of_neg _ (by linarith), neg_mul_neg] at hLr
  rw [sign_of_pos _ ha] at hLi
  set S := Real.sqrt (1 + 1 / (1 / T / α * (1 / T / α))) with hSdef
  have hS1 : 1 < S := by
    rw [hSdef, Real.lt_sqrt (by norm_num)]
    have : 0 < 1 / (1 / T / α * (1 / T / α)) := by positivity
    linarith
  refine ⟨?_, ?_, ?_⟩
  · rw [hLr, hLi]
    ring
  · rw [hLi]
    simp only [MicrosurfaceSlopeGGX.projectedArea, lit]
    push_cast
    simp only [show (1.0 : ℝ) = 1 by norm_num]
    rw [if_neg (not_lt.mpr h1), if_neg (by linarith), ← hαdef]
    have hs : Real.sin (Real.arccos wi.z) = wi.z * T := (mul_tan_arccos wi.z h0).symm
    rw [hs]
    have hsq : Real.sqrt (wi.z * wi.z + wi.z * T * (wi.z * T) * α * α) = wi.z * S := by
      rw [hSdef]
      have e : wi.z * wi.z + wi.z * T * (wi.z * T) * α * α
          = (wi.z * wi.z) * (1 + 1 / (1 / T / α * (1 / T / α))) := by
        field_simp
        ring
      rw [e, Real.sqrt_mul (mul_self_nonneg _), Real.sqrt_mul_self h0.le]
    rw [hsq]
    ring
  · rw [hLi]
    linarith

theorem ggx_smith (wi : Vector3f ℝ) (au av : ℝ)
    (hn : wi.x * wi.x + wi.y * wi.y + wi.z * wi.z = 1)
    (h0 : 0 < wi.z) (h1 : wi.z ≤ 0.9999) (hu : 0 < au) (hv : 0 < av) :
    MicrosurfaceSlopeGGX.Lambda Real.sqrt Real.arccos Real.tan (-wi) au av
        = -1 - MicrosurfaceSlopeGGX.Lambda Real.sqrt Real.arccos Real.tan wi au av ∧
      MicrosurfaceSlopeGGX.projectedArea Real.sqrt Real.arccos Real.sin wi au av
        = wi.z * (1 + MicrosurfaceSlopeGGX.Lambda Real.sqrt Real.arccos Real.tan wi au av) ∧
      0 ≤ MicrosurfaceSlopeGGX.Lambda Real.sqrt Real.arccos Real.tan wi au av := by
  have hz1 : wi.z < 1 := by
    have : (0.9999 : ℝ) < 1 := by norm_num
    linarith
  have hzz : wi.z * wi.z < 1 := by nlinarith
  have h := ggx_smith_of_alpha wi au av h0 h1 (alpha_i_pos wi au av hn hzz hu hv)
  exact ⟨h.1, h.2.1, h.2.2.le⟩

theorem beckmann_Lambda_eq (wi : Vector3f ℝ) (au av : ℝ) (h0 : -0.9999 ≤ wi.z)
    (h1 : wi.z ≤ 0.9999) :
    MicrosurfaceSlopeBeckmann.Lambda Real.exp Real.exp Real.sqrt Real.arccos Real.tan wi au av
      = 0.5 * (serf Real.exp (1 / Real.tan (Real.arccos wi.z) / alpha_i Real.sqrt wi au av) - 1)
        + INV_2_SQRT_M_PI / (1 / Real.tan (Real.arccos wi.z) / alpha_i Real.sqrt wi au av)
          * Real.exp (-(1 / Real.tan (Real.arccos wi.z) / alpha_i Real.sqrt wi au av)
            * (1 / Real.tan (Real.arccos wi.z) / alpha_i Real.sqrt wi au av)) := by
  simp only [MicrosurfaceSlopeBeckmann.Lambda, lit]
  push_cast
  simp only [show (1.0 : ℝ) = 1 by norm_num]
  rw [if_neg (not_lt.mpr h1), if_neg (not_lt.mpr h0)]

theorem INV_2_SQRT_M_PI_pos : (0 : ℝ) < INV_2_SQRT_M_PI := by
  simp only [INV_2_SQRT_M_PI, lit]
  norm_num

theorem beckmann_smith_of_alpha (wi : Vector3f ℝ) (au av : ℝ)
    (h0 : 0 < wi.z) (h1 : wi.z ≤ 0.9999) (hα : 0 < alpha_i Real.sqrt wi au av) :
    MicrosurfaceSlopeBeckmann.Lambda Real.exp Real.exp Real.sqrt Real.arccos Real.tan (-wi) au av
        = -1 - MicrosurfaceSlopeBeckmann.Lambda Real.exp Real.exp Real.sqrt Real.arccos Real.tan
            wi au av ∧
      MicrosurfaceSlopeBeckmann.projectedArea Real.exp Real.exp Real.sqrt Real.arccos Real.tan
          Real.sin wi au av
        = wi.z * (1 + MicrosurfaceSlopeBeckmann.Lambda Real.exp Real.exp Real.sqrt Real.arccos
            Real.tan wi au av) ∧
      -(1 / 2) < MicrosurfaceSlopeBeckmann.Lambda Real.exp Real.exp Real.sqrt Real.arccos Real.tan
        wi au av := by
  have hz1 : wi.z < 1 := by
    have : (0.9999 : ℝ) < 1 := by norm_num
    linarith
  have hT := tan_arccos_pos wi.z h0 hz1
  have hc : (0 : ℝ) < INV_2_SQRT_M_PI := INV_2_SQRT_M_PI_pos
  set α := alpha_i Real.sqrt wi au av with hαdef
  set T := Real.tan (Real.arccos wi.z) with hTdef
  have ha : 0 < 1 / T / α := by positivity
  have hnz : (-wi).z = -wi.z := rfl
  have hLi := beckmann_Lambda_eq wi au av (by linarith) h1
  have hLr := beckmann_Lambda_eq (-wi) au av (by rw [hnz]; linarith) (by rw [hnz]; linarith)
  rw [hnz, tan_arccos_neg, alpha_i_neg, ← hαdef, ← hTdef] at hLr
  rw [← hαdef, ← hTdef] at hLi
  have hneg : 1 / -T / α = -(1 / T / α) := by
    field_simp
  rw [hneg, serf_neg _ ha] at hLr
  have hE : 0 < Real.exp (-(1 / T / α) * (1 / T / α)) := Real.exp_pos _
  refine ⟨?_, ?_, ?_⟩
  · rw [hLr, hLi]
    have e : - -(1 / T / α) * -(1 / T / α) = -(1 / T / α) * (1 / T / α) := by ring
    rw [e]
    field_simp
    ring
  · rw [hLi]
    simp only [MicrosurfaceSlopeBeckmann.projectedArea, lit]
    push_cast
    simp only [show (1.0 : ℝ) = 1 by norm_num]
    rw [if_neg (not_lt.mpr h1), if_neg (by linarith), ← hαdef, ← hTdef]
    have hs : Real.sin (Real.arccos wi.z) = wi.z * T := (mul_tan_arccos wi.z h0).symm
    rw [hs]
    field_simp
    ring
  · rw [hLi]
    have hs := serf_nonneg (1 / T / α) ha.le
    have : 0 < INV_2_SQRT_M_PI / (1 / T / α) * Real.exp (-(1 / T / α) * (1 / T / α)) := by
      positivity
    linarith

theorem beckmann_smith (wi : Vector3f ℝ) (au av : ℝ)
    (hn : wi.x * wi.x + wi.y * wi.y + wi.z * wi.z = 1)
    (h0 : 0 < wi.z) (h1 : wi.z ≤ 0.9999) (hu : 0 < au) (hv : 0 < av) :
    MicrosurfaceSlopeBeckmann.Lambda Real.exp Real.exp Real.sqrt Real.arccos Real.tan (-wi) au av
        = -1 - MicrosurfaceSlopeBeckmann.Lambda Real.exp Real.exp Real.sqrt Real.arccos Real.tan
            wi au av ∧
      MicrosurfaceSlopeBeckmann.projectedArea Real.exp Real.exp Real.sqrt Real.arccos Real.tan
          Real.sin wi au av
        = wi.z * (1 + MicrosurfaceSlopeBeckmann.Lambda Real.exp Real.exp Real.sqrt Real.arccos
            Real.tan wi au av) ∧
      -(1 / 2) < MicrosurfaceSlopeBeckmann.Lambda Real.exp Real.exp Real.sqrt Real.arccos Real.tan
        wi au av := by
  have hz1 : wi.z < 1 := by
    have : (0.9999 : ℝ) < 1 := by norm_num
    linarith
  have hzz : wi.z * wi.z < 1 := by nlinarith
  exact beckmann_smith_of_alpha wi au av h0 h1 (alpha_i_pos wi au av hn hzz hu hv)

/-- The single-scattering cross-check in exact arithmetic, with the real `arccos` and `tan` for
`acosf` and `tanf`, for the conductor with the uniform height distribution and either slope
distribution: for unit `wi`, `wo` with `1e-4 ≤ wi.z ≤ 0.9999` and `0 < wo.z ≤ 0.9999`,
the mean over the height draw `U` of the first-bounce term
`evalPhaseFunction wi wo * G_1 wo (sampleHeight (-wi) (1 + invC1 0.999) U)` equals
`evalSingleScattering wi wo = D wh / (4 * wi.z * (1 + Lambda wi + Lambda wo))`; and `eval wi wo 1`
returns this term for the first draw `U ≤ 1` (as far as it passes the finiteness test). -/
theorem conductor_single_scattering_mean (slope_beckmann : Bool) (M_PI alpha_u alpha_v : ℝ)
    (wi wo : Vector3f ℝ) (hu : 0 < alpha_u) (hv : 0 < alpha_v)
    (hni : wi.x * wi.x + wi.y * wi.y + wi.z * wi.z = 1)
    (hno : wo.x * wo.x + wo.y * wo.y + wo.z * wo.z = 1)
    (hi0 : 0.0001 ≤ wi.z) (hi1 : wi.z ≤ 0.9999) (ho0 : 0 < wo.z) (ho1 : wo.z ≤ 0.9999) :
    (∫ U in (0 : ℝ)..1,
        MicrosurfaceConductor.evalPhaseFunction Real.sqrt
            (Microsurface.create M_PI Real.exp Real.exp Real.log Real.sqrt Real.arccos Real.tan
              Real.sin true slope_beckmann alpha_u alpha_v) wi wo *
          Microsurface.G_1_h Real.rpow
            (Microsurface.create M_PI Real.exp Real.exp Real.log Real.sqrt Real.arccos Real.tan
              Real.sin true slope_beckmann alpha_u alpha_v) wo
            (Microsurface.sampleHeight Real.rpow
              (Microsurface.create M_PI Real.exp Real.exp Real.log Real.sqrt Real.arccos Real.tan
                Real.sin true slope_beckmann alpha_u alpha_v) (-wi)
              (lit 1.0 + MicrosurfaceHeightUniform.invC1 (lit 0.999)) U))
      = MicrosurfaceConductor.evalSingleScattering Real.sqrt
          (Microsurface.create M_PI Real.exp Real.exp Real.log Real.sqrt Real.arccos Real.tan
            Real.sin true slope_beckmann alpha_u alpha_v) wi wo ∧
    MicrosurfaceConductor.evalSingleScattering Real.sqrt
        (Microsurface.create M_PI Real.exp Real.exp Real.log Real.sqrt Real.arccos Real.tan
          Real.sin true slope_beckmann alpha_u alpha_v) wi wo
      = (Microsurface.create M_PI Real.exp Real.exp Real.log Real.sqrt Real.arccos Real.tan
          Real.sin true slope_beckmann alpha_u alpha_v).m_microsurfaceslope.D
            (Normalize Real.sqrt (wi + wo)) alpha_u alpha_v /
          (4 * wi.z * (1 +
            (Microsurface.create M_PI Real.exp Real.exp Real.log Real.sqrt Real.arccos Real.tan
              Real.sin true slope_beckmann alpha_u alpha_v).m_microsurfaceslope.Lambda wi
                alpha_u alpha_v +
            (Microsurface.create M_PI Real.exp Real.exp Real.log Real.sqrt Real.arccos Real.tan
              Real.sin true slope_beckmann alpha_u alpha_v).m_microsurfaceslope.Lambda wo
                alpha_u alpha_v)) ∧
    ∀ (samplePhaseFunction : Microsurface ℝ → Vector3f ℝ → Rng ℝ → Vector3f ℝ × Rng ℝ)
      (g : Rng ℝ), (generateRandomNumber g).1 ≤ 1 →
      (Microsurface.eval Real.rpow (MicrosurfaceConductor Real.sqrt samplePhaseFunction)
          (Microsurface.create M_PI Real.exp Real.exp Real.log Real.sqrt Real.arccos Real.tan
            Real.sin true slope_beckmann alpha_u alpha_v) 2 wi wo 1 g).map Prod.fst
        = some (finiteTerm (MicrosurfaceConductor.evalPhaseFunction Real.sqrt
            (Microsurface.create M_PI Real.exp Real.exp Real.log Real.sqrt Real.arccos Real.tan
              Real.sin true slope_beckmann alpha_u alpha_v) wi wo *
          Microsurface.G_1_h Real.rpow
            (Microsurface.create M_PI Real.exp Real.exp Real.log Real.sqrt Real.arccos Real.tan
              Real.sin true slope_beckmann alpha_u alpha_v) wo
            (Microsurface.sampleHeight Real.rpow
              (Microsurface.create M_PI Real.exp Real.exp Real.log Real.sqrt Real.arccos Real.tan
                Real.sin true slope_beckmann alpha_u alpha_v) (-wi)
              (lit 1.0 + MicrosurfaceHeightUniform.invC1 (lit 0.999))
              (generateRandomNumber g).1))) := by
  have hi0' : 0 < wi.z := by linarith
  have hms : ∀ sb : Bool, Microsurface.create M_PI Real.exp Real.exp Real.log Real.sqrt Real.arccos
      Real.tan Real.sin true sb alpha_u alpha_v
      = ⟨MicrosurfaceHeightUniform,
          if sb then MicrosurfaceSlopeBeckmann M_PI Real.exp Real.exp Real.sqrt Real.arccos
            Real.tan Real.sin
          else MicrosurfaceSlopeGGX M_PI Real.sqrt Real.arccos Real.tan Real.sin,
          alpha_u, alpha_v⟩ := by
    intro sb
    simp [Microsurface.create]
  rw [hms]
  have hsmith : ∃ slope : MicrosurfaceSlope ℝ,
      slope = (if slope_beckmann then MicrosurfaceSlopeBeckmann M_PI Real.exp Real.exp Real.sqrt
          Real.arccos Real.tan Real.sin
        else MicrosurfaceSlopeGGX M_PI Real.sqrt Real.arccos Real.tan Real.sin) ∧
      slope.Lambda (-wi) alpha_u alpha_v = -1 - slope.Lambda wi alpha_u alpha_v ∧
      slope.projectedArea wi alpha_u alpha_v = wi.z * (1 + slope.Lambda wi alpha_u alpha_v) ∧
      0 < 1 + slope.Lambda wi alpha_u alpha_v ∧
      0 < 1 + slope.Lambda wi alpha_u alpha_v + slope.Lambda wo alpha_u alpha_v := by
    refine ⟨_, rfl, ?_⟩
    cases slope_beckmann with
    | true =>
      obtain ⟨a1, a2, a3⟩ := beckmann_smith wi alpha_u alpha_v hni hi0' hi1 hu hv
      obtain ⟨_, _, b3⟩ := beckmann_smith wo alpha_u alpha_v hno ho0 ho1 hu hv
      simp only [if_true, MicrosurfaceSlopeBeckmann]
      exact ⟨a1, a2, by linarith, by linarith⟩
    | false =>
      obtain ⟨a1, a2, a3⟩ := ggx_smith wi alpha_u alpha_v hni hi0' hi1 hu hv
      obtain ⟨_, _, b3⟩ := ggx_smith wo alpha_u alpha_v hno ho0 ho1 hu hv
      simp only [Bool.false_eq_true, if_false, MicrosurfaceSlopeGGX]
      exact ⟨a1, a2, by linarith, by linarith⟩
  obtain ⟨slope, hs, hL, hpa, h1, h2⟩ := hsmith
  rw [← hs]
  have hrpow : ∀ r : ℝ, -1 < r → ∫ U in (0 : ℝ)..1, (1 - U) ^ r = 1 / (r + 1) := by
    intro r hr
    have h : ∫ U in (0 : ℝ)..1, (fun x : ℝ => x ^ r) (1 - U)
        = ∫ x in (1 - 1 : ℝ)..(1 - 0), (fun x : ℝ => x ^ r) x :=
      intervalIntegral.integral_comp_sub_left (fun x : ℝ => x ^ r) 1
    simp only [sub_self, sub_zero] at h
    rw [h, integral_rpow (Or.inl hr)]
    have : (0 : ℝ) ^ (r + 1) = 0 := Real.zero_rpow (by linarith)
    rw [this, Real.one_rpow, sub_zero]
  have hmean :
      (∫ U in (0 : ℝ)..1,
          MicrosurfaceConductor.evalPhaseFunction Real.sqrt
              ⟨MicrosurfaceHeightUniform, slope, alpha_u, alpha_v⟩ wi wo *
            Microsurface.G_1_h Real.rpow ⟨MicrosurfaceHeightUniform, slope, alpha_u, alpha_v⟩ wo
              (Microsurface.sampleHeight Real.rpow
                ⟨MicrosurfaceHeightUniform, slope, alpha_u, alpha_v⟩ (-wi)
                (lit 1.0 + MicrosurfaceHeightUniform.invC1 (lit 0.999)) U))
        = MicrosurfaceConductor.evalSingleScattering Real.sqrt
            ⟨MicrosurfaceHeightUniform, slope, alpha_u, alpha_v⟩ wi wo ∧
      MicrosurfaceConductor.evalSingleScattering Real.sqrt
          ⟨MicrosurfaceHeightUniform, slope, alpha_u, alpha_v⟩ wi wo
        = slope.D (Normalize Real.sqrt (wi + wo)) alpha_u alpha_v /
            (4 * wi.z * (1 + slope.Lambda wi alpha_u alpha_v + slope.Lambda wo alpha_u alpha_v)) := by
    have hz : 0 < wi.z := by linarith
    have hpa0 : slope.projectedArea wi alpha_u alpha_v ≠ 0 := by
      rw [hpa]
      positivity
    have hz' : wi.z ≠ 0 := hz.ne'
    have h1' : 1 + slope.Lambda wi alpha_u alpha_v ≠ 0 := h1.ne'
    have h2' : 1 + slope.Lambda wi alpha_u alpha_v + slope.Lambda wo alpha_u alpha_v ≠ 0 := h2.ne'
    have hss : MicrosurfaceConductor.evalSingleScattering Real.sqrt
          ⟨MicrosurfaceHeightUniform, slope, alpha_u, alpha_v⟩ wi wo
        = slope.D (Normalize Real.sqrt (wi + wo)) alpha_u alpha_v /
            (4 * wi.z * (1 + slope.Lambda wi alpha_u alpha_v + slope.Lambda wo alpha_u alpha_v)) := by
      simp only [MicrosurfaceConductor.evalSingleScattering, lit]
      push_cast
      simp only [show (4.0 : ℝ) = 4 by norm_num, show (1.0 : ℝ) = 1 by norm_num]
      rw [mul_one_div, div_div,
        mul_comm (1 + slope.Lambda wi alpha_u alpha_v + slope.Lambda wo alpha_u alpha_v) (4 * wi.z)]
    refine ⟨?_, hss⟩
    have hcongr : ∀ U ∈ Set.uIcc (0 : ℝ) 1,
        MicrosurfaceConductor.evalPhaseFunction Real.sqrt
              ⟨MicrosurfaceHeightUniform, slope, alpha_u, alpha_v⟩ wi wo *
            Microsurface.G_1_h Real.rpow ⟨MicrosurfaceHeightUniform, slope, alpha_u, alpha_v⟩ wo
              (Microsurface.sampleHeight Real.rpow ⟨MicrosurfaceHeightUniform, slope, alpha_u, alpha_v⟩ (-wi)
                (lit 1.0 + MicrosurfaceHeightUniform.invC1 (lit 0.999)) U)
          = slope.D (Normalize Real.sqrt (wi + wo)) alpha_u alpha_v / (4 * slope.projectedArea wi alpha_u alpha_v) *
            (1 - U) ^ (slope.Lambda wo alpha_u alpha_v / (1 + slope.Lambda wi alpha_u alpha_v)) := by
      intro U hU
      rw [Set.uIcc_of_le zero_le_one] at hU
      rw [first_bounce_shadowing slope alpha_u alpha_v wi wo hi0 hi1 ho0 ho1 hL h1 U hU.1 hU.2,
        conductor_phase_eq slope alpha_u alpha_v wi wo hni hno hz ho0 hpa0]
    rw [intervalIntegral.integral_congr hcongr, intervalIntegral.integral_const_mul,
      hrpow _ (by rw [lt_div_iff₀ h1]; linarith), hss, hpa]
    have h3 : slope.Lambda wo alpha_u alpha_v / (1 + slope.Lambda wi alpha_u alpha_v) + 1
        = (1 + slope.Lambda wi alpha_u alpha_v + slope.Lambda wo alpha_u alpha_v) / (1 + slope.Lambda wi alpha_u alpha_v) := by
      field_simp
      ring
    rw [h3]
    field_simp
    ring
  obtain ⟨c1, c2⟩ := hmean
  refine ⟨c1, c2, ?_⟩
  intro samplePhaseFunction g hg1
  have hne : Microsurface.sampleHeight Real.rpow
      ⟨MicrosurfaceHeightUniform, slope, alpha_u, alpha_v⟩ (-wi)
      (lit 1.0 + MicrosurfaceHeightUniform.invC1 (lit 0.999)) (generateRandomNumber g).1
        ≠ FLT_MAX := by
    have hz : (-wi).z = -wi.z := rfl
    have hg : Microsurface.G_1_h Real.rpow ⟨MicrosurfaceHeightUniform, slope, alpha_u, alpha_v⟩
        (-wi) (lit 1.0 + MicrosurfaceHeightUniform.invC1 (lit 0.999)) = 0 := by
      rw [G_1_h_eq, hz, if_neg (by linarith), if_pos (by linarith)]
    rw [sampleHeight_eq, hz, if_neg (by linarith), if_neg (by linarith),
      if_neg (by rw [abs_neg, abs_of_pos hi0']; linarith)]
    rw [hg, if_neg (by linarith)]
    exact uniform_invC1_ne_FLT_MAX _
  exact eval_order_one_value Real.rpow (MicrosurfaceConductor Real.sqrt samplePhaseFunction)
    ⟨MicrosurfaceHeightUniform, slope, alpha_u, alpha_v⟩ wi wo g (not_lt.mpr ho0.le) hne

theorem D_eq (s : MicrosurfaceSlope K) (wm : Vector3f K) (ax ay : K) :
    s.D wm ax ay = if wm.z ≤ 0 then 0
      else s.P22 (-wm.x / wm.z) (-wm.y / wm.z) ax ay / (wm.z * wm.z * wm.z * wm.z) := by
  simp only [MicrosurfaceSlope.D, lit]
  norm_num

theorem D_wi_eq (s : MicrosurfaceSlope K) (wi wm : Vector3f K) (ax ay : K) :
    s.D_wi wi wm ax ay = if wm.z ≤ 0 then 0
      else if s.projectedArea wi ax ay = 0 then 0
      else 1 / s.projectedArea wi ax ay * max 0 (Dot wi wm) * s.D wm ax ay := by
  simp only [MicrosurfaceSlope.D_wi, lit, stdmax_eq_max]
  norm_num

/-- C13. Visible-normal density: `D_wi wi wm` is `0` when `wm.z ≤ 0` and `0` when
`projectedArea wi = 0`, and otherwise is `max 0 (Dot wi wm) * D wm / projectedArea wi`, where
`D wm` is `P22 (-wm.x / wm.z) (-wm.y / wm.z) / wm.z ^ 4` for `wm.z > 0` and `0` for `wm.z ≤ 0`;
this for every slope distribution, so that the zero results do not depend on any quotient. -/
theorem D_wi_cases (s : MicrosurfaceSlope K) (wi wm : Vector3f K) (ax ay : K) :
    (wm.z ≤ 0 → s.D_wi wi wm ax ay = 0) ∧
      (s.projectedArea wi ax ay = 0 → s.D_wi wi wm ax ay = 0) ∧
      (0 < wm.z → s.projectedArea wi ax ay ≠ 0 →
        s.D_wi wi wm ax ay = max 0 (Dot wi wm) * s.D wm ax ay / s.projectedArea wi ax ay) ∧
      (0 < wm.z →
        s.D wm ax ay = s.P22 (-wm.x / wm.z) (-wm.y / wm.z) ax ay / wm.z ^ 4) ∧
      (wm.z ≤ 0 → s.D wm ax ay = 0) := by
  refine ⟨?_, ?_, ?_, ?_, ?_⟩
  · intro h
    rw [D_wi_eq, if_pos h]
  · intro h
    rw [D_wi_eq]
    split_ifs <;> rfl
  · intro h0 h1
    rw [D_wi_eq, if_neg (not_le.mpr h0), if_neg h1]
    field_simp
  · intro h0
    rw [D_eq, if_neg (not_le.mpr h0)]
    congr 1
    ring
  · intro h
    rw [D_eq, if_pos h]

/-- C14. Degenerate-direction guards of both slope distributions, for every roughness pair: for
`wi.z > 0.9999`, `Lambda wi = 0` and `projectedArea wi = 1`; for `wi.z < -0.9999`,
`Lambda wi = -1` and `projectedArea wi = 0`; this whatever functions stand for `exp`, `sqrtf`,
`acosf`, `tanf`, `sinf`, which these branches therefore do not consult. -/
theorem slope_degenerate_guards (exp expf sqrtf acosf tanf sinf : K → K) (wi : Vector3f K)
    (alpha_u alpha_v : K) :
    (0.9999 < wi.z →
      MicrosurfaceSlopeBeckmann.Lambda exp expf sqrtf acosf tanf wi alpha_u alpha_v = 0 ∧
      MicrosurfaceSlopeBeckmann.projectedArea exp expf sqrtf acosf tanf sinf wi alpha_u alpha_v = 1 ∧
      MicrosurfaceSlopeGGX.Lambda sqrtf acosf tanf wi alpha_u alpha_v = 0 ∧
      MicrosurfaceSlopeGGX.projectedArea sqrtf acosf sinf wi alpha_u alpha_v = 1) ∧
    (wi.z < -0.9999 →
      MicrosurfaceSlopeBeckmann.Lambda exp expf sqrtf acosf tanf wi alpha_u alpha_v = -1 ∧
      MicrosurfaceSlopeBeckmann.projectedArea exp expf sqrtf acosf tanf sinf wi alpha_u alpha_v = 0 ∧
      MicrosurfaceSlopeGGX.Lambda sqrtf acosf tanf wi alpha_u alpha_v = -1 ∧
      MicrosurfaceSlopeGGX.projectedArea sqrtf acosf sinf wi alpha_u alpha_v = 0) := by
  constructor
  · intro h
    have h1 : wi.z > lit 0.9999 := by simp only [lit]; push_cast; exact h
    simp only [MicrosurfaceSlopeBeckmann.Lambda, MicrosurfaceSlopeBeckmann.projectedArea,
      MicrosurfaceSlopeGGX.Lambda, MicrosurfaceSlopeGGX.projectedArea, if_pos h1]
    norm_num [lit]
  · intro h
    have h1 : ¬ wi.z > lit 0.9999 := by
      simp only [lit]; push_cast; intro h2; norm_num at h2; linarith
    have h2 : wi.z < -(lit 0.9999) := by simp only [lit]; push_cast; exact h
    simp only [MicrosurfaceSlopeBeckmann.Lambda, MicrosurfaceSlopeBeckmann.projectedArea,
      MicrosurfaceSlopeGGX.Lambda, MicrosurfaceSlopeGGX.projectedArea, if_neg h1, if_pos h2]
    norm_num [lit]

/-- C16. The function `Fresnel` returns `1` whenever
`cos_theta_t2 = 1 - (1 - Dot wi wm ^ 2) / eta ^ 2` is `≤ 0`, and otherwise
`0.5 * (Rs ^ 2 + Rp ^ 2)` with `Rs = (c - eta * ct) / (c + eta * ct)`,
`Rp = (eta * c - ct) / (eta * c + ct)`, `c = Dot wi wm`, `ct = sqrtf cos_theta_t2`. -/
theorem Fresnel_cases (sqrtf : K → K) (wi wm : Vector3f K) (eta : K) :
    (1 - (1 - Dot wi wm * Dot wi wm) / (eta * eta) ≤ 0 →
      MicrosurfaceDielectric.Fresnel sqrtf wi wm eta = 1) ∧
    (0 < 1 - (1 - Dot wi wm * Dot wi wm) / (eta * eta) →
      MicrosurfaceDielectric.Fresnel sqrtf wi wm eta =
        0.5 * (((Dot wi wm - eta * sqrtf (1 - (1 - Dot wi wm * Dot wi wm) / (eta * eta))) /
              (Dot wi wm + eta * sqrtf (1 - (1 - Dot wi wm * Dot wi wm) / (eta * eta)))) ^ 2 +
          ((eta * Dot wi wm - sqrtf (1 - (1 - Dot wi wm * Dot wi wm) / (eta * eta))) /
              (eta * Dot wi wm + sqrtf (1 - (1 - Dot wi wm * Dot wi wm) / (eta * eta)))) ^ 2)) := by
  have e : MicrosurfaceDielectric.Fresnel sqrtf wi wm eta =
      if 1 - (1 - Dot wi wm * Dot wi wm) / (eta * eta) ≤ 0 then 1 else
        0.5 * (((Dot wi wm - eta * sqrtf (1 - (1 - Dot wi wm * Dot wi wm) / (eta * eta))) /
              (Dot wi wm + eta * sqrtf (1 - (1 - Dot wi wm * Dot wi wm) / (eta * eta)))) ^ 2 +
          ((eta * Dot wi wm - sqrtf (1 - (1 - Dot wi wm * Dot wi wm) / (eta * eta))) /
              (eta * Dot wi wm + sqrtf (1 - (1 - Dot wi wm * Dot wi wm) / (eta * eta)))) ^ 2) := by
    simp only [MicrosurfaceDielectric.Fresnel, lit, pow_two]
    norm_num
  constructor
  · intro h
    rw [e, if_pos h]
  · intro h
    rw [e, if_neg (not_le.mpr h)]

theorem Vector3f.sub_def (v w : Vector3f K) : v - w = ⟨v.x - w.x, v.y - w.y, v.z - w.z⟩ := rfl

theorem Vector3f.add_def (v w : Vector3f K) : v + w = ⟨v.x + w.x, v.y + w.y, v.z + w.z⟩ := rfl

theorem refract_eq (wi wm : Vector3f ℝ) (eta : ℝ) :
    MicrosurfaceDielectric.refract Real.sqrt wi wm eta
      = ⟨(Dot wi wm / eta
            + -Real.sqrt (max 0 (1 - (1 - Dot wi wm * Dot wi wm) / (eta * eta)))) * wm.x
          - wi.x * (1 / eta),
        (Dot wi wm / eta
            + -Real.sqrt (max 0 (1 - (1 - Dot wi wm * Dot wi wm) / (eta * eta)))) * wm.y
          - wi.y * (1 / eta),
        (Dot wi wm / eta
            + -Real.sqrt (max 0 (1 - (1 - Dot wi wm * Dot wi wm) / (eta * eta)))) * wm.z
          - wi.z * (1 / eta)⟩ := by
  simp only [MicrosurfaceDielectric.refract, Vector3f.mul, Vector3f.div, stdmax_eq_max, lit]
  norm_num
  rfl

/-- C18. The function `refract` follows Snell's law: for unit `wi`, `wm`, `eta > 0` and
`cos_theta_t2 = 1 - (1 - Dot wi wm ^ 2) / eta ^ 2 ≥ 0`, the returned `wt` has unit length,
`Dot wt wm = -sqrt cos_theta_t2`, its component orthogonal to `wm` is
`(Dot wi wm * wm - wi) / eta`, and the squared length of that component is
`(1 - Dot wi wm ^ 2) / eta ^ 2`. -/
theorem refract_snell (wi wm : Vector3f ℝ) (eta : ℝ)
    (hi : Dot wi wi = 1) (hm : Dot wm wm = 1) (heta : 0 < eta)
    (ht : 0 ≤ 1 - (1 - Dot wi wm ^ 2) / eta ^ 2) :
    Dot (MicrosurfaceDielectric.refract Real.sqrt wi wm eta)
        (MicrosurfaceDielectric.refract Real.sqrt wi wm eta) = 1 ∧
      Dot (MicrosurfaceDielectric.refract Real.sqrt wi wm eta) wm
        = -Real.sqrt (1 - (1 - Dot wi wm ^ 2) / eta ^ 2) ∧
      MicrosurfaceDielectric.refract Real.sqrt wi wm eta
          - wm.mul (Dot (MicrosurfaceDielectric.refract Real.sqrt wi wm eta) wm)
        = (wm.mul (Dot wi wm) - wi).div eta ∧
      Dot (MicrosurfaceDielectric.refract Real.sqrt wi wm eta
            - wm.mul (Dot (MicrosurfaceDielectric.refract Real.sqrt wi wm eta) wm))
          (MicrosurfaceDielectric.refract Real.sqrt wi wm eta
            - wm.mul (Dot (MicrosurfaceDielectric.refract Real.sqrt wi wm eta) wm))
        = (1 - Dot wi wm ^ 2) / eta ^ 2 := by
  have ht2 : 1 - (1 - Dot wi wm * Dot wi wm) / (eta * eta)
      = 1 - (1 - Dot wi wm ^ 2) / eta ^ 2 := by ring
  have hrf := refract_eq wi wm eta
  rw [ht2, max_eq_right ht] at hrf
  set c := Dot wi wm with hc
  set s := Real.sqrt (1 - (1 - c ^ 2) / eta ^ 2) with hs
  have hss : s * s = 1 - (1 - c ^ 2) / eta ^ 2 := Real.mul_self_sqrt ht
  have hne : eta ≠ 0 := heta.ne'
  have hdot : Dot (MicrosurfaceDielectric.refract Real.sqrt wi wm eta) wm = -s := by
    rw [hrf]
    simp only [Dot] at hm hc ⊢
    have : ((c / eta + -s) * wm.x - wi.x * (1 / eta)) * wm.x
        + ((c / eta + -s) * wm.y - wi.y * (1 / eta)) * wm.y
        + ((c / eta + -s) * wm.z - wi.z * (1 / eta)) * wm.z
        = (c / eta + -s) * (wm.x * wm.x + wm.y * wm.y + wm.z * wm.z)
          - (wi.x * wm.x + wi.y * wm.y + wi.z * wm.z) / eta := by ring
    rw [this, hm, ← hc]
    ring
  have hcomp : MicrosurfaceDielectric.refract Real.sqrt wi wm eta
          - wm.mul (Dot (MicrosurfaceDielectric.refract Real.sqrt wi wm eta) wm)
        = (wm.mul c - wi).div eta := by
    rw [hdot, hrf]
    simp only [Vector3f.sub_def, Vector3f.mul, Vector3f.div, lit]
    congr 1 <;> (push_cast; ring)
  refine ⟨?_, hdot, hcomp, ?_⟩
  · rw [hrf]
    simp only [Dot] at hm hc hi ⊢
    have : ((c / eta + -s) * wm.x - wi.x * (1 / eta)) * ((c / eta + -s) * wm.x - wi.x * (1 / eta))
        + ((c / eta + -s) * wm.y - wi.y * (1 / eta)) * ((c / eta + -s) * wm.y - wi.y * (1 / eta))
        + ((c / eta + -s) * wm.z - wi.z * (1 / eta)) * ((c / eta + -s) * wm.z - wi.z * (1 / eta))
        = (c / eta + -s) ^ 2 * (wm.x * wm.x + wm.y * wm.y + wm.z * wm.z)
          - 2 * (c / eta + -s) * (wi.x * wm.x + wi.y * wm.y + wi.z * wm.z) / eta
          + (wi.x * wi.x + wi.y * wi.y + wi.z * wi.z) / eta ^ 2 := by ring
    rw [this, hm, ← hc, hi]
    have : (c / eta + -s) ^ 2 * 1 - 2 * (c / eta + -s) * c / eta + 1 / eta ^ 2
        = s * s + (1 - c ^ 2) / eta ^ 2 := by
      field_simp
      ring
    rw [this, hss]
    ring
  · rw [hcomp]
    simp only [Dot, Vector3f.sub_def, Vector3f.mul, Vector3f.div, lit] at hm hc hi ⊢
    push_cast
    have : (c * wm.x - wi.x) * (1 / eta) * ((c * wm.x - wi.x) * (1 / eta))
      + (c * wm.y - wi.y) * (1 / eta) * ((c * wm.y - wi.y) * (1 / eta))
      + (c * wm.z - wi.z) * (1 / eta) * ((c * wm.z - wi.z) * (1 / eta))
      = (c ^ 2 * (wm.x * wm.x + wm.y * wm.y + wm.z * wm.z)
          - 2 * c * (wi.x * wm.x + wi.y * wm.y + wi.z * wm.z)
          + (wi.x * wi.x + wi.y * wi.y + wi.z * wi.z)) / eta ^ 2 := by
      field_simp
      ring
    rw [this, hm, ← hc, hi]
    ring

theorem buildOrthonormalBasis_eq (omega_3 : Vector3f K) :
    buildOrthonormalBasis omega_3 =
      if omega_3.z < -0.9999999 then (⟨0, -1, 0⟩, ⟨-1, 0, 0⟩)
      else
        (⟨1 - omega_3.x * omega_3.x * (1 / (1 + omega_3.z)),
            -omega_3.x * omega_3.y * (1 / (1 + omega_3.z)), -omega_3.x⟩,
          ⟨-omega_3.x * omega_3.y * (1 / (1 + omega_3.z)),
            1 - omega_3.y * omega_3.y * (1 / (1 + omega_3.z)), -omega_3.y⟩) := by
  simp only [buildOrthonormalBasis, lit]
  norm_num

theorem frisvad_orthonormal (omega_3 : Vector3f K) (hn : Dot omega_3 omega_3 = 1)
    (hz : -0.9999999 ≤ omega_3.z) :
    Dot (buildOrthonormalBasis omega_3).1 (buildOrthonormalBasis omega_3).1 = 1 ∧
      Dot (buildOrthonormalBasis omega_3).2 (buildOrthonormalBasis omega_3).2 = 1 ∧
      Dot (buildOrthonormalBasis omega_3).1 (buildOrthonormalBasis omega_3).2 = 0 ∧
      Dot (buildOrthonormalBasis omega_3).1 omega_3 = 0 ∧
      Dot (buildOrthonormalBasis omega_3).2 omega_3 = 0 := by
  rw [buildOrthonormalBasis_eq, if_neg (not_lt.mpr hz)]
  have hpos : 0 < 1 + omega_3.z := by
    have : (-0.9999999 : K) = -1 + 0.0000001 := by norm_num
    rw [this] at hz
    have : (0 : K) < 0.0000001 := by norm_num
    linarith
  obtain ⟨x, y, z⟩ := omega_3
  simp only [Dot] at hn hpos ⊢
  have hne : 1 + z ≠ 0 := hpos.ne'
  have hxy : x * x + y * y = (1 - z) * (1 + z) := by linear_combination hn
  set a := 1 / (1 + z) with ha
  have ha1 : a * (1 + z) = 1 := by rw [ha]; field_simp
  refine ⟨?_, ?_, ?_, ?_, ?_⟩
  · linear_combination (x * x * a * a) * hxy + (x * x * a * (1 - z) - x * x) * ha1
  · linear_combination (y * y * a * a) * hxy + (y * y * a * (1 - z) - y * y) * ha1
  · linear_combination (x * y * a * a) * hxy + (x * y * a * (1 - z) - x * y) * ha1
  · linear_combination (-x * a) * hxy + (-x * (1 - z)) * ha1
  · linear_combination (-y * a) * hxy + (-y * (1 - z)) * ha1

/-- Amended C20. For a unit `omega_3` with `omega_3.z ≥ -0.9999999`, the outputs of
`buildOrthonormalBasis` are unit vectors, orthogonal to each other and both orthogonal to
`omega_3`.  In the branch `omega_3.z < -0.9999999` the outputs are the fixed vectors `(0, -1, 0)`
and `(-1, 0, 0)`: unit and orthogonal to each other, with `Dot omega_1 omega_3 = -omega_3.y` and
`Dot omega_2 omega_3 = -omega_3.x`. -/
theorem buildOrthonormalBasis_orthonormal (omega_3 : Vector3f K)
    (hn : Dot omega_3 omega_3 = 1) :
    (-0.9999999 ≤ omega_3.z →
      Dot (buildOrthonormalBasis omega_3).1 (buildOrthonormalBasis omega_3).1 = 1 ∧
      Dot (buildOrthonormalBasis omega_3).2 (buildOrthonormalBasis omega_3).2 = 1 ∧
      Dot (buildOrthonormalBasis omega_3).1 (buildOrthonormalBasis omega_3).2 = 0 ∧
      Dot (buildOrthonormalBasis omega_3).1 omega_3 = 0 ∧
      Dot (buildOrthonormalBasis omega_3).2 omega_3 = 0) ∧
    (omega_3.z < -0.9999999 →
      buildOrthonormalBasis omega_3 = (⟨0, -1, 0⟩, ⟨-1, 0, 0⟩) ∧
      Dot (buildOrthonormalBasis omega_3).1 (buildOrthonormalBasis omega_3).1 = 1 ∧
      Dot (buildOrthonormalBasis omega_3).2 (buildOrthonormalBasis omega_3).2 = 1 ∧
      Dot (buildOrthonormalBasis omega_3).1 (buildOrthonormalBasis omega_3).2 = 0 ∧
      Dot (buildOrthonormalBasis omega_3).1 omega_3 = -omega_3.y ∧
      Dot (buildOrthonormalBasis omega_3).2 omega_3 = -omega_3.x) := by
  refine ⟨frisvad_orthonormal omega_3 hn, fun hz => ?_⟩
  rw [buildOrthonormalBasis_eq, if_pos hz]
  simp [Dot]

/-- C20 as stated fails in the near-antipodal branch: the unit vector
`(20000, 0, -99999999) / 100000001` has `z < -0.9999999`, the code returns
`omega_2 = (-1, 0, 0)`, and `Dot omega_2 omega_3 = -20000 / 100000001`, which is not `0`. -/
theorem buildOrthonormalBasis_counterexample :
    Dot (⟨20000 / 100000001, 0, -(99999999 / 100000001)⟩ : Vector3f ℚ)
        ⟨20000 / 100000001, 0, -(99999999 / 100000001)⟩ = 1 ∧
      Dot (buildOrthonormalBasis
          (⟨20000 / 100000001, 0, -(99999999 / 100000001)⟩ : Vector3f ℚ)).2
        ⟨20000 / 100000001, 0, -(99999999 / 100000001)⟩ = -(20000 / 100000001) ∧
      Dot (buildOrthonormalBasis
          (⟨20000 / 100000001, 0, -(99999999 / 100000001)⟩ : Vector3f ℚ)).2
        ⟨20000 / 100000001, 0, -(99999999 / 100000001)⟩ ≠ 0 := by
  have hb : buildOrthonormalBasis
      (⟨20000 / 100000001, 0, -(99999999 / 100000001)⟩ : Vector3f ℚ)
      = (⟨0, -1, 0⟩, ⟨-1, 0, 0⟩) := by
    rw [buildOrthonormalBasis_eq, if_pos (by norm_num)]
  rw [hb]
  refine ⟨?_, ?_, ?_⟩ <;> norm_num [Dot]

theorem buildOrthonormalBasis_orthonormal_witness :
    (Dot (buildOrthonormalBasis (⟨3 / 5, 0, 4 / 5⟩ : Vector3f ℚ)).1
        (buildOrthonormalBasis (⟨3 / 5, 0, 4 / 5⟩ : Vector3f ℚ)).1 = 1 ∧
      Dot (buildOrthonormalBasis (⟨3 / 5, 0, 4 / 5⟩ : Vector3f ℚ)).2
        (buildOrthonormalBasis (⟨3 / 5, 0, 4 / 5⟩ : Vector3f ℚ)).2 = 1 ∧
      Dot (buildOrthonormalBasis (⟨3 / 5, 0, 4 / 5⟩ : Vector3f ℚ)).1
        (buildOrthonormalBasis (⟨3 / 5, 0, 4 / 5⟩ : Vector3f ℚ)).2 = 0 ∧
      Dot (buildOrthonormalBasis (⟨3 / 5, 0, 4 / 5⟩ : Vector3f ℚ)).1 ⟨3 / 5, 0, 4 / 5⟩ = 0 ∧
      Dot (buildOrthonormalBasis (⟨3 / 5, 0, 4 / 5⟩ : Vector3f ℚ)).2 ⟨3 / 5, 0, 4 / 5⟩ = 0) ∧
    buildOrthonormalBasis (⟨0, 0, -1⟩ : Vector3f ℚ) = (⟨0, -1, 0⟩, ⟨-1, 0, 0⟩) :=
  ⟨(buildOrthonormalBasis_orthonormal (⟨3 / 5, 0, 4 / 5⟩ : Vector3f ℚ)
      (by norm_num [Dot])).1 (by norm_num),
    ((buildOrthonormalBasis_orthonormal (⟨0, 0, -1⟩ : Vector3f ℚ)
      (by norm_num [Dot])).2 (by norm_num)).1⟩

theorem conductor_evalSingleScattering_eq (sqrtf : K → K) (ms : Microsurface K)
    (wi wo : Vector3f K) :
    MicrosurfaceConductor.evalSingleScattering sqrtf ms wi wo
      = ms.m_microsurfaceslope.D (Normalize sqrtf (wi + wo)) ms.m_alphau ms.m_alphav
        * (1 / (1 + ms.m_microsurfaceslope.Lambda wi ms.m_alphau ms.m_alphav
            + ms.m_microsurfaceslope.Lambda wo ms.m_alphau ms.m_alphav)) / (4 * wi.z) := by
  simp only [MicrosurfaceConductor.evalSingleScattering, lit]
  norm_num

theorem normalize_z_pos (v : Vector3f ℝ) (h : 0 < v.z) : 0 < (Normalize Real.sqrt v).z := by
  simp only [Normalize, lit]
  have : 0 < v.x * v.x + v.y * v.y + v.z * v.z := by nlinarith [mul_self_nonneg v.x, mul_self_nonneg v.y]
  have hs := Real.sqrt_pos.mpr this
  push_cast
  positivity

theorem ggx_D_pos (sqrtf acosf tanf sinf : ℝ → ℝ) (wm : Vector3f ℝ) (au av : ℝ) (h : 0 < wm.z)
    (hu : 0 < au) (hv : 0 < av) :
    0 < (MicrosurfaceSlopeGGX Real.pi sqrtf acosf tanf sinf).D wm au av := by
  rw [D_eq, if_neg (not_le.mpr h)]
  simp only [MicrosurfaceSlopeGGX, MicrosurfaceSlopeGGX.P22, lit]
  have hpi := Real.pi_pos
  have h1 : 0 ≤ -wm.x / wm.z * (-wm.x / wm.z) / (au * au) :=
    div_nonneg (mul_self_nonneg _) (by positivity)
  have h2 : 0 ≤ -wm.y / wm.z * (-wm.y / wm.z) / (av * av) :=
    div_nonneg (mul_self_nonneg _) (by positivity)
  push_cast
  have h3 : 0 < 1.0 + -wm.x / wm.z * (-wm.x / wm.z) / (au * au)
      + -wm.y / wm.z * (-wm.y / wm.z) / (av * av) := by
    norm_num
    linarith
  positivity

theorem sampleD_wi_z_nonneg (acosf cosf sinf : ℝ → ℝ) (atan2 : ℝ → ℝ → ℝ)
    (sampleP22_11 : ℝ → ℝ → ℝ → Vector2f ℝ) (wi : Vector3f ℝ) (U1 U2 ax ay : ℝ) :
    0 ≤ (MicrosurfaceSlope.sampleD_wi Real.sqrt acosf cosf sinf atan2 sampleP22_11 wi U1 U2
      ax ay).z := by
  simp only [MicrosurfaceSlope.sampleD_wi]
  split_ifs
  · norm_num [lit]
  · norm_num [Normalize, lit]
  · simp only [Normalize, lit]
    push_cast
    positivity

theorem frame_combination (w1 w2 w3 : Vector3f K) (x y z : K)
    (h11 : Dot w1 w1 = 1) (h22 : Dot w2 w2 = 1) (h33 : Dot w3 w3 = 1)
    (h12 : Dot w1 w2 = 0) (h13 : Dot w1 w3 = 0) (h23 : Dot w2 w3 = 0) :
    Dot (Vector3f.smul x w1 + Vector3f.smul y w2 + Vector3f.smul z w3) w3 = z ∧
      Dot (Vector3f.smul x w1 + Vector3f.smul y w2 + Vector3f.smul z w3)
          (Vector3f.smul x w1 + Vector3f.smul y w2 + Vector3f.smul z w3)
        = x * x + y * y + z * z := by
  simp only [Dot, Vector3f.add_def, Vector3f.smul, Vector3f.mul] at *
  constructor
  · linear_combination x * h13 + y * h23 + z * h33
  · linear_combination x * x * h11 + y * y * h22 + z * z * h33 + 2 * x * y * h12
      + 2 * x * z * h13 + 2 * y * z * h23

theorem concentricMap_eq (M_PI r1 r2 : K) :
    MicrosurfaceDiffuse.concentricMap M_PI r1 r2 =
      if r1 = 0 ∧ r2 = 0 then (0, 0)
      else if r2 * r2 < r1 * r1 then (r1, M_PI / 4 * (r2 / r1))
      else (r2, M_PI / 2 - r1 / r2 * (M_PI / 4)) := by
  simp only [MicrosurfaceDiffuse.concentricMap, lit]
  norm_num

theorem concentricMap_cases (M_PI r1 r2 : K) :
    (r1 = 0 ∧ r2 = 0 → MicrosurfaceDiffuse.concentricMap M_PI r1 r2 = (0, 0)) ∧
      (¬ (r1 = 0 ∧ r2 = 0) → r2 * r2 < r1 * r1 →
        r1 ≠ 0 ∧ MicrosurfaceDiffuse.concentricMap M_PI r1 r2 = (r1, M_PI / 4 * (r2 / r1))) ∧
      (¬ (r1 = 0 ∧ r2 = 0) → ¬ r2 * r2 < r1 * r1 →
        r2 ≠ 0 ∧
          MicrosurfaceDiffuse.concentricMap M_PI r1 r2
            = (r2, M_PI / 2 - r1 / r2 * (M_PI / 4))) := by
  refine ⟨?_, ?_, ?_⟩
  · intro h
    rw [concentricMap_eq, if_pos h]
  · intro h0 h
    refine ⟨?_, by rw [concentricMap_eq, if_neg h0, if_pos h]⟩
    rintro rfl
    nlinarith [mul_self_nonneg r2]
  · intro h0 h
    refine ⟨?_, by rw [concentricMap_eq, if_neg h0, if_neg h]⟩
    rintro rfl
    apply h0
    have : r1 * r1 ≤ 0 := by simpa using not_lt.mp h
    exact ⟨mul_self_eq_zero.mp (le_antisymm this (mul_self_nonneg r1)), rfl⟩

theorem concentricMap_radius (M_PI r1 r2 : K) (h1 : -1 ≤ r1 ∧ r1 ≤ 1) (h2 : -1 ≤ r2 ∧ r2 ≤ 1) :
    (MicrosurfaceDiffuse.concentricMap M_PI r1 r2).1
      * (MicrosurfaceDiffuse.concentricMap M_PI r1 r2).1 ≤ 1 := by
  rw [concentricMap_eq]
  split_ifs
  · simp
  · show r1 * r1 ≤ 1
    nlinarith
  · show r2 * r2 ≤ 1
    nlinarith

theorem diffuse_sample_eq (M_PI : ℝ) (acosf : ℝ → ℝ) (atan2 : ℝ → ℝ → ℝ)
    (sampleP22_11 : ℝ → ℝ → ℝ → Vector2f ℝ) (ms : Microsurface ℝ) (wi : Vector3f ℝ)
    (g : Rng ℝ) (wm : Vector3f ℝ) (r phi : ℝ)
    (hwm : wm = MicrosurfaceSlope.sampleD_wi Real.sqrt acosf Real.cos Real.sin atan2 sampleP22_11
      wi (g.draws g.pos) (g.draws (g.pos + 1)) ms.m_alphau ms.m_alphav)
    (hc : (r, phi) = MicrosurfaceDiffuse.concentricMap M_PI (2 * g.draws (g.pos + 2) - 1)
      (2 * g.draws (g.pos + 3) - 1))
    (hr : r * r ≤ 1) :
    MicrosurfaceDiffuse.samplePhaseFunction M_PI Real.sqrt acosf Real.cos Real.sin atan2
        sampleP22_11 ms wi g
      = (Vector3f.smul (r * Real.cos phi) (buildOrthonormalBasis wm).1
          + Vector3f.smul (r * Real.sin phi) (buildOrthonormalBasis wm).2
          + Vector3f.smul (Real.sqrt (1 - r * r)) wm, ⟨g.draws, g.pos + 4⟩) := by
  have hxy : r * Real.cos phi * (r * Real.cos phi) + r * Real.sin phi * (r * Real.sin phi)
      = r * r := by
    linear_combination (r * r) * Real.cos_sq_add_sin_sq phi
  have hz : max 0 (1 - r * Real.cos phi * (r * Real.cos phi)
      - r * Real.sin phi * (r * Real.sin phi)) = 1 - r * r := by
    rw [max_eq_right (by linarith)]
    linarith
  simp only [MicrosurfaceDiffuse.samplePhaseFunction, generateRandomNumber, stdmax_eq_max, lit,
    show ((2.0 : ℚ) : ℝ) = 2 by norm_num, show ((1.0 : ℚ) : ℝ) = 1 by norm_num,
    show ((0.0 : ℚ) : ℝ) = 0 by norm_num, ← hwm]
  rw [← hc]
  simp only [hz]

/-- C19. Diffuse `samplePhaseFunction` stays in the hemisphere of the sampled visible normal:
when the normal `wm` returned by `sampleD_wi` is unit and the draws `U3`, `U4` are in `[0, 1]`,
with `(r, phi)` the concentric map of `r1 = 2 * U3 - 1`, `r2 = 2 * U4 - 1` and `(w1, w2)` the basis
built on `wm`, the returned `wo` is `x * w1 + y * w2 + z * wm` for `x = r * cos phi`,
`y = r * sin phi`, `z = sqrt (1 - r ^ 2)`, where `x ^ 2 + y ^ 2 = r ^ 2 ≤ 1`; `Dot wo wm` is
`sqrt (1 - x ^ 2 - y ^ 2)`, which is `≥ 0`; `wo` has unit length; and each quotient of the
concentric map has a non-zero denominator (`r1` in the branch `r1 ^ 2 > r2 ^ 2`, `r2` in the
last branch). -/
theorem diffuse_samplePhaseFunction_hemisphere (M_PI : ℝ) (acosf : ℝ → ℝ) (atan2 : ℝ → ℝ → ℝ)
    (sampleP22_11 : ℝ → ℝ → ℝ → Vector2f ℝ) (ms : Microsurface ℝ) (wi : Vector3f ℝ)
    (g : Rng ℝ) (wm wo : Vector3f ℝ) (r1 r2 r phi : ℝ)
    (hwm : wm = MicrosurfaceSlope.sampleD_wi Real.sqrt acosf Real.cos Real.sin atan2 sampleP22_11
      wi (g.draws g.pos) (g.draws (g.pos + 1)) ms.m_alphau ms.m_alphav)
    (hunit : Dot wm wm = 1)
    (hU3 : 0 ≤ g.draws (g.pos + 2) ∧ g.draws (g.pos + 2) ≤ 1)
    (hU4 : 0 ≤ g.draws (g.pos + 3) ∧ g.draws (g.pos + 3) ≤ 1)
    (hr1 : r1 = 2 * g.draws (g.pos + 2) - 1) (hr2 : r2 = 2 * g.draws (g.pos + 3) - 1)
    (hc : (r, phi) = MicrosurfaceDiffuse.concentricMap M_PI r1 r2)
    (hwo : wo = (MicrosurfaceDiffuse.samplePhaseFunction M_PI Real.sqrt acosf Real.cos Real.sin
      atan2 sampleP22_11 ms wi g).1) :
    wo = Vector3f.smul (r * Real.cos phi) (buildOrthonormalBasis wm).1
          + Vector3f.smul (r * Real.sin phi) (buildOrthonormalBasis wm).2
          + Vector3f.smul (Real.sqrt (1 - r * r)) wm ∧
      (r * Real.cos phi) ^ 2 + (r * Real.sin phi) ^ 2 = r ^ 2 ∧ r ^ 2 ≤ 1 ∧
      Dot wo wm = Real.sqrt (1 - (r * Real.cos phi) ^ 2 - (r * Real.sin phi) ^ 2) ∧
      0 ≤ Dot wo wm ∧ Dot wo wo = 1 ∧
      (r1 = 0 ∧ r2 = 0 → (r, phi) = (0, 0)) ∧
      (¬ (r1 = 0 ∧ r2 = 0) → r2 * r2 < r1 * r1 →
        r1 ≠ 0 ∧ (r, phi) = (r1, M_PI / 4 * (r2 / r1))) ∧
      (¬ (r1 = 0 ∧ r2 = 0) → ¬ r2 * r2 < r1 * r1 →
        r2 ≠ 0 ∧ (r, phi) = (r2, M_PI / 2 - r1 / r2 * (M_PI / 4))) := by
  have hrad : r * r ≤ 1 := by
    have h := concentricMap_radius M_PI r1 r2 (by rw [hr1]; constructor <;> linarith [hU3.1, hU3.2])
      (by rw [hr2]; constructor <;> linarith [hU4.1, hU4.2])
    rw [← hc] at h
    exact h
  have hxy : (r * Real.cos phi) ^ 2 + (r * Real.sin phi) ^ 2 = r ^ 2 := by
    linear_combination (r ^ 2) * Real.cos_sq_add_sin_sq phi
  have hz := sampleD_wi_z_nonneg acosf Real.cos Real.sin atan2 sampleP22_11 wi (g.draws g.pos)
    (g.draws (g.pos + 1)) ms.m_alphau ms.m_alphav
  rw [← hwm] at hz
  have hz' : (-0.9999999 : ℝ) ≤ wm.z := by
    have : (-0.9999999 : ℝ) ≤ 0 := by norm_num
    linarith
  obtain ⟨h11, h22, h12, h13, h23⟩ := frisvad_orthonormal wm hunit hz'
  have hs := diffuse_sample_eq M_PI acosf atan2 sampleP22_11 ms wi g wm r phi hwm
    (by rw [hc, hr1, hr2]) hrad
  rw [hs] at hwo
  have hfr := frame_combination (buildOrthonormalBasis wm).1 (buildOrthonormalBasis wm).2 wm
    (r * Real.cos phi) (r * Real.sin phi) (Real.sqrt (1 - r * r)) h11 h22 hunit h12 h13 h23
  have hsq : Real.sqrt (1 - r * r) * Real.sqrt (1 - r * r) = 1 - r * r :=
    Real.mul_self_sqrt (by linarith)
  have harg : 1 - (r * Real.cos phi) ^ 2 - (r * Real.sin phi) ^ 2 = 1 - r * r := by
    linear_combination -hxy
  have hcases := concentricMap_cases M_PI r1 r2
  rw [← hc] at hcases
  refine ⟨hwo, hxy, by rw [pow_two]; exact hrad, ?_, ?_, ?_, hcases⟩
  · rw [hwo, harg]
    exact hfr.1
  · rw [hwo, hfr.1]
    exact Real.sqrt_nonneg _
  · rw [hwo, hfr.2, hsq]
    linear_combination hxy

/-! ## Normalisation of the densities -/

section Integrals

open MeasureTheory Filter Topology

theorem ggx_P22_eq (x y ax ay : ℝ) :
    MicrosurfaceSlopeGGX.P22 Real.pi x y ax ay
      = 1 / (Real.pi * ax * ay) / ((1 + x * x / (ax * ax) + y * y / (ay * ay))
          * (1 + x * x / (ax * ax) + y * y / (ay * ay))) := by
  simp only [MicrosurfaceSlopeGGX.P22, lit]
  norm_num

theorem beckmann_P22_eq (x y ax ay : ℝ) :
    MicrosurfaceSlopeBeckmann.P22 Real.pi Real.exp x y ax ay
      = 1 / (Real.pi * ax * ay)
        * (Real.exp (-(1 / (ax * ax)) * x ^ 2) * Real.exp (-(1 / (ay * ay)) * y ^ 2)) := by
  simp only [MicrosurfaceSlopeBeckmann.P22, lit]
  rw [← Real.exp_add]
  norm_num
  left
  ring

theorem uniform_P1_eq (h : ℝ) :
    MicrosurfaceHeightUniform.P1 h = if -1 ≤ h ∧ h ≤ 1 then 0.5 else 0 := by
  simp only [MicrosurfaceHeightUniform.P1, lit]
  norm_num

/-- C11. For the uniform height distribution `C1` is the cumulative distribution of `P1`:
`C1 h` is the integral of `P1` over `(-∞, h]` for every real `h`, the integral of `P1` over the
real line is `1`, and `P1` is `0.5` on `[-1, 1]` and `0` elsewhere. -/
theorem uniform_C1_is_cdf (h : ℝ) :
    MicrosurfaceHeightUniform.C1 h = (∫ x in Set.Iic h, MicrosurfaceHeightUniform.P1 x) ∧
      (∫ x : ℝ, MicrosurfaceHeightUniform.P1 x) = 1 ∧
      MicrosurfaceHeightUniform.P1 h = if -1 ≤ h ∧ h ≤ 1 then 0.5 else 0 := by
  have hind : (fun h : ℝ => MicrosurfaceHeightUniform.P1 h)
      = Set.indicator (Set.Icc (-1) 1) (fun _ => (1 / 2 : ℝ)) := by
    funext h
    rw [uniform_P1_eq, Set.indicator_apply]
    simp only [Set.mem_Icc]
    norm_num
  have hIic : ∫ x in Set.Iic h, MicrosurfaceHeightUniform.P1 x
      = min 1 (max 0 ((h + 1) / 2)) := by
    rw [hind, setIntegral_indicator measurableSet_Icc, setIntegral_const]
    have hset : Set.Iic h ∩ Set.Icc (-1 : ℝ) 1 = Set.Icc (-1) (min h 1) := by
      ext x
      simp only [Set.mem_inter_iff, Set.mem_Iic, Set.mem_Icc, le_min_iff]
      tauto
    rw [hset, Real.volume_Icc, ENNReal.toReal_ofReal', smul_eq_mul]
    rcases le_total h 1 with h1 | h1
    · rw [min_eq_left h1]
      rcases le_total h (-1) with h2 | h2
      · rw [max_eq_right (by linarith), max_eq_left (by linarith), min_eq_right (by norm_num)]
        ring
      · rw [max_eq_left (by linarith), max_eq_right (by linarith), min_eq_right (by linarith)]
        ring
    · rw [min_eq_right h1, max_eq_left (by norm_num), max_eq_right (by linarith),
        min_eq_left (by linarith)]
      norm_num
  have hall : ∫ x : ℝ, MicrosurfaceHeightUniform.P1 x = 1 := by
    rw [hind, integral_indicator measurableSet_Icc, setIntegral_const,
      Real.volume_Icc, ENNReal.toReal_ofReal', smul_eq_mul]
    norm_num
  exact ⟨by rw [uniform_C1_eq, hIic], hall, uniform_P1_eq h⟩

/-- C12. The slope densities are normalised: for `alpha_x > 0` and `alpha_y > 0` the integral of
`P22` over the slope plane is `1`, for the Beckmann distribution
(`exp (-x² / alpha_x² - y² / alpha_y²) / (π alpha_x alpha_y)`) and for the GGX distribution
(`1 / (π alpha_x alpha_y (1 + x² / alpha_x² + y² / alpha_y²)²)`), with `M_PI = π` and
`expf = exp`. -/
theorem slope_P22_normalised (ax ay : ℝ) (hax : 0 < ax) (hay : 0 < ay) :
    (∫ p : ℝ × ℝ, MicrosurfaceSlopeBeckmann.P22 Real.pi Real.exp p.1 p.2 ax ay) = 1 ∧
      (∫ p : ℝ × ℝ, MicrosurfaceSlopeGGX.P22 Real.pi p.1 p.2 ax ay) = 1 ∧
      (∀ x y : ℝ, MicrosurfaceSlopeBeckmann.P22 Real.pi Real.exp x y ax ay
        = Real.exp (-(x ^ 2 / ax ^ 2) - y ^ 2 / ay ^ 2) / (Real.pi * ax * ay)) ∧
      (∀ x y : ℝ, MicrosurfaceSlopeGGX.P22 Real.pi x y ax ay
        = 1 / (Real.pi * ax * ay * (1 + x ^ 2 / ax ^ 2 + y ^ 2 / ay ^ 2) ^ 2)) := by
  have hB : ∫ p : ℝ × ℝ, MicrosurfaceSlopeBeckmann.P22 Real.pi Real.exp p.1 p.2 ax ay = 1 := by
    simp only [beckmann_P22_eq]
    rw [integral_mul_left, Measure.volume_eq_prod,
      integral_prod_mul (fun x : ℝ => Real.exp (-(1 / (ax * ax)) * x ^ 2))
        (fun y : ℝ => Real.exp (-(1 / (ay * ay)) * y ^ 2)),
      integral_gaussian, integral_gaussian]
    have hpi := Real.pi_pos
    have e1 : Real.pi / (1 / (ax * ax)) = Real.pi * (ax * ax) := by field_simp
    have e2 : Real.pi / (1 / (ay * ay)) = Real.pi * (ay * ay) := by field_simp
    rw [e1, e2, Real.sqrt_mul hpi.le, Real.sqrt_mul hpi.le, Real.sqrt_mul_self hax.le,
      Real.sqrt_mul_self hay.le]
    have hs : Real.sqrt Real.pi * Real.sqrt Real.pi = Real.pi := Real.mul_self_sqrt hpi.le
    field_simp
    linear_combination (ax * ay) * hs
  have hG : Integrable (fun p : ℝ × ℝ => MicrosurfaceSlopeGGX.P22 Real.pi p.1 p.2 ax ay) ∧
      ∫ p : ℝ × ℝ, MicrosurfaceSlopeGGX.P22 Real.pi p.1 p.2 ax ay = 1 := by
    -- limits at infinity
    have hinvtop : Tendsto (fun r : ℝ => r⁻¹) atTop (𝓝 0) := tendsto_inv_atTop_zero
    have hnegbot : Tendsto (fun t : ℝ => -t) atBot atTop := tendsto_neg_atBot_atTop
    have hinvbot : Tendsto (fun t : ℝ => t⁻¹) atBot (𝓝 0) := by
      have h : Tendsto (fun t : ℝ => -(-t)⁻¹) atBot (𝓝 (-0)) := (hinvtop.comp hnegbot).neg
      simp only [neg_zero] at h
      refine h.congr' ?_
      filter_upwards with t
      simp only [inv_neg, neg_neg]
    have hdiv : ∀ l : Filter ℝ, Tendsto (fun t : ℝ => t⁻¹) l (𝓝 0) →
        Tendsto (fun t : ℝ => t / (1 + t ^ 2)) l (𝓝 0) := by
      intro l hl
      have h0 : Tendsto (fun t : ℝ => |t⁻¹|) l (𝓝 0) := by simpa using hl.abs
      refine squeeze_zero_norm (fun t => ?_) h0
      rw [Real.norm_eq_abs, abs_div, abs_inv, abs_of_pos (by positivity : (0 : ℝ) < 1 + t ^ 2)]
      rcases eq_or_ne t 0 with h | h
      · simp [h]
      · have : 0 < |t| := abs_pos.mpr h
        rw [div_le_iff₀ (by positivity), inv_mul_eq_div, le_div_iff₀ this]
        nlinarith [sq_abs t]
    -- the kernel `1 / (1 + t²)²` is integrable, with integral `π / 2`
    have hK2i : Integrable fun t : ℝ => ((1 + t ^ 2) ^ 2)⁻¹ := by
      refine integrable_inv_one_add_sq.mono' ?_ ?_
      · exact (Continuous.inv₀ (by fun_prop) (fun t => by positivity)).aestronglyMeasurable
      · filter_upwards with t
        have h1 : (1 : ℝ) ≤ 1 + t ^ 2 := by nlinarith [sq_nonneg t]
        rw [Real.norm_of_nonneg (by positivity)]
        apply inv_anti₀ (by positivity)
        nlinarith
    have hK2d : ∀ t : ℝ, HasDerivAt (fun t : ℝ => (t / (1 + t ^ 2) + Real.arctan t) / 2)
        (((1 + t ^ 2) ^ 2)⁻¹) t := by
      intro t
      have hne : (1 + t ^ 2) ≠ 0 := by positivity
      have h1 : HasDerivAt (fun t : ℝ => 1 + t ^ 2) (2 * t) t := by
        simpa using ((hasDerivAt_id t).pow 2).const_add 1
      have h2 := (((hasDerivAt_id t).div h1 hne).add (Real.hasDerivAt_arctan t)).div_const 2
      convert h2 using 1
      simp only [id]
      field_simp
      ring
    have hK2 : ∫ t : ℝ, ((1 + t ^ 2) ^ 2)⁻¹ = Real.pi / 2 := by
      have hbot : Tendsto (fun t : ℝ => (t / (1 + t ^ 2) + Real.arctan t) / 2) atBot
          (𝓝 ((0 + -(Real.pi / 2)) / 2)) :=
        ((hdiv _ hinvbot).add
          (tendsto_nhds_of_tendsto_nhdsWithin Real.tendsto_arctan_atBot)).div_const 2
      have htop : Tendsto (fun t : ℝ => (t / (1 + t ^ 2) + Real.arctan t) / 2) atTop
          (𝓝 ((0 + Real.pi / 2) / 2)) :=
        ((hdiv _ hinvtop).add
          (tendsto_nhds_of_tendsto_nhdsWithin Real.tendsto_arctan_atTop)).div_const 2
      rw [integral_of_hasDerivAt_of_tendsto hK2d hK2i hbot htop]
      ring
    -- the kernel `(1 + t²) ^ (-3/2)` is integrable, with integral `2`
    have hK3i : Integrable fun t : ℝ => ((1 + t ^ 2) * Real.sqrt (1 + t ^ 2))⁻¹ := by
      refine integrable_inv_one_add_sq.mono' ?_ ?_
      · exact (Continuous.inv₀ (by fun_prop)
          (fun t => by positivity)).aestronglyMeasurable
      · filter_upwards with t
        have h1 : (1 : ℝ) ≤ 1 + t ^ 2 := by nlinarith [sq_nonneg t]
        have h2 : (1 : ℝ) ≤ Real.sqrt (1 + t ^ 2) := by
          rw [Real.one_le_sqrt]; exact h1
        rw [Real.norm_of_nonneg (by positivity)]
        apply inv_anti₀ (by positivity)
        nlinarith
    have hK3d : ∀ t : ℝ, HasDerivAt (fun t : ℝ => t / Real.sqrt (1 + t ^ 2))
        (((1 + t ^ 2) * Real.sqrt (1 + t ^ 2))⁻¹) t := by
      intro t
      have hpos : (0 : ℝ) < 1 + t ^ 2 := by positivity
      have hs : 0 < Real.sqrt (1 + t ^ 2) := Real.sqrt_pos.mpr hpos
      have h1 : HasDerivAt (fun t : ℝ => 1 + t ^ 2) (2 * t) t := by
        simpa using ((hasDerivAt_id t).pow 2).const_add 1
      have h2 := (hasDerivAt_id t).div (h1.sqrt hpos.ne') hs.ne'
      convert h2 using 1
      simp only [id]
      have hss : Real.sqrt (1 + t ^ 2) * Real.sqrt (1 + t ^ 2) = 1 + t ^ 2 :=
        Real.mul_self_sqrt hpos.le
      field_simp
      linear_combination (-2 * Real.sqrt (1 + t ^ 2) * (1 + t ^ 2)) * hss
    have hK3top : Tendsto (fun t : ℝ => t / Real.sqrt (1 + t ^ 2)) atTop (𝓝 1) := by
      have h1 : Tendsto (fun t : ℝ => (Real.sqrt (1 + (t⁻¹) ^ 2))⁻¹) atTop
          (𝓝 ((Real.sqrt (1 + (0 : ℝ) ^ 2))⁻¹)) := by
        refine Tendsto.inv₀ ?_ (by simp)
        exact (Real.continuous_sqrt.tendsto _).comp ((hinvtop.pow 2).const_add 1)
      have h2 : (Real.sqrt (1 + (0 : ℝ) ^ 2))⁻¹ = 1 := by simp
      rw [h2] at h1
      refine h1.congr' ?_
      filter_upwards [eventually_gt_atTop 0] with t ht
      have h : 1 + t ^ 2 = t ^ 2 * (1 + (t⁻¹) ^ 2) := by field_simp; ring
      rw [h, Real.sqrt_mul (by positivity), Real.sqrt_sq ht.le, ← div_div, div_self ht.ne',
        one_div]
    have hK3bot : Tendsto (fun t : ℝ => t / Real.sqrt (1 + t ^ 2)) atBot (𝓝 (-1)) := by
      have h : Tendsto (fun t : ℝ => -(-t / Real.sqrt (1 + (-t) ^ 2))) atBot (𝓝 (-1)) :=
        (hK3top.comp hnegbot).neg
      refine h.congr' ?_
      filter_upwards with t
      rw [neg_sq, neg_div, neg_neg]
    have hK3 : ∫ t : ℝ, ((1 + t ^ 2) * Real.sqrt (1 + t ^ 2))⁻¹ = 2 := by
      rw [integral_of_hasDerivAt_of_tendsto hK3d hK3i hK3bot hK3top]
      norm_num
    -- the density as a rescaled kernel in `y`
    have hscale : ∀ p s c y : ℝ, 0 < p → 0 < s → s * s = c →
        1 / p / ((c + y * y / (ay * ay)) * (c + y * y / (ay * ay)))
          = 1 / (p * c ^ 2) * ((1 + (y / (ay * s)) ^ 2) ^ 2)⁻¹ := by
      intro p s c y hp hs hc
      subst hc
      have e : 1 + (y / (ay * s)) ^ 2 = (s * s + y * y / (ay * ay)) / (s * s) := by
        field_simp
        ring
      have ht : 0 < s * s + y * y / (ay * ay) := by
        have h1 : 0 ≤ y * y / (ay * ay) := div_nonneg (mul_self_nonneg y) (by positivity)
        have h2 : 0 < s * s := by positivity
        linarith
      rw [e]
      generalize s * s + y * y / (ay * ay) = T at ht
      field_simp
      ring
    have hvalue : ∀ p s c : ℝ, 0 < p → 0 < s → s * s = c →
        1 / (p * ax * ay * c ^ 2) * (ay * s * (p / 2)) = 1 / (2 * ax) * (c * s)⁻¹ := by
      intro p s c hp hs hc
      subst hc
      field_simp
      ring
    have hscaled : ∀ x y : ℝ, MicrosurfaceSlopeGGX.P22 Real.pi x y ax ay
        = 1 / (Real.pi * ax * ay * (1 + (x / ax) ^ 2) ^ 2)
          * ((1 + (y / (ay * Real.sqrt (1 + (x / ax) ^ 2))) ^ 2) ^ 2)⁻¹ := by
      intro x y
      have hc : 0 < 1 + (x / ax) ^ 2 := by positivity
      have hs : Real.sqrt (1 + (x / ax) ^ 2) * Real.sqrt (1 + (x / ax) ^ 2) = 1 + (x / ax) ^ 2 :=
        Real.mul_self_sqrt hc.le
      have hsp : 0 < Real.sqrt (1 + (x / ax) ^ 2) := Real.sqrt_pos.mpr hc
      have hx : 1 + x * x / (ax * ax) = 1 + (x / ax) ^ 2 := by
        field_simp
        ring
      have hpi := Real.pi_pos
      rw [ggx_P22_eq, hx]
      exact hscale (Real.pi * ax * ay) _ _ y (by positivity) hsp hs
    -- the integral over `y`, then over `x`
    have hinner : ∀ x : ℝ,
        Integrable (fun y : ℝ => MicrosurfaceSlopeGGX.P22 Real.pi x y ax ay) ∧
        ∫ y : ℝ, MicrosurfaceSlopeGGX.P22 Real.pi x y ax ay
          = 1 / (2 * ax) * ((1 + (x / ax) ^ 2) * Real.sqrt (1 + (x / ax) ^ 2))⁻¹ := by
      intro x
      have hc : 0 < 1 + (x / ax) ^ 2 := by positivity
      have hsp : 0 < Real.sqrt (1 + (x / ax) ^ 2) := Real.sqrt_pos.mpr hc
      have hk : 0 < ay * Real.sqrt (1 + (x / ax) ^ 2) := by positivity
      have hfun : (fun y : ℝ => MicrosurfaceSlopeGGX.P22 Real.pi x y ax ay)
          = fun y : ℝ => 1 / (Real.pi * ax * ay * (1 + (x / ax) ^ 2) ^ 2)
            * (fun t : ℝ => ((1 + t ^ 2) ^ 2)⁻¹) (y / (ay * Real.sqrt (1 + (x / ax) ^ 2))) := by
        funext y
        exact hscaled x y
      rw [hfun]
      constructor
      · exact (hK2i.comp_div hk.ne').const_mul _
      · rw [integral_mul_left, Measure.integral_comp_div (fun t : ℝ => ((1 + t ^ 2) ^ 2)⁻¹),
          hK2, abs_of_pos hk, smul_eq_mul]
        exact hvalue Real.pi _ _ Real.pi_pos hsp (Real.mul_self_sqrt hc.le)
    have houter : Integrable (fun x : ℝ =>
          1 / (2 * ax) * ((1 + (x / ax) ^ 2) * Real.sqrt (1 + (x / ax) ^ 2))⁻¹) ∧
        ∫ x : ℝ, 1 / (2 * ax) * ((1 + (x / ax) ^ 2) * Real.sqrt (1 + (x / ax) ^ 2))⁻¹ = 1 := by
      constructor
      · exact (hK3i.comp_div hax.ne').const_mul _
      · rw [integral_mul_left,
          Measure.integral_comp_div (fun t : ℝ => ((1 + t ^ 2) * Real.sqrt (1 + t ^ 2))⁻¹),
          hK3, abs_of_pos hax, smul_eq_mul]
        field_simp
        ring
    have hcont : Continuous (fun p : ℝ × ℝ => MicrosurfaceSlopeGGX.P22 Real.pi p.1 p.2 ax ay) := by
      simp only [ggx_P22_eq]
      refine Continuous.div continuous_const (by fun_prop) (fun p => ?_)
      have h1 : 0 ≤ p.1 * p.1 / (ax * ax) := div_nonneg (mul_self_nonneg _) (by positivity)
      have h2 : 0 ≤ p.2 * p.2 / (ay * ay) := div_nonneg (mul_self_nonneg _) (by positivity)
      have h3 : 0 < 1 + p.1 * p.1 / (ax * ax) + p.2 * p.2 / (ay * ay) := by linarith
      positivity
    have hnonneg : ∀ x y : ℝ, 0 ≤ MicrosurfaceSlopeGGX.P22 Real.pi x y ax ay := by
      intro x y
      rw [ggx_P22_eq]
      have hpi := Real.pi_pos
      exact div_nonneg (by positivity) (mul_self_nonneg _)
    have hint : Integrable (fun p : ℝ × ℝ => MicrosurfaceSlopeGGX.P22 Real.pi p.1 p.2 ax ay)
        (volume.prod volume) := by
      rw [integrable_prod_iff hcont.aestronglyMeasurable]
      refine ⟨Eventually.of_forall fun x => (hinner x).1, ?_⟩
      have e : (fun x : ℝ => ∫ y : ℝ, ‖MicrosurfaceSlopeGGX.P22 Real.pi (x, y).1 (x, y).2 ax ay‖)
          = fun x : ℝ =>
            1 / (2 * ax) * ((1 + (x / ax) ^ 2) * Real.sqrt (1 + (x / ax) ^ 2))⁻¹ := by
        funext x
        simp only [Real.norm_of_nonneg (hnonneg _ _)]
        exact (hinner x).2
      rw [e]
      exact houter.1
    refine ⟨hint, ?_⟩
    rw [Measure.volume_eq_prod, integral_prod _ hint]
    simp only [(hinner _).2]
    exact houter.2
  refine ⟨hB, hG.2, ?_, ?_⟩
  · intro x y
    rw [beckmann_P22_eq, ← Real.exp_add, one_div, inv_mul_eq_div]
    congr 2
    ring
  · intro x y
    rw [ggx_P22_eq, div_div]
    congr 2
    ring

theorem slope_P22_normalised_witness :
    (∫ p : ℝ × ℝ, MicrosurfaceSlopeBeckmann.P22 Real.pi Real.exp p.1 p.2 1 1) = 1 ∧
      (∫ p : ℝ × ℝ, MicrosurfaceSlopeGGX.P22 Real.pi p.1 p.2 1 (1 / 2)) = 1 :=
  ⟨(slope_P22_normalised 1 1 (by norm_num) (by norm_num)).1,
    (slope_P22_normalised 1 (1 / 2) (by norm_num) (by norm_num)).2.1⟩

end Integrals

theorem D_wi_cases_witness :
    (MicrosurfaceSlopeGGX Real.pi Real.sqrt Real.arccos Real.tan Real.sin).D_wi
        (⟨0, 0, 1⟩ : Vector3f ℝ) ⟨0, 0, -1⟩ 1 1 = 0 ∧
      (MicrosurfaceSlopeGGX Real.pi Real.sqrt Real.arccos Real.tan Real.sin).D_wi
        (⟨0, 0, -1⟩ : Vector3f ℝ) ⟨0, 0, 1⟩ 1 1 = 0 ∧
      (MicrosurfaceSlopeGGX Real.pi Real.sqrt Real.arccos Real.tan Real.sin).D_wi
          (⟨0, 0, 1⟩ : Vector3f ℝ) ⟨0, 0, 1⟩ 1 1
        = max 0 (Dot (⟨0, 0, 1⟩ : Vector3f ℝ) ⟨0, 0, 1⟩)
          * (MicrosurfaceSlopeGGX Real.pi Real.sqrt Real.arccos Real.tan Real.sin).D
              ⟨0, 0, 1⟩ 1 1
          / (MicrosurfaceSlopeGGX Real.pi Real.sqrt Real.arccos Real.tan Real.sin).projectedArea
              ⟨0, 0, 1⟩ 1 1 ∧
      (MicrosurfaceSlopeGGX Real.pi Real.sqrt Real.arccos Real.tan Real.sin).D
          (⟨0, 0, 1⟩ : Vector3f ℝ) 1 1
        = (MicrosurfaceSlopeGGX Real.pi Real.sqrt Real.arccos Real.tan Real.sin).P22
            (-0 / 1) (-0 / 1) 1 1 / 1 ^ 4 :=
  ⟨(D_wi_cases _ (⟨0, 0, 1⟩ : Vector3f ℝ) ⟨0, 0, -1⟩ 1 1).1 (by norm_num),
    (D_wi_cases _ (⟨0, 0, -1⟩ : Vector3f ℝ) ⟨0, 0, 1⟩ 1 1).2.1
      (by norm_num [MicrosurfaceSlopeGGX, MicrosurfaceSlopeGGX.projectedArea, lit]),
    (D_wi_cases _ (⟨0, 0, 1⟩ : Vector3f ℝ) ⟨0, 0, 1⟩ 1 1).2.2.1 (by norm_num)
      (by norm_num [MicrosurfaceSlopeGGX, MicrosurfaceSlopeGGX.projectedArea, lit]),
    (D_wi_cases (MicrosurfaceSlopeGGX Real.pi Real.sqrt Real.arccos Real.tan Real.sin)
      (⟨0, 0, 1⟩ : Vector3f ℝ) ⟨0, 0, 1⟩ 1 1).2.2.2.1 (by norm_num)⟩

theorem slope_degenerate_guards_witness :
    (MicrosurfaceSlopeBeckmann.Lambda Real.exp Real.exp Real.sqrt Real.arccos Real.tan
          (⟨0, 0, 1⟩ : Vector3f ℝ) 1 1 = 0 ∧
        MicrosurfaceSlopeBeckmann.projectedArea Real.exp Real.exp Real.sqrt Real.arccos Real.tan
          Real.sin (⟨0, 0, 1⟩ : Vector3f ℝ) 1 1 = 1 ∧
        MicrosurfaceSlopeGGX.Lambda Real.sqrt Real.arccos Real.tan
          (⟨0, 0, 1⟩ : Vector3f ℝ) 1 1 = 0 ∧
        MicrosurfaceSlopeGGX.projectedArea Real.sqrt Real.arccos Real.sin
          (⟨0, 0, 1⟩ : Vector3f ℝ) 1 1 = 1) ∧
      (MicrosurfaceSlopeBeckmann.Lambda Real.exp Real.exp Real.sqrt Real.arccos Real.tan
          (⟨0, 0, -1⟩ : Vector3f ℝ) 1 1 = -1 ∧
        MicrosurfaceSlopeBeckmann.projectedArea Real.exp Real.exp Real.sqrt Real.arccos Real.tan
          Real.sin (⟨0, 0, -1⟩ : Vector3f ℝ) 1 1 = 0 ∧
        MicrosurfaceSlopeGGX.Lambda Real.sqrt Real.arccos Real.tan
          (⟨0, 0, -1⟩ : Vector3f ℝ) 1 1 = -1 ∧
        MicrosurfaceSlopeGGX.projectedArea Real.sqrt Real.arccos Real.sin
          (⟨0, 0, -1⟩ : Vector3f ℝ) 1 1 = 0) :=
  ⟨(slope_degenerate_guards Real.exp Real.exp Real.sqrt Real.arccos Real.tan Real.sin
      (⟨0, 0, 1⟩ : Vector3f ℝ) 1 1).1 (by norm_num),
    (slope_degenerate_guards Real.exp Real.exp Real.sqrt Real.arccos Real.tan Real.sin
      (⟨0, 0, -1⟩ : Vector3f ℝ) 1 1).2 (by norm_num)⟩

theorem Fresnel_cases_witness :
    MicrosurfaceDielectric.Fresnel Real.sqrt (⟨3 / 5, 0, 4 / 5⟩ : Vector3f ℝ) ⟨0, 0, 1⟩ (1 / 2)
        = 1 ∧
      MicrosurfaceDielectric.Fresnel Real.sqrt (⟨0, 0, 1⟩ : Vector3f ℝ) ⟨0, 0, 1⟩ 1.5
        = 0.5 * (((Dot (⟨0, 0, 1⟩ : Vector3f ℝ) ⟨0, 0, 1⟩
                - 1.5 * Real.sqrt (1 - (1 - Dot (⟨0, 0, 1⟩ : Vector3f ℝ) ⟨0, 0, 1⟩
                    * Dot (⟨0, 0, 1⟩ : Vector3f ℝ) ⟨0, 0, 1⟩) / (1.5 * 1.5))) /
              (Dot (⟨0, 0, 1⟩ : Vector3f ℝ) ⟨0, 0, 1⟩
                + 1.5 * Real.sqrt (1 - (1 - Dot (⟨0, 0, 1⟩ : Vector3f ℝ) ⟨0, 0, 1⟩
                    * Dot (⟨0, 0, 1⟩ : Vector3f ℝ) ⟨0, 0, 1⟩) / (1.5 * 1.5)))) ^ 2 +
          ((1.5 * Dot (⟨0, 0, 1⟩ : Vector3f ℝ) ⟨0, 0, 1⟩
                - Real.sqrt (1 - (1 - Dot (⟨0, 0, 1⟩ : Vector3f ℝ) ⟨0, 0, 1⟩
                    * Dot (⟨0, 0, 1⟩ : Vector3f ℝ) ⟨0, 0, 1⟩) / (1.5 * 1.5))) /
              (1.5 * Dot (⟨0, 0, 1⟩ : Vector3f ℝ) ⟨0, 0, 1⟩
                + Real.sqrt (1 - (1 - Dot (⟨0, 0, 1⟩ : Vector3f ℝ) ⟨0, 0, 1⟩
                    * Dot (⟨0, 0, 1⟩ : Vector3f ℝ) ⟨0, 0, 1⟩) / (1.5 * 1.5)))) ^ 2) :=
  ⟨(Fresnel_cases Real.sqrt (⟨3 / 5, 0, 4 / 5⟩ : Vector3f ℝ) ⟨0, 0, 1⟩ (1 / 2)).1
      (by norm_num [Dot]),
    (Fresnel_cases Real.sqrt (⟨0, 0, 1⟩ : Vector3f ℝ) ⟨0, 0, 1⟩ 1.5).2 (by norm_num [Dot])⟩

theorem refract_snell_witness :
    Dot (MicrosurfaceDielectric.refract Real.sqrt (⟨3 / 5, 0, 4 / 5⟩ : Vector3f ℝ) ⟨0, 0, 1⟩
          (3 / 2))
        (MicrosurfaceDielectric.refract Real.sqrt (⟨3 / 5, 0, 4 / 5⟩ : Vector3f ℝ) ⟨0, 0, 1⟩
          (3 / 2)) = 1 ∧
      Dot (MicrosurfaceDielectric.refract Real.sqrt (⟨3 / 5, 0, 4 / 5⟩ : Vector3f ℝ) ⟨0, 0, 1⟩
          (3 / 2)) ⟨0, 0, 1⟩
        = -Real.sqrt (1 - (1 - Dot (⟨3 / 5, 0, 4 / 5⟩ : Vector3f ℝ) ⟨0, 0, 1⟩ ^ 2)
            / (3 / 2) ^ 2) :=
  ⟨(refract_snell (⟨3 / 5, 0, 4 / 5⟩ : Vector3f ℝ) ⟨0, 0, 1⟩ (3 / 2) (by norm_num [Dot])
      (by norm_num [Dot]) (by norm_num) (by norm_num [Dot])).1,
    (refract_snell (⟨3 / 5, 0, 4 / 5⟩ : Vector3f ℝ) ⟨0, 0, 1⟩ (3 / 2) (by norm_num [Dot])
      (by norm_num [Dot]) (by norm_num) (by norm_num [Dot])).2.1⟩

theorem IsFiniteNumber_zero : IsFiniteNumber (0 : ℝ) = true := by
  simp only [IsFiniteNumber, FLT_MAX, lit]
  norm_num

theorem sampleD_wi_flat (acosf cosf sinf : ℝ → ℝ) (atan2 : ℝ → ℝ → ℝ) (wi : Vector3f ℝ)
    (U1 U2 : ℝ) :
    MicrosurfaceSlope.sampleD_wi Real.sqrt acosf cosf sinf atan2 (fun _ _ _ => ⟨0, 0⟩) wi U1 U2
      1 1 = ⟨0, 0, 1⟩ := by
  simp only [MicrosurfaceSlope.sampleD_wi, mul_zero, sub_zero, add_zero, zero_mul,
    IsFiniteNumber_zero, bne_self_eq_false, Bool.not_true, Bool.or_self, Bool.false_eq_true,
    if_false, Normalize, lit]
  norm_num

theorem fresnel_normal_incidence :
    MicrosurfaceDielectric.Fresnel Real.sqrt (⟨0, 0, 1⟩ : Vector3f ℝ) ⟨0, 0, 1⟩ 1.5 = 0.04 := by
  simp only [MicrosurfaceDielectric.Fresnel, Dot, lit]
  norm_num

theorem dielectric_samplePhaseFunction_cases_witness :
    MicrosurfaceDielectric.samplePhaseFunction Real.sqrt Real.arccos Real.cos Real.sin
        (fun y x => Complex.arg ⟨x, y⟩) (fun _ _ _ => ⟨0, 0⟩) 1.5
        ⟨MicrosurfaceHeightUniform,
          MicrosurfaceSlopeGGX Real.pi Real.sqrt Real.arccos Real.tan Real.sin, 1, 1⟩
        (⟨0, 0, 1⟩ : Vector3f ℝ) true false ⟨fun _ => 0, 0⟩
      = (-(⟨0, 0, 1⟩ : Vector3f ℝ)
          + (Vector3f.smul (lit 2.0) ⟨0, 0, 1⟩).mul (Dot (⟨0, 0, 1⟩ : Vector3f ℝ) ⟨0, 0, 1⟩),
        false, ⟨fun _ => 0, 3⟩) ∧
    MicrosurfaceDielectric.samplePhaseFunction Real.sqrt Real.arccos Real.cos Real.sin
        (fun y x => Complex.arg ⟨x, y⟩) (fun _ _ _ => ⟨0, 0⟩) 1.5
        ⟨MicrosurfaceHeightUniform,
          MicrosurfaceSlopeGGX Real.pi Real.sqrt Real.arccos Real.tan Real.sin, 1, 1⟩
        (⟨0, 0, 1⟩ : Vector3f ℝ) true true halfRng
      = (Normalize Real.sqrt
          (MicrosurfaceDielectric.refract Real.sqrt (⟨0, 0, 1⟩ : Vector3f ℝ) ⟨0, 0, 1⟩ 1.5),
        false, ⟨fun _ => lit 0.5, 3⟩) :=
  ⟨(dielectric_samplePhaseFunction_cases Real.sqrt Real.arccos Real.cos Real.sin
      (fun y x => Complex.arg ⟨x, y⟩) (fun _ _ _ => ⟨0, 0⟩) 1.5
      ⟨MicrosurfaceHeightUniform,
        MicrosurfaceSlopeGGX Real.pi Real.sqrt Real.arccos Real.tan Real.sin, 1, 1⟩
      (⟨0, 0, 1⟩ : Vector3f ℝ) true false ⟨fun _ => 0, 0⟩ 1.5 ⟨0, 0, 1⟩
      (by norm_num [lit]) (by rw [if_pos rfl, sampleD_wi_flat])).1
      (by rw [fresnel_normal_incidence]; norm_num),
    (dielectric_samplePhaseFunction_cases Real.sqrt Real.arccos Real.cos Real.sin
      (fun y x => Complex.arg ⟨x, y⟩) (fun _ _ _ => ⟨0, 0⟩) 1.5
      ⟨MicrosurfaceHeightUniform,
        MicrosurfaceSlopeGGX Real.pi Real.sqrt Real.arccos Real.tan Real.sin, 1, 1⟩
      (⟨0, 0, 1⟩ : Vector3f ℝ) true true halfRng 1.5 ⟨0, 0, 1⟩
      (by norm_num [lit]) (by rw [if_pos rfl, sampleD_wi_flat])).2
      (by rw [fresnel_normal_incidence]; norm_num [halfRng, lit])⟩

theorem diffuse_samplePhaseFunction_hemisphere_witness :
    Dot (MicrosurfaceDiffuse.samplePhaseFunction Real.pi Real.sqrt Real.arccos Real.cos Real.sin
          (fun y x => Complex.arg ⟨x, y⟩) (fun _ _ _ => ⟨0, 0⟩)
          ⟨MicrosurfaceHeightUniform,
            MicrosurfaceSlopeGGX Real.pi Real.sqrt Real.arccos Real.tan Real.sin, 1, 1⟩
          (⟨0, 0, 1⟩ : Vector3f ℝ) halfRng).1
        (MicrosurfaceDiffuse.samplePhaseFunction Real.pi Real.sqrt Real.arccos Real.cos Real.sin
          (fun y x => Complex.arg ⟨x, y⟩) (fun _ _ _ => ⟨0, 0⟩)
          ⟨MicrosurfaceHeightUniform,
            MicrosurfaceSlopeGGX Real.pi Real.sqrt Real.arccos Real.tan Real.sin, 1, 1⟩
          (⟨0, 0, 1⟩ : Vector3f ℝ) halfRng).1 = 1 ∧
      0 ≤ Dot (MicrosurfaceDiffuse.samplePhaseFunction Real.pi Real.sqrt Real.arccos Real.cos
          Real.sin (fun y x => Complex.arg ⟨x, y⟩) (fun _ _ _ => ⟨0, 0⟩)
          ⟨MicrosurfaceHeightUniform,
            MicrosurfaceSlopeGGX Real.pi Real.sqrt Real.arccos Real.tan Real.sin, 1, 1⟩
          (⟨0, 0, 1⟩ : Vector3f ℝ) halfRng).1 ⟨0, 0, 1⟩ :=
  have h := diffuse_samplePhaseFunction_hemisphere Real.pi Real.arccos
    (fun y x => Complex.arg ⟨x, y⟩) (fun _ _ _ => ⟨0, 0⟩)
    ⟨MicrosurfaceHeightUniform,
      MicrosurfaceSlopeGGX Real.pi Real.sqrt Real.arccos Real.tan Real.sin, 1, 1⟩
    (⟨0, 0, 1⟩ : Vector3f ℝ) halfRng ⟨0, 0, 1⟩ _ 0 0 0 0
    (by rw [sampleD_wi_flat]) (by norm_num [Dot])
    (by norm_num [halfRng, lit]) (by norm_num [halfRng, lit])
    (by norm_num [halfRng, lit]) (by norm_num [halfRng, lit])
    (by rw [concentricMap_eq, if_pos ⟨rfl, rfl⟩]) rfl
  ⟨h.2.2.2.2.2.1, h.2.2.2.2.1⟩

/-! ## Smith functions, height sampling and the slope samplers -/

theorem alpha_i_pos_of_ne (wi : Vector3f ℝ) (au av : ℝ) (hxy : wi.x ≠ 0 ∨ wi.y ≠ 0)
    (hz : wi.z * wi.z < 1) (hu : 0 < au) (hv : 0 < av) : 0 < alpha_i Real.sqrt wi au av := by
  simp only [alpha_i, lit]
  push_cast
  apply Real.sqrt_pos.mpr
  have hd : 0 < 1 - wi.z * wi.z := by linarith
  have hinv : 0 < 1.0 / (1 - wi.z * wi.z) := by positivity
  have hx : 0 ≤ wi.x * wi.x := mul_self_nonneg _
  have hy : 0 ≤ wi.y * wi.y := mul_self_nonneg _
  rcases hxy with h | h
  · have hx' : 0 < wi.x * wi.x := mul_self_pos.mpr h
    have : 0 < wi.x * wi.x * (1.0 / (1 - wi.z * wi.z)) * au * au := by positivity
    have : 0 ≤ wi.y * wi.y * (1.0 / (1 - wi.z * wi.z)) * av * av := by positivity
    linarith
  · have hy' : 0 < wi.y * wi.y := mul_self_pos.mpr h
    have : 0 ≤ wi.x * wi.x * (1.0 / (1 - wi.z * wi.z)) * au * au := by positivity
    have : 0 < wi.y * wi.y * (1.0 / (1 - wi.z * wi.z)) * av * av := by positivity
    linarith

theorem sin_arccos_neg (z : ℝ) : Real.sin (Real.arccos (-z)) = Real.sin (Real.arccos z) := by
  rw [Real.arccos_neg, Real.sin_pi_sub]

theorem ggx_projectedArea_neg (wi : Vector3f ℝ) (au av : ℝ) (h0 : -0.9999 ≤ wi.z)
    (h1 : wi.z ≤ 0.9999) :
    MicrosurfaceSlopeGGX.projectedArea Real.sqrt Real.arccos Real.sin (-wi) au av
      = MicrosurfaceSlopeGGX.projectedArea Real.sqrt Real.arccos Real.sin wi au av - wi.z := by
  have hnz : (-wi).z = -wi.z := rfl
  simp only [MicrosurfaceSlopeGGX.projectedArea, lit, alpha_i_neg, hnz, sin_arccos_neg]
  push_cast
  rw [if_neg (by norm_num; linarith), if_neg (by norm_num; linarith),
    if_neg (by norm_num; linarith), if_neg (by norm_num; linarith), neg_mul_neg]
  ring

theorem beckmann_projectedArea_neg (wi : Vector3f ℝ) (au av : ℝ) (h0 : 0 < wi.z)
    (h1 : wi.z ≤ 0.9999) (hα : 0 < alpha_i Real.sqrt wi au av) :
    MicrosurfaceSlopeBeckmann.projectedArea Real.exp Real.exp Real.sqrt Real.arccos Real.tan
        Real.sin (-wi) au av
      = MicrosurfaceSlopeBeckmann.projectedArea Real.exp Real.exp Real.sqrt Real.arccos Real.tan
        Real.sin wi au av - wi.z := by
  have hz1 : wi.z < 1 := by
    have : (0.9999 : ℝ) < 1 := by norm_num
    linarith
  have hT := tan_arccos_pos wi.z h0 hz1
  have hnz : (-wi).z = -wi.z := rfl
  have ha : 0 < 1 / Real.tan (Real.arccos wi.z) / alpha_i Real.sqrt wi au av := by positivity
  have hneg : 1 / -Real.tan (Real.arccos wi.z) / alpha_i Real.sqrt wi au av
      = -(1 / Real.tan (Real.arccos wi.z) / alpha_i Real.sqrt wi au av) := by
    field_simp
  simp only [MicrosurfaceSlopeBeckmann.projectedArea, lit, alpha_i_neg, hnz, sin_arccos_neg,
    tan_arccos_neg]
  push_cast
  simp only [show (1.0 : ℝ) = 1 by norm_num]
  rw [if_neg (by norm_num; linarith), if_neg (by norm_num; linarith),
    if_neg (by norm_num; linarith), if_neg (by norm_num; linarith), hneg, serf_neg _ ha,
    neg_neg, mul_neg, ← neg_mul]
  ring_nf

/-- The Smith projected-area identity in exact arithmetic, with the real `arccos` and `tan` for
`acosf` and `tanf`, for both slope distributions: for every `wi` with
`0 < |wi.z| ≤ 0.9999` and `wi.x`, `wi.y` not both zero, and `alpha_u, alpha_v > 0`,
`projectedArea wi = wi.z * (1 + Lambda wi)` and `Lambda (-wi) = -1 - Lambda wi`. -/
theorem smith_projected_area (wi : Vector3f ℝ) (alpha_u alpha_v : ℝ)
    (hz0 : 0 < |wi.z|) (hz1 : |wi.z| ≤ 0.9999) (hxy : wi.x ≠ 0 ∨ wi.y ≠ 0)
    (hu : 0 < alpha_u) (hv : 0 < alpha_v) :
    (MicrosurfaceSlopeBeckmann.projectedArea Real.exp Real.exp Real.sqrt Real.arccos Real.tan
          Real.sin wi alpha_u alpha_v
        = wi.z * (1 + MicrosurfaceSlopeBeckmann.Lambda Real.exp Real.exp Real.sqrt Real.arccos
            Real.tan wi alpha_u alpha_v) ∧
      MicrosurfaceSlopeBeckmann.Lambda Real.exp Real.exp Real.sqrt Real.arccos Real.tan (-wi)
          alpha_u alpha_v
        = -1 - MicrosurfaceSlopeBeckmann.Lambda Real.exp Real.exp Real.sqrt Real.arccos Real.tan
            wi alpha_u alpha_v) ∧
    (MicrosurfaceSlopeGGX.projectedArea Real.sqrt Real.arccos Real.sin wi alpha_u alpha_v
        = wi.z * (1 + MicrosurfaceSlopeGGX.Lambda Real.sqrt Real.arccos Real.tan wi alpha_u
            alpha_v) ∧
      MicrosurfaceSlopeGGX.Lambda Real.sqrt Real.arccos Real.tan (-wi) alpha_u alpha_v
        = -1 - MicrosurfaceSlopeGGX.Lambda Real.sqrt Real.arccos Real.tan wi alpha_u alpha_v) := by
  have h9 : (0.9999 : ℝ) < 1 := by norm_num
  have hzab := abs_le.mp hz1
  have hzz : wi.z * wi.z < 1 := by
    have := abs_mul_abs_self wi.z
    nlinarith [abs_nonneg wi.z]
  have hα := alpha_i_pos_of_ne wi alpha_u alpha_v hxy hzz hu hv
  rcases lt_or_gt_of_ne (abs_pos.mp hz0) with hneg | hpos
  · -- wi.z < 0: apply the upward case to -wi
    have hnz : (-wi).z = -wi.z := rfl
    have hα' : 0 < alpha_i Real.sqrt (-wi) alpha_u alpha_v := by rw [alpha_i_neg]; exact hα
    have hp : 0 < (-wi).z := by rw [hnz]; linarith
    have hp1 : (-wi).z ≤ 0.9999 := by rw [hnz]; linarith [hzab.1]
    have hB := beckmann_smith_of_alpha (-wi) alpha_u alpha_v hp hp1 hα'
    have hG := ggx_smith_of_alpha (-wi) alpha_u alpha_v hp hp1 hα'
    have hBa := beckmann_projectedArea_neg (-wi) alpha_u alpha_v hp hp1 hα'
    have hGa := ggx_projectedArea_neg (-wi) alpha_u alpha_v (by linarith) hp1
    rw [Vector3f.neg_neg_eq] at hB hG hBa hGa
    rw [hnz] at hB hG hBa hGa
    refine ⟨⟨?_, ?_⟩, ⟨?_, ?_⟩⟩
    · rw [hBa, hB.2.1, hB.1]
      ring
    · rw [hB.1]
      ring
    · rw [hGa, hG.2.1, hG.1]
      ring
    · rw [hG.1]
      ring
  · have hp1 : wi.z ≤ 0.9999 := hzab.2
    have hB := beckmann_smith_of_alpha wi alpha_u alpha_v hpos hp1 hα
    have hG := ggx_smith_of_alpha wi alpha_u alpha_v hpos hp1 hα
    exact ⟨⟨hB.2.1, hB.1⟩, ⟨hG.2.1, hG.1⟩⟩

theorem alpha_i_eq (wi : Vector3f ℝ) (ax ay : ℝ) :
    alpha_i Real.sqrt wi ax ay
      = Real.sqrt ((wi.x ^ 2 * ax ^ 2 + wi.y ^ 2 * ay ^ 2) / (1 - wi.z ^ 2)) := by
  simp only [alpha_i, lit]
  congr 1
  push_cast
  ring

/-- C30. Projected roughness: for every `wi` with `|wi.z| < 1`,
`alpha_i wi ax ay ^ 2 = (wi.x ^ 2 * ax ^ 2 + wi.y ^ 2 * ay ^ 2) / (1 - wi.z ^ 2)`; and when `wi`
is moreover a unit vector, `alpha_i wi alpha alpha = alpha` for every `alpha ≥ 0`, whatever the
azimuth of `wi`. -/
theorem alpha_i_isotropic (wi : Vector3f ℝ) (hz : |wi.z| < 1) :
    (∀ ax ay : ℝ, alpha_i Real.sqrt wi ax ay ^ 2
        = (wi.x ^ 2 * ax ^ 2 + wi.y ^ 2 * ay ^ 2) / (1 - wi.z ^ 2)) ∧
      (Dot wi wi = 1 → ∀ alpha : ℝ, 0 ≤ alpha → alpha_i Real.sqrt wi alpha alpha = alpha) := by
  have hz2 : wi.z ^ 2 < 1 := by
    have := abs_lt.mp hz
    nlinarith
  have hd : 0 < 1 - wi.z ^ 2 := by linarith
  constructor
  · intro ax ay
    rw [alpha_i_eq, Real.sq_sqrt]
    positivity
  · intro hn alpha ha
    rw [alpha_i_eq]
    simp only [Dot] at hn
    have e : (wi.x ^ 2 * alpha ^ 2 + wi.y ^ 2 * alpha ^ 2) / (1 - wi.z ^ 2) = alpha ^ 2 := by
      rw [div_eq_iff hd.ne']
      linear_combination (alpha ^ 2) * hn
    rw [e, Real.sqrt_sq ha]

theorem alpha_i_isotropic_witness :
    alpha_i Real.sqrt (⟨3 / 5, 0, 4 / 5⟩ : Vector3f ℝ) 2 3 ^ 2
        = ((3 / 5) ^ 2 * 2 ^ 2 + 0 ^ 2 * 3 ^ 2) / (1 - (4 / 5) ^ 2) ∧
      alpha_i Real.sqrt (⟨3 / 5, 0, 4 / 5⟩ : Vector3f ℝ) 2 2 = 2 :=
  ⟨(alpha_i_isotropic (⟨3 / 5, 0, 4 / 5⟩ : Vector3f ℝ)
      (by rw [abs_lt]; constructor <;> norm_num)).1 2 3,
    (alpha_i_isotropic (⟨3 / 5, 0, 4 / 5⟩ : Vector3f ℝ)
      (by rw [abs_lt]; constructor <;> norm_num)).2 (by norm_num [Dot]) 2 (by norm_num)⟩

theorem Fresnel_eq (sqrtf : K → K) (wi wm : Vector3f K) (eta : K) :
    MicrosurfaceDielectric.Fresnel sqrtf wi wm eta =
      if 1 - (1 - Dot wi wm * Dot wi wm) / (eta * eta) ≤ 0 then 1 else
        0.5 * (((Dot wi wm - eta * sqrtf (1 - (1 - Dot wi wm * Dot wi wm) / (eta * eta))) /
              (Dot wi wm + eta * sqrtf (1 - (1 - Dot wi wm * Dot wi wm) / (eta * eta)))) ^ 2 +
          ((eta * Dot wi wm - sqrtf (1 - (1 - Dot wi wm * Dot wi wm) / (eta * eta))) /
              (eta * Dot wi wm + sqrtf (1 - (1 - Dot wi wm * Dot wi wm) / (eta * eta)))) ^ 2) := by
  simp only [MicrosurfaceDielectric.Fresnel, lit, pow_two]
  norm_num

theorem sq_div_le_one (a b : ℝ) (ha : 0 ≤ a) (hb : 0 ≤ b) (hab : 0 < a + b) :
    ((a - b) / (a + b)) ^ 2 ≤ 1 := by
  rw [div_pow, div_le_one (by positivity)]
  nlinarith [mul_nonneg ha hb]

/-- C26. The function `Fresnel` is a reflectance on front-facing normals: for `eta > 0` and
`0 ≤ Dot wi wm ≤ 1` its value lies in `[0, 1]`; at normal incidence (`Dot wi wm = 1`) it is
`((eta - 1) / (eta + 1)) ^ 2`, which is `0.04` for `eta = 1.5`. -/
theorem Fresnel_reflectance (wi wm : Vector3f ℝ) (eta : ℝ) (heta : 0 < eta)
    (h0 : 0 ≤ Dot wi wm) (_h1 : Dot wi wm ≤ 1) :
    0 ≤ MicrosurfaceDielectric.Fresnel Real.sqrt wi wm eta ∧
      MicrosurfaceDielectric.Fresnel Real.sqrt wi wm eta ≤ 1 ∧
      (Dot wi wm = 1 →
        MicrosurfaceDielectric.Fresnel Real.sqrt wi wm eta = ((eta - 1) / (eta + 1)) ^ 2) ∧
      (Dot wi wm = 1 → eta = 1.5 →
        MicrosurfaceDielectric.Fresnel Real.sqrt wi wm eta = 0.04) := by
  have hnorm : Dot wi wm = 1 →
      MicrosurfaceDielectric.Fresnel Real.sqrt wi wm eta = ((eta - 1) / (eta + 1)) ^ 2 := by
    intro hc
    rw [Fresnel_eq, hc]
    have e : (1 : ℝ) - (1 - 1 * 1) / (eta * eta) = 1 := by norm_num
    rw [e, if_neg (by norm_num), Real.sqrt_one]
    have hne : eta + 1 ≠ 0 := by positivity
    have hne2 : 1 + eta ≠ 0 := by positivity
    field_simp
    ring
  refine ⟨?_, ?_, hnorm, ?_⟩
  · rw [Fresnel_eq]
    split_ifs
    · norm_num
    · positivity
  · rw [Fresnel_eq]
    split_ifs with h
    · exact le_refl _
    · have ht : 0 < 1 - (1 - Dot wi wm * Dot wi wm) / (eta * eta) := not_le.mp h
      have hs := Real.sqrt_pos.mpr ht
      set c := Dot wi wm
      set s := Real.sqrt (1 - (1 - c * c) / (eta * eta))
      have hes : 0 < eta * s := by positivity
      have hec : 0 ≤ eta * c := by positivity
      have e1 := sq_div_le_one c (eta * s) h0 hes.le (by linarith)
      have e2 := sq_div_le_one (eta * c) s hec hs.le (by linarith)
      linarith
  · intro hc he
    rw [hnorm hc, he]
    norm_num

theorem Fresnel_reflectance_witness :
    0 ≤ MicrosurfaceDielectric.Fresnel Real.sqrt (⟨0, 0, 1⟩ : Vector3f ℝ) ⟨0, 0, 1⟩ 1.5 ∧
      MicrosurfaceDielectric.Fresnel Real.sqrt (⟨0, 0, 1⟩ : Vector3f ℝ) ⟨0, 0, 1⟩ 1.5 ≤ 1 ∧
      MicrosurfaceDielectric.Fresnel Real.sqrt (⟨0, 0, 1⟩ : Vector3f ℝ) ⟨0, 0, 1⟩ 1.5 = 0.04 :=
  have h := Fresnel_reflectance (⟨0, 0, 1⟩ : Vector3f ℝ) ⟨0, 0, 1⟩ 1.5 (by norm_num)
    (by norm_num [Dot]) (by norm_num [Dot])
  ⟨h.1, h.2.1, h.2.2.2 (by norm_num [Dot]) rfl⟩

/-- C24. Under total internal reflection the dielectric sampler never refracts: with `wm` the
sampled normal, `eta` the relative index and a third draw `U3 < 1`, when
`1 - (1 - Dot wi wm ^ 2) / eta ^ 2 ≤ 0` the value of `Fresnel` is `1` and `samplePhaseFunction`
returns the mirror direction with the medium flag as it was; and whenever the refraction branch
is taken (`U3` is not below `Fresnel`), `1 - (1 - Dot wi wm ^ 2) / eta ^ 2 > 0`, so `refract` is
only called with a positive `cos_theta_t2`. -/
theorem dielectric_total_internal_reflection (sqrtf acosf cosf sinf : K → K)
    (atan2 : K → K → K) (sampleP22_11 : K → K → K → Vector2f K) (m_eta : K)
    (ms : Microsurface K) (wi : Vector3f K) (wi_outside wo_outside : Bool) (g : Rng K)
    (eta : K) (wm : Vector3f K)
    (heta : eta = if wi_outside then m_eta else lit 1.0 / m_eta)
    (hwm : wm =
      if wi_outside then
        MicrosurfaceSlope.sampleD_wi sqrtf acosf cosf sinf atan2 sampleP22_11 wi
          (g.draws g.pos) (g.draws (g.pos + 1)) ms.m_alphau ms.m_alphav
      else
        -(MicrosurfaceSlope.sampleD_wi sqrtf acosf cosf sinf atan2 sampleP22_11 (-wi)
          (g.draws g.pos) (g.draws (g.pos + 1)) ms.m_alphau ms.m_alphav))
    (hU3 : g.draws (g.pos + 2) < 1) :
    (1 - (1 - Dot wi wm ^ 2) / eta ^ 2 ≤ 0 →
      MicrosurfaceDielectric.Fresnel sqrtf wi wm eta = 1 ∧
      MicrosurfaceDielectric.samplePhaseFunction sqrtf acosf cosf sinf atan2 sampleP22_11 m_eta
          ms wi wi_outside wo_outside g
        = (-wi + (Vector3f.smul (lit 2.0) wm).mul (Dot wi wm), wo_outside,
            ⟨g.draws, g.pos + 3⟩)) ∧
    (¬ g.draws (g.pos + 2) < MicrosurfaceDielectric.Fresnel sqrtf wi wm eta →
      0 < 1 - (1 - Dot wi wm ^ 2) / eta ^ 2 ∧
      MicrosurfaceDielectric.samplePhaseFunction sqrtf acosf cosf sinf atan2 sampleP22_11 m_eta
          ms wi wi_outside wo_outside g
        = (Normalize sqrtf (MicrosurfaceDielectric.refract sqrtf wi wm eta), !wi_outside,
            ⟨g.draws, g.pos + 3⟩)) := by
  have hF : 1 - (1 - Dot wi wm ^ 2) / eta ^ 2 ≤ 0 →
      MicrosurfaceDielectric.Fresnel sqrtf wi wm eta = 1 := by
    intro h
    rw [Fresnel_eq, if_pos (by rw [← pow_two, ← pow_two]; exact h)]
  subst heta hwm
  constructor
  · intro h
    refine ⟨hF h, ?_⟩
    have hlt := hU3
    rw [← hF h] at hlt
    simp only [MicrosurfaceDielectric.samplePhaseFunction, generateRandomNumber]
    rw [if_pos hlt]
  · intro h
    constructor
    · by_contra hc
      apply h
      rw [hF (not_lt.mp hc)]
      exact hU3
    · simp only [MicrosurfaceDielectric.samplePhaseFunction, generateRandomNumber]
      rw [if_neg h]

/-- C22. A ray that does not travel upward never escapes: with the uniform height distribution,
any slope distribution, `wr.z ≤ 0` and `U` in `[0, 1]`, `sampleHeight wr hr U` is `hr` itself (in
the grazing branch `|wr.z| < 1e-4`) or a height in `[-1, 1]`; so it is not the sentinel `FLT_MAX`
as soon as `hr` is not (a height that is not the sentinel being what "finite" means here). -/
theorem sampleHeight_downward_no_escape (powf : K → K → K) (slope : MicrosurfaceSlope K)
    (au av : K) (wr : Vector3f K) (hr U : K) (hz : wr.z ≤ 0) (_hU0 : 0 ≤ U) (hU1 : U ≤ 1) :
    ((|wr.z| < 0.0001 ∧
        Microsurface.sampleHeight powf ⟨MicrosurfaceHeightUniform, slope, au, av⟩ wr hr U = hr) ∨
      (-1 ≤ Microsurface.sampleHeight powf ⟨MicrosurfaceHeightUniform, slope, au, av⟩ wr hr U ∧
        Microsurface.sampleHeight powf ⟨MicrosurfaceHeightUniform, slope, au, av⟩ wr hr U
          ≤ 1)) ∧
    (hr ≠ FLT_MAX →
      Microsurface.sampleHeight powf ⟨MicrosurfaceHeightUniform, slope, au, av⟩ wr hr U
        ≠ FLT_MAX) := by
  have h9 : ¬ (0.9999 : K) < wr.z := by
    have : (0 : K) < 0.9999 := by norm_num
    intro h
    linarith
  have hG : Microsurface.G_1_h powf ⟨MicrosurfaceHeightUniform, slope, au, av⟩ wr hr = 0 := by
    rw [G_1_h_eq, if_neg h9, if_pos hz]
  have hU : ¬ (1 : K) - 0 < U := by
    rw [sub_zero]
    exact not_lt.mpr hU1
  have hinv : ∀ x : K, -1 ≤ MicrosurfaceHeightUniform.invC1 x
      ∧ MicrosurfaceHeightUniform.invC1 x ≤ 1 := by
    intro x
    rw [uniform_invC1_eq]
    exact ⟨le_max_left _ _, max_le (by norm_num) (min_le_left _ _)⟩
  have key : (|wr.z| < 0.0001 ∧
        Microsurface.sampleHeight powf ⟨MicrosurfaceHeightUniform, slope, au, av⟩ wr hr U = hr) ∨
      (-1 ≤ Microsurface.sampleHeight powf ⟨MicrosurfaceHeightUniform, slope, au, av⟩ wr hr U ∧
        Microsurface.sampleHeight powf ⟨MicrosurfaceHeightUniform, slope, au, av⟩ wr hr U
          ≤ 1) := by
    rw [sampleHeight_eq, if_neg h9, hG, if_neg hU]
    by_cases h2 : wr.z < -0.9999
    · rw [if_pos h2]
      exact Or.inr (hinv _)
    · rw [if_neg h2]
      by_cases h3 : |wr.z| < 13743895 / 2 ^ 37
      · rw [if_pos h3]
        exact Or.inl ⟨lt_trans h3 (by norm_num), rfl⟩
      · rw [if_neg h3]
        exact Or.inr (hinv _)
  refine ⟨key, fun hne => ?_⟩
  rcases key with ⟨_, h⟩ | ⟨_, h⟩
  · rw [h]
    exact hne
  · intro he
    rw [he] at h
    exact absurd h (not_le.mpr FLT_MAX_gt_one)

theorem sampleHeight_downward_no_escape_witness :
    ((|(-1 : ℝ)| < 0.0001 ∧
        Microsurface.sampleHeight Real.rpow ⟨MicrosurfaceHeightUniform,
          MicrosurfaceSlopeGGX Real.pi Real.sqrt Real.arccos Real.tan Real.sin, 1, 1⟩
          (⟨0, 0, -1⟩ : Vector3f ℝ) 0 (1 / 2) = 0) ∨
      (-1 ≤ Microsurface.sampleHeight Real.rpow ⟨MicrosurfaceHeightUniform,
          MicrosurfaceSlopeGGX Real.pi Real.sqrt Real.arccos Real.tan Real.sin, 1, 1⟩
          (⟨0, 0, -1⟩ : Vector3f ℝ) 0 (1 / 2) ∧
        Microsurface.sampleHeight Real.rpow ⟨MicrosurfaceHeightUniform,
          MicrosurfaceSlopeGGX Real.pi Real.sqrt Real.arccos Real.tan Real.sin, 1, 1⟩
          (⟨0, 0, -1⟩ : Vector3f ℝ) 0 (1 / 2) ≤ 1)) ∧
    Microsurface.sampleHeight Real.rpow ⟨MicrosurfaceHeightUniform,
        MicrosurfaceSlopeGGX Real.pi Real.sqrt Real.arccos Real.tan Real.sin, 1, 1⟩
        (⟨0, 0, -1⟩ : Vector3f ℝ) 0 (1 / 2) ≠ FLT_MAX :=
  have h := sampleHeight_downward_no_escape Real.rpow
    (MicrosurfaceSlopeGGX Real.pi Real.sqrt Real.arccos Real.tan Real.sin) 1 1
    (⟨0, 0, -1⟩ : Vector3f ℝ) 0 (1 / 2) (show (-1 : ℝ) ≤ 0 by norm_num) (by norm_num)
    (by norm_num)
  ⟨h.1, h.2 (by norm_num [FLT_MAX, lit])⟩

theorem uniform_C1_bounds (h : K) :
    0 ≤ MicrosurfaceHeightUniform.C1 h ∧ MicrosurfaceHeightUniform.C1 h ≤ 1 := by
  rw [uniform_C1_eq]
  exact ⟨le_min (by norm_num) (le_max_left _ _), min_le_left _ _⟩

theorem gaussian_C1_bounds (h : ℝ) :
    0 ≤ MicrosurfaceHeightGaussian.C1 Real.exp h ∧ MicrosurfaceHeightGaussian.C1 Real.exp h ≤ 1 := by
  have hs := serf_bounds (INV_SQRT_2 * h)
  simp only [MicrosurfaceHeightGaussian.C1, lit]
  push_cast
  constructor <;> linarith [hs.1, hs.2]

/-- In exact arithmetic, with the real `arccos` and `tan` for `acosf` and `tanf`, the masking
terms are probabilities for the GGX slope distribution: for a unit `wi`,
`alpha_u, alpha_v > 0`, any height `h0` and either height distribution, `Lambda wi ≥ 0` whenever
`0 < wi.z ≤ 0.9999`, and `G_1 wi`, `G_1 wi h0` and the escape threshold `1 - G_1 wi h0` all lie
in `[0, 1]`. -/
theorem ggx_masking_probabilities (M_PI : ℝ) (height_uniform : Bool) (wi : Vector3f ℝ)
    (alpha_u alpha_v h0 : ℝ) (hn : Dot wi wi = 1) (hu : 0 < alpha_u) (hv : 0 < alpha_v) :
    (0 < wi.z → wi.z ≤ 0.9999 →
      0 ≤ MicrosurfaceSlopeGGX.Lambda Real.sqrt Real.arccos Real.tan wi alpha_u alpha_v) ∧
    0 ≤ (Microsurface.create M_PI Real.exp Real.exp Real.log Real.sqrt Real.arccos Real.tan
        Real.sin height_uniform false alpha_u alpha_v).G_1 wi ∧
    (Microsurface.create M_PI Real.exp Real.exp Real.log Real.sqrt Real.arccos Real.tan
        Real.sin height_uniform false alpha_u alpha_v).G_1 wi ≤ 1 ∧
    0 ≤ (Microsurface.create M_PI Real.exp Real.exp Real.log Real.sqrt Real.arccos Real.tan
        Real.sin height_uniform false alpha_u alpha_v).G_1_h Real.rpow wi h0 ∧
    (Microsurface.create M_PI Real.exp Real.exp Real.log Real.sqrt Real.arccos Real.tan
        Real.sin height_uniform false alpha_u alpha_v).G_1_h Real.rpow wi h0 ≤ 1 ∧
    0 ≤ 1 - (Microsurface.create M_PI Real.exp Real.exp Real.log Real.sqrt Real.arccos Real.tan
        Real.sin height_uniform false alpha_u alpha_v).G_1_h Real.rpow wi h0 ∧
    1 - (Microsurface.create M_PI Real.exp Real.exp Real.log Real.sqrt Real.arccos Real.tan
        Real.sin height_uniform false alpha_u alpha_v).G_1_h Real.rpow wi h0 ≤ 1 := by
  have hn' : wi.x * wi.x + wi.y * wi.y + wi.z * wi.z = 1 := hn
  have hL : 0 < wi.z → wi.z ≤ 0.9999 →
      0 ≤ MicrosurfaceSlopeGGX.Lambda Real.sqrt Real.arccos Real.tan wi alpha_u alpha_v :=
    fun h0 h1 => (ggx_smith wi alpha_u alpha_v hn' h0 h1 hu hv).2.2
  have hC : 0 ≤ (Microsurface.create M_PI Real.exp Real.exp Real.log Real.sqrt Real.arccos
        Real.tan Real.sin height_uniform false alpha_u alpha_v).m_microsurfaceheight.C1 h0 ∧
      (Microsurface.create M_PI Real.exp Real.exp Real.log Real.sqrt Real.arccos
        Real.tan Real.sin height_uniform false alpha_u alpha_v).m_microsurfaceheight.C1 h0
        ≤ 1 := by
    cases height_uniform
    · exact gaussian_C1_bounds h0
    · exact uniform_C1_bounds h0
  have hG1 : 0 ≤ (Microsurface.create M_PI Real.exp Real.exp Real.log Real.sqrt Real.arccos
        Real.tan Real.sin height_uniform false alpha_u alpha_v).G_1 wi ∧
      (Microsurface.create M_PI Real.exp Real.exp Real.log Real.sqrt Real.arccos
        Real.tan Real.sin height_uniform false alpha_u alpha_v).G_1 wi ≤ 1 := by
    rw [G_1_eq]
    split_ifs with h1 h2
    · norm_num
    · norm_num
    · have hl := hL (not_le.mp h2) (not_lt.mp h1)
      have hl' : 0 ≤ (Microsurface.create M_PI Real.exp Real.exp Real.log Real.sqrt Real.arccos
          Real.tan Real.sin height_uniform false alpha_u alpha_v).m_microsurfaceslope.Lambda wi
          (Microsurface.create M_PI Real.exp Real.exp Real.log Real.sqrt Real.arccos
          Real.tan Real.sin height_uniform false alpha_u alpha_v).m_alphau
          (Microsurface.create M_PI Real.exp Real.exp Real.log Real.sqrt Real.arccos
          Real.tan Real.sin height_uniform false alpha_u alpha_v).m_alphav := hl
      constructor
      · positivity
      · rw [div_le_one (by linarith)]
        linarith
  have hG2 : 0 ≤ (Microsurface.create M_PI Real.exp Real.exp Real.log Real.sqrt Real.arccos
        Real.tan Real.sin height_uniform false alpha_u alpha_v).G_1_h Real.rpow wi h0 ∧
      (Microsurface.create M_PI Real.exp Real.exp Real.log Real.sqrt Real.arccos
        Real.tan Real.sin height_uniform false alpha_u alpha_v).G_1_h Real.rpow wi h0 ≤ 1 := by
    rw [G_1_h_eq]
    split_ifs with h1 h2
    · norm_num
    · norm_num
    · have hl := hL (not_le.mp h2) (not_lt.mp h1)
      exact ⟨Real.rpow_nonneg hC.1 _, Real.rpow_le_one hC.1 hC.2 hl⟩
  exact ⟨hL, hG1.1, hG1.2, hG2.1, hG2.2, by linarith [hG2.2], by linarith [hG2.1]⟩

theorem dielectric_total_internal_reflection_witness :
    MicrosurfaceDielectric.Fresnel Real.sqrt (⟨4 / 5, 0, -(3 / 5)⟩ : Vector3f ℝ)
        (-(⟨0, 0, 1⟩ : Vector3f ℝ)) (lit 1.0 / 1.5) = 1 ∧
      MicrosurfaceDielectric.samplePhaseFunction Real.sqrt Real.arccos Real.cos Real.sin
          (fun y x => Complex.arg ⟨x, y⟩) (fun _ _ _ => ⟨0, 0⟩) 1.5
          ⟨MicrosurfaceHeightUniform,
            MicrosurfaceSlopeGGX Real.pi Real.sqrt Real.arccos Real.tan Real.sin, 1, 1⟩
          (⟨4 / 5, 0, -(3 / 5)⟩ : Vector3f ℝ) false false halfRng
        = (-(⟨4 / 5, 0, -(3 / 5)⟩ : Vector3f ℝ)
            + (Vector3f.smul (lit 2.0) (-(⟨0, 0, 1⟩ : Vector3f ℝ))).mul
              (Dot (⟨4 / 5, 0, -(3 / 5)⟩ : Vector3f ℝ) (-(⟨0, 0, 1⟩ : Vector3f ℝ))),
          false, ⟨fun _ => lit 0.5, 3⟩) :=
  (dielectric_total_internal_reflection Real.sqrt Real.arccos Real.cos Real.sin
    (fun y x => Complex.arg ⟨x, y⟩) (fun _ _ _ => ⟨0, 0⟩) 1.5
    ⟨MicrosurfaceHeightUniform,
      MicrosurfaceSlopeGGX Real.pi Real.sqrt Real.arccos Real.tan Real.sin, 1, 1⟩
    (⟨4 / 5, 0, -(3 / 5)⟩ : Vector3f ℝ) false false halfRng (lit 1.0 / 1.5)
    (-(⟨0, 0, 1⟩ : Vector3f ℝ)) (by simp) (by simp [sampleD_wi_flat])
    (by norm_num [halfRng, lit])).1
    (by norm_num [Dot, Vector3f.neg_def, lit])

theorem uniform_C1_of_support (h : ℝ) (h0 : -1 ≤ h) (h1 : h ≤ 1) :
    MicrosurfaceHeightUniform.C1 h = (h + 1) / 2 := by
  rw [uniform_C1_eq, max_eq_right (by linarith), min_eq_right (by linarith)]

theorem uniform_invC1_of_unit (x : ℝ) (h0 : 0 ≤ x) (h1 : x ≤ 1) :
    MicrosurfaceHeightUniform.invC1 x = 2 * x - 1 := by
  rw [uniform_invC1_eq, min_eq_right (by linarith), max_eq_right (by linarith)]

/-- C23. The sampled height moves in the direction of travel (uniform heights, GGX slopes,
`alpha_u, alpha_v > 0`, unit `wr`, `hr` in `[-1, 1]`, `U` in `[0, 1)`): when `wr.z ≤ -1e-4`,
`sampleHeight wr hr U ≤ hr`; when `wr.z ≥ 1e-4` and the result is not the sentinel `FLT_MAX`,
`sampleHeight wr hr U ≥ hr`, the result is `invC1` of `C1 hr / (1 - U) ^ (1 / Lambda wr)`, and
that argument lies in `[0, 1]`. -/
theorem sampleHeight_direction (M_PI : ℝ) (wr : Vector3f ℝ) (alpha_u alpha_v hr U : ℝ)
    (hn : Dot wr wr = 1) (hu : 0 < alpha_u) (hv : 0 < alpha_v)
    (hr0 : -1 ≤ hr) (hr1 : hr ≤ 1) (hU0 : 0 ≤ U) (hU1 : U < 1) :
    (wr.z ≤ -0.0001 →
      Microsurface.sampleHeight Real.rpow ⟨MicrosurfaceHeightUniform,
        MicrosurfaceSlopeGGX M_PI Real.sqrt Real.arccos Real.tan Real.sin, alpha_u, alpha_v⟩
        wr hr U ≤ hr) ∧
    (0.0001 ≤ wr.z →
      Microsurface.sampleHeight Real.rpow ⟨MicrosurfaceHeightUniform,
        MicrosurfaceSlopeGGX M_PI Real.sqrt Real.arccos Real.tan Real.sin, alpha_u, alpha_v⟩
        wr hr U ≠ FLT_MAX →
      hr ≤ Microsurface.sampleHeight Real.rpow ⟨MicrosurfaceHeightUniform,
        MicrosurfaceSlopeGGX M_PI Real.sqrt Real.arccos Real.tan Real.sin, alpha_u, alpha_v⟩
        wr hr U ∧
      Microsurface.sampleHeight Real.rpow ⟨MicrosurfaceHeightUniform,
          MicrosurfaceSlopeGGX M_PI Real.sqrt Real.arccos Real.tan Real.sin, alpha_u, alpha_v⟩
          wr hr U
        = MicrosurfaceHeightUniform.invC1 (MicrosurfaceHeightUniform.C1 hr /
            Real.rpow (1 - U) (1 / MicrosurfaceSlopeGGX.Lambda Real.sqrt Real.arccos Real.tan wr
              alpha_u alpha_v)) ∧
      0 ≤ MicrosurfaceHeightUniform.C1 hr /
            Real.rpow (1 - U) (1 / MicrosurfaceSlopeGGX.Lambda Real.sqrt Real.arccos Real.tan wr
              alpha_u alpha_v) ∧
      MicrosurfaceHeightUniform.C1 hr /
            Real.rpow (1 - U) (1 / MicrosurfaceSlopeGGX.Lambda Real.sqrt Real.arccos Real.tan wr
              alpha_u alpha_v) ≤ 1) := by
  have hn' : wr.x * wr.x + wr.y * wr.y + wr.z * wr.z = 1 := hn
  have hC := uniform_C1_of_support hr hr0 hr1
  have hC0 : 0 ≤ MicrosurfaceHeightUniform.C1 hr := by rw [hC]; linarith
  have hC1 : MicrosurfaceHeightUniform.C1 hr ≤ 1 := by rw [hC]; linarith
  have hb0 : 0 < 1 - U := by linarith
  have hb1 : 1 - U ≤ 1 := by linarith
  constructor
  · intro hz
    rw [sampleHeight_eq, if_neg (by norm_num; linarith)]
    by_cases h2 : wr.z < -0.9999
    · rw [if_pos h2]
      show MicrosurfaceHeightUniform.invC1 (U * MicrosurfaceHeightUniform.C1 hr) ≤ hr
      have hx0 : 0 ≤ U * MicrosurfaceHeightUniform.C1 hr := mul_nonneg hU0 hC0
      have hx1 : U * MicrosurfaceHeightUniform.C1 hr ≤ MicrosurfaceHeightUniform.C1 hr := by
        nlinarith
      rw [uniform_invC1_of_unit _ hx0 (by linarith)]
      linarith [hC]
    · have hG : Microsurface.G_1_h Real.rpow ⟨MicrosurfaceHeightUniform,
          MicrosurfaceSlopeGGX M_PI Real.sqrt Real.arccos Real.tan Real.sin, alpha_u, alpha_v⟩
          wr hr = 0 := by
        rw [G_1_h_eq, if_neg (by norm_num; linarith), if_pos (by linarith)]
      have habs : ¬ |wr.z| < 13743895 / 2 ^ 37 := by
        rw [abs_of_neg (by linarith)]
        norm_num
        linarith
      rw [if_neg h2, if_neg habs, hG, if_neg (by linarith)]
      show MicrosurfaceHeightUniform.invC1 (MicrosurfaceHeightUniform.C1 hr /
        Real.rpow (1 - U) (1 / MicrosurfaceSlopeGGX.Lambda Real.sqrt Real.arccos Real.tan wr
          alpha_u alpha_v)) ≤ hr
      -- Lambda wr ≤ -1 below the horizon
      have hnz : (-wr).z = -wr.z := rfl
      have hnn : (-wr).x * (-wr).x + (-wr).y * (-wr).y + (-wr).z * (-wr).z = 1 := by
        simp only [Vector3f.neg_def, neg_mul_neg]
        exact hn'
      have hS := ggx_smith (-wr) alpha_u alpha_v hnn (by rw [hnz]; linarith)
        (by rw [hnz]; linarith [not_lt.mp h2]) hu hv
      rw [Vector3f.neg_neg_eq] at hS
      have hL : MicrosurfaceSlopeGGX.Lambda Real.sqrt Real.arccos Real.tan wr alpha_u alpha_v
          ≤ -1 := by
        rw [hS.1]
        linarith [hS.2.2]
      have he : 1 / MicrosurfaceSlopeGGX.Lambda Real.sqrt Real.arccos Real.tan wr alpha_u alpha_v
          ≤ 0 := by
        apply div_nonpos_of_nonneg_of_nonpos (by norm_num)
        linarith
      have hp : 1 ≤ Real.rpow (1 - U)
          (1 / MicrosurfaceSlopeGGX.Lambda Real.sqrt Real.arccos Real.tan wr alpha_u alpha_v) :=
        Real.one_le_rpow_of_pos_of_le_one_of_nonpos hb0 hb1 he
      have hx0 : 0 ≤ MicrosurfaceHeightUniform.C1 hr / Real.rpow (1 - U)
          (1 / MicrosurfaceSlopeGGX.Lambda Real.sqrt Real.arccos Real.tan wr alpha_u alpha_v) :=
        div_nonneg hC0 (by linarith)
      have hx1 : MicrosurfaceHeightUniform.C1 hr / Real.rpow (1 - U)
          (1 / MicrosurfaceSlopeGGX.Lambda Real.sqrt Real.arccos Real.tan wr alpha_u alpha_v)
          ≤ MicrosurfaceHeightUniform.C1 hr := div_le_self hC0 hp
      rw [uniform_invC1_of_unit _ hx0 (by linarith)]
      linarith [hC]
  · intro hz hne
    rw [sampleHeight_eq] at hne ⊢
    have h1 : ¬ 0.9999 < wr.z := by
      intro h
      rw [if_pos h] at hne
      exact hne rfl
    have h2 : ¬ wr.z < -0.9999 := by norm_num; linarith
    have habs : ¬ |wr.z| < 13743895 / 2 ^ 37 := by
      rw [abs_of_pos (by linarith)]
      norm_num
      linarith
    rw [if_neg h1, if_neg h2, if_neg habs] at hne ⊢
    have hG : Microsurface.G_1_h Real.rpow ⟨MicrosurfaceHeightUniform,
          MicrosurfaceSlopeGGX M_PI Real.sqrt Real.arccos Real.tan Real.sin, alpha_u, alpha_v⟩
          wr hr = Real.rpow (MicrosurfaceHeightUniform.C1 hr)
            (MicrosurfaceSlopeGGX.Lambda Real.sqrt Real.arccos Real.tan wr alpha_u alpha_v) := by
      rw [G_1_h_eq, if_neg h1, if_neg (by linarith)]
      rfl
    have h3 : ¬ 1 - Microsurface.G_1_h Real.rpow ⟨MicrosurfaceHeightUniform,
          MicrosurfaceSlopeGGX M_PI Real.sqrt Real.arccos Real.tan Real.sin, alpha_u, alpha_v⟩
          wr hr < U := by
      intro h
      rw [if_pos h] at hne
      exact hne rfl
    rw [if_neg h3]
    rw [hG] at h3
    have hzz : wr.z * wr.z < 1 := by nlinarith [not_lt.mp h1]
    have hα := alpha_i_pos wr alpha_u alpha_v hn' hzz hu hv
    have hL := (ggx_smith_of_alpha wr alpha_u alpha_v (by linarith) (not_lt.mp h1) hα).2.2
    set L := MicrosurfaceSlopeGGX.Lambda Real.sqrt Real.arccos Real.tan wr alpha_u alpha_v
      with hLdef
    set c := MicrosurfaceHeightUniform.C1 hr with hcdef
    have hle : c ^ L ≤ 1 - U := by
      have := not_lt.mp h3
      have e : Real.rpow c L = c ^ L := rfl
      rw [e] at this
      linarith
    have hinv : 0 < 1 / L := by positivity
    have hcp : c ≤ (1 - U) ^ (1 / L) := by
      have h := Real.rpow_le_rpow (Real.rpow_nonneg hC0 L) hle hinv.le
      rw [← Real.rpow_mul hC0, mul_one_div, div_self hL.ne', Real.rpow_one] at h
      exact h
    have hp0 : 0 < (1 - U) ^ (1 / L) := Real.rpow_pos_of_pos hb0 _
    have hp1 : (1 - U) ^ (1 / L) ≤ 1 := Real.rpow_le_one hb0.le hb1 hinv.le
    have e : Real.rpow (1 - U) (1 / L) = (1 - U) ^ (1 / L) := rfl
    have hx0 : 0 ≤ c / (1 - U) ^ (1 / L) := div_nonneg hC0 hp0.le
    have hx1 : c / (1 - U) ^ (1 / L) ≤ 1 := by
      rw [div_le_one hp0]
      exact hcp
    have hxc : c ≤ c / (1 - U) ^ (1 / L) := by
      rw [le_div_iff₀ hp0]
      nlinarith
    refine ⟨?_, rfl, ?_, ?_⟩
    · show hr ≤ MicrosurfaceHeightUniform.invC1 (c / Real.rpow (1 - U) (1 / L))
      rw [e, uniform_invC1_of_unit _ hx0 hx1]
      linarith [hC]
    · rw [e]
      exact hx0
    · rw [e]
      exact hx1

theorem sampleHeight_direction_witness :
    Microsurface.sampleHeight Real.rpow ⟨MicrosurfaceHeightUniform,
        MicrosurfaceSlopeGGX Real.pi Real.sqrt Real.arccos Real.tan Real.sin, 1, 1⟩
        (⟨3 / 5, 0, -(4 / 5)⟩ : Vector3f ℝ) 0 (1 / 2) ≤ 0 ∧
      -1 ≤ Microsurface.sampleHeight Real.rpow ⟨MicrosurfaceHeightUniform,
        MicrosurfaceSlopeGGX Real.pi Real.sqrt Real.arccos Real.tan Real.sin, 1, 1⟩
        (⟨3 / 5, 0, 4 / 5⟩ : Vector3f ℝ) (-1) (1 / 2) := by
  have hb :
      Microsurface.sampleHeight Real.rpow ⟨MicrosurfaceHeightUniform,
          MicrosurfaceSlopeGGX Real.pi Real.sqrt Real.arccos Real.tan Real.sin, 1, 1⟩
          (⟨3 / 5, 0, 4 / 5⟩ : Vector3f ℝ) (-1) (1 / 2) ≠ FLT_MAX := by
    have hn : (3 / 5 : ℝ) * (3 / 5) + 0 * 0 + (4 / 5) * (4 / 5) = 1 := by norm_num
    have hL := (ggx_smith_of_alpha (⟨3 / 5, 0, 4 / 5⟩ : Vector3f ℝ) 1 1 (by norm_num)
      (by norm_num) (alpha_i_pos _ 1 1 hn (by norm_num) (by norm_num) (by norm_num))).2.2
    have hC : MicrosurfaceHeightUniform.C1 (-1 : ℝ) = 0 := by
      rw [uniform_C1_eq]
      norm_num
    have hG : Microsurface.G_1_h Real.rpow ⟨MicrosurfaceHeightUniform,
          MicrosurfaceSlopeGGX Real.pi Real.sqrt Real.arccos Real.tan Real.sin, 1, 1⟩
          (⟨3 / 5, 0, 4 / 5⟩ : Vector3f ℝ) (-1) = 0 := by
      rw [G_1_h_eq, if_neg (by norm_num), if_neg (by norm_num)]
      show Real.rpow (MicrosurfaceHeightUniform.C1 (-1 : ℝ))
        (MicrosurfaceSlopeGGX.Lambda Real.sqrt Real.arccos Real.tan ⟨3 / 5, 0, 4 / 5⟩ 1 1) = 0
      rw [hC]
      exact Real.zero_rpow hL.ne'
    rw [sampleHeight_eq, if_neg (by norm_num), if_neg (by norm_num),
      if_neg (by rw [abs_of_pos] <;> norm_num), hG, if_neg (by norm_num)]
    exact uniform_invC1_ne_FLT_MAX _
  exact ⟨(sampleHeight_direction Real.pi (⟨3 / 5, 0, -(4 / 5)⟩ : Vector3f ℝ) 1 1 0 (1 / 2)
      (by norm_num [Dot]) (by norm_num) (by norm_num) (by norm_num) (by norm_num) (by norm_num)
      (by norm_num)).1 (by norm_num),
    ((sampleHeight_direction Real.pi (⟨3 / 5, 0, 4 / 5⟩ : Vector3f ℝ) 1 1 (-1) (1 / 2)
      (by norm_num [Dot]) (by norm_num) (by norm_num) (by norm_num) (by norm_num) (by norm_num)
      (by norm_num)).2 (by norm_num) hb).1⟩

theorem beckmann_loop_exit (exp expf logf sqrtf : K → K)
    (sin_theta_i cos_theta_i slope_i c U : K) (fuel : Nat) (serf_min serf_max serf_current : K)
    (h : ¬ serf_max - serf_min > lit (2748779 / 2 ^ 38)) :
    MicrosurfaceSlopeBeckmann.sampleP22_11_loop exp expf logf sqrtf sin_theta_i cos_theta_i
      slope_i c U fuel serf_min serf_max serf_current
      = some (serf_min, serf_max, serf_current) := by
  rw [MicrosurfaceSlopeBeckmann.sampleP22_11_loop.eq_def]
  simp only [if_neg h]

theorem beckmann_loop_out_of_fuel (exp expf logf sqrtf : K → K)
    (sin_theta_i cos_theta_i slope_i c U : K) (serf_min serf_max serf_current : K)
    (h : serf_max - serf_min > lit (2748779 / 2 ^ 38)) :
    MicrosurfaceSlopeBeckmann.sampleP22_11_loop exp expf logf sqrtf sin_theta_i cos_theta_i
      slope_i c U 0 serf_min serf_max serf_current = none := by
  rw [MicrosurfaceSlopeBeckmann.sampleP22_11_loop.eq_def]
  simp only [if_pos h]

theorem beckmann_loop_step (exp expf logf sqrtf : K → K)
    (sin_theta_i cos_theta_i slope_i c U : K) (fuel : Nat) (serf_min serf_max serf_current : K)
    (cur diff : K)
    (h : serf_max - serf_min > lit (2748779 / 2 ^ 38))
    (hcur : cur = if !(decide (serf_current ≥ serf_min) && decide (serf_current ≤ serf_max)) then
        lit 0.5 * (serf_min + serf_max) else serf_current)
    (hdiff : diff = (if serfinv logf sqrtf cur ≥ slope_i then lit 1.0
        else c * (INV_2_SQRT_M_PI * sin_theta_i
            * expf (-serfinv logf sqrtf cur * serfinv logf sqrtf cur)
          + cos_theta_i * (lit 0.5 + lit 0.5 * serf exp (serfinv logf sqrtf cur)))) - U) :
    MicrosurfaceSlopeBeckmann.sampleP22_11_loop exp expf logf sqrtf sin_theta_i cos_theta_i
      slope_i c U (fuel + 1) serf_min serf_max serf_current
      = if fabsf diff < lit (2748779 / 2 ^ 38) then some (serf_min, serf_max, cur)
        else if diff > lit 0.0 then
          if serf_max == cur then some (serf_min, serf_max, cur)
          else MicrosurfaceSlopeBeckmann.sampleP22_11_loop exp expf logf sqrtf sin_theta_i
            cos_theta_i slope_i c U fuel serf_min cur
            (cur - diff / (lit 0.5 * c * cos_theta_i
              - lit 0.5 * c * sin_theta_i * serfinv logf sqrtf cur))
        else
          if serf_min == cur then some (serf_min, serf_max, cur)
          else MicrosurfaceSlopeBeckmann.sampleP22_11_loop exp expf logf sqrtf sin_theta_i
            cos_theta_i slope_i c U fuel cur serf_max
            (cur - diff / (lit 0.5 * c * cos_theta_i
              - lit 0.5 * c * sin_theta_i * serfinv logf sqrtf cur)) := by
  subst hdiff hcur
  rw [MicrosurfaceSlopeBeckmann.sampleP22_11_loop.eq_def]
  simp only [if_pos h]

theorem beckmann_estimate_in_bracket (serf_min serf_max serf_current : K)
    (h : serf_min ≤ serf_max) :
    serf_min ≤ (if !(decide (serf_current ≥ serf_min) && decide (serf_current ≤ serf_max)) then
        lit 0.5 * (serf_min + serf_max) else serf_current) ∧
      (if !(decide (serf_current ≥ serf_min) && decide (serf_current ≤ serf_max)) then
        lit 0.5 * (serf_min + serf_max) else serf_current) ≤ serf_max := by
  split_ifs with hc
  · simp only [lit]
    push_cast
    constructor <;> linarith
  · simp only [Bool.not_eq_true', Bool.and_eq_false_imp, decide_eq_true_eq,
      decide_eq_false_iff_not, not_imp_not, not_forall, not_not] at hc
    simpa using hc

theorem beckmann_loop_bracket (exp expf logf sqrtf : K → K)
    (sin_theta_i cos_theta_i slope_i c U lo hi : K) :
    ∀ (fuel : Nat) (serf_min serf_max serf_current : K) (s : K × K × K),
      lo ≤ serf_min → serf_min ≤ serf_max → serf_max ≤ hi →
      MicrosurfaceSlopeBeckmann.sampleP22_11_loop exp expf logf sqrtf sin_theta_i cos_theta_i
        slope_i c U fuel serf_min serf_max serf_current = some s →
      lo ≤ s.1 ∧ s.1 ≤ s.2.1 ∧ s.2.1 ≤ hi := by
  intro fuel
  induction fuel with
  | zero =>
    intro smin smax scur s h1 h2 h3 h
    by_cases hg : smax - smin > lit (2748779 / 2 ^ 38)
    · rw [beckmann_loop_out_of_fuel _ _ _ _ _ _ _ _ _ _ _ _ hg] at h
      exact absurd h (by simp)
    · rw [beckmann_loop_exit _ _ _ _ _ _ _ _ _ _ _ _ _ hg] at h
      simp only [Option.some.injEq] at h
      subst h
      exact ⟨h1, h2, h3⟩
  | succ n ih =>
    intro smin smax scur s h1 h2 h3 h
    by_cases hg : smax - smin > lit (2748779 / 2 ^ 38)
    · have hb := beckmann_estimate_in_bracket smin smax scur h2
      rw [beckmann_loop_step exp expf logf sqrtf sin_theta_i cos_theta_i slope_i c U n smin smax
        scur _ _ hg rfl rfl] at h
      generalize (if !(decide (scur ≥ smin) && decide (scur ≤ smax)) then
        lit 0.5 * (smin + smax) else scur) = cur at h hb
      generalize ((if serfinv logf sqrtf cur ≥ slope_i then lit 1.0
        else c * (INV_2_SQRT_M_PI * sin_theta_i
            * expf (-serfinv logf sqrtf cur * serfinv logf sqrtf cur)
          + cos_theta_i * (lit 0.5 + lit 0.5 * serf exp (serfinv logf sqrtf cur)))) - U)
        = diff at h
      split_ifs at h
      · simp only [Option.some.injEq] at h
        subst h
        exact ⟨h1, h2, h3⟩
      · simp only [Option.some.injEq] at h
        subst h
        exact ⟨h1, h2, h3⟩
      · exact ih _ _ _ _ h1 hb.1 (le_trans hb.2 h3) h
      · simp only [Option.some.injEq] at h
        subst h
        exact ⟨h1, h2, h3⟩
      · exact ih _ _ _ _ (le_trans h1 hb.1) hb.2 h3 h
    · rw [beckmann_loop_exit _ _ _ _ _ _ _ _ _ _ _ _ _ hg] at h
      simp only [Option.some.injEq] at h
      subst h
      exact ⟨h1, h2, h3⟩

theorem beckmann_sample_eq (exp expf logf sqrtf cosf sinf : K → K) (fuel : Nat)
    (theta_i U U_2 : K) (hθ : 13743895 / 2 ^ 37 ≤ theta_i)
    (hpa : 13743895 / 2 ^ 37 ≤ 0.5 * (serf exp (cosf theta_i / sinf theta_i) + 1) * cosf theta_i
      + INV_2_SQRT_M_PI * sinf theta_i
        * expf (-(cosf theta_i / sinf theta_i) * (cosf theta_i / sinf theta_i))) :
    MicrosurfaceSlopeBeckmann.sampleP22_11 exp expf logf sqrtf cosf sinf fuel theta_i U U_2
      = (MicrosurfaceSlopeBeckmann.sampleP22_11_loop exp expf logf sqrtf (sinf theta_i)
          (cosf theta_i) (cosf theta_i / sinf theta_i)
          (1 / (0.5 * (serf exp (cosf theta_i / sinf theta_i) + 1) * cosf theta_i
            + INV_2_SQRT_M_PI * sinf theta_i
              * expf (-(cosf theta_i / sinf theta_i) * (cosf theta_i / sinf theta_i))))
          U fuel (-0.9999) (max (-0.9999) (serf exp (cosf theta_i / sinf theta_i)))
          (0.5 * (-0.9999 + max (-0.9999) (serf exp (cosf theta_i / sinf theta_i))))).map
        (fun s => ⟨serfinv logf sqrtf (min s.2.1 (max s.1 s.2.2)),
          serfinv logf sqrtf (2 * U_2 - 1)⟩) := by
  have h1 : ¬ theta_i < lit (13743895 / 2 ^ 37) := by
    simp only [lit]
    push_cast
    exact not_lt.mpr hθ
  have e05 : (lit 0.5 : K) = 0.5 := by simp only [lit]; push_cast; rfl
  have e10 : (lit 1.0 : K) = 1 := by simp only [lit]; norm_num
  have e20 : (lit 2.0 : K) = 2 := by simp only [lit]; norm_num
  have e9 : (lit 0.9999 : K) = 0.9999 := by simp only [lit]; push_cast; rfl
  have e4 : (lit (13743895 / 2 ^ 37) : K) = 13743895 / 2 ^ 37 := by
    simp only [lit]; push_cast; rfl
  simp only [MicrosurfaceSlopeBeckmann.sampleP22_11, if_neg h1, stdmax_eq_max, stdmin_eq_min]
  rw [e05, e10, e20, e9, e4]
  have h2 : ((0.5 * (serf exp (cosf theta_i / sinf theta_i) + 1) * cosf theta_i
      + INV_2_SQRT_M_PI * sinf theta_i
        * expf (-(cosf theta_i / sinf theta_i) * (cosf theta_i / sinf theta_i))
        < 13743895 / 2 ^ 37
      || 0.5 * (serf exp (cosf theta_i / sinf theta_i) + 1) * cosf theta_i
      + INV_2_SQRT_M_PI * sinf theta_i
        * expf (-(cosf theta_i / sinf theta_i) * (cosf theta_i / sinf theta_i))
      != 0.5 * (serf exp (cosf theta_i / sinf theta_i) + 1) * cosf theta_i
      + INV_2_SQRT_M_PI * sinf theta_i
        * expf (-(cosf theta_i / sinf theta_i) * (cosf theta_i / sinf theta_i))) = true) ↔ False := by
    simp only [Bool.or_eq_true, decide_eq_true_eq, bne_self_eq_false, Bool.false_eq_true,
      or_false, iff_false, not_lt]
    exact hpa
  simp only [h2, if_false]
  cases MicrosurfaceSlopeBeckmann.sampleP22_11_loop exp expf logf sqrtf (sinf theta_i)
      (cosf theta_i) (cosf theta_i / sinf theta_i)
      (1 / (0.5 * (serf exp (cosf theta_i / sinf theta_i) + 1) * cosf theta_i
        + INV_2_SQRT_M_PI * sinf theta_i
          * expf (-(cosf theta_i / sinf theta_i) * (cosf theta_i / sinf theta_i))))
      U fuel (-0.9999) (max (-0.9999) (serf exp (cosf theta_i / sinf theta_i)))
      (0.5 * (-0.9999 + max (-0.9999) (serf exp (cosf theta_i / sinf theta_i)))) <;> rfl

/-- C28. The Beckmann visible-slope search stays in its initial bracket: for `theta_i ≥ 1e-4`
with projected area `≥ 1e-4` and any `U`, whenever `sampleP22_11` returns (the loop exits within
the fuel), the loop ends in a state with
`-0.9999 ≤ serf_min ≤ serf_max ≤ max (-0.9999) (serf (cos theta_i / sin theta_i))`, the returned
`slope.x` is `serfinv s` for the clamped estimate `s = min serf_max (max serf_min serf_current)`,
which lies between `serf_min` and `serf_max` and so in the initial bracket, and
`slope.y = serfinv (2 * U_2 - 1)`.  This holds whatever functions stand for the math library. -/
theorem beckmann_slope_search_bracket (exp expf logf sqrtf cosf sinf : K → K) (fuel : Nat)
    (theta_i U U_2 : K) (slope : Vector2f K) (hθ : 0.0001 ≤ theta_i)
    (hpa : 0.0001 ≤ 0.5 * (serf exp (cosf theta_i / sinf theta_i) + 1) * cosf theta_i
      + INV_2_SQRT_M_PI * sinf theta_i
        * expf (-(cosf theta_i / sinf theta_i) * (cosf theta_i / sinf theta_i)))
    (hret : MicrosurfaceSlopeBeckmann.sampleP22_11 exp expf logf sqrtf cosf sinf fuel theta_i U
      U_2 = some slope) :
    ∃ serf_min serf_max serf_current : K,
      MicrosurfaceSlopeBeckmann.sampleP22_11_loop exp expf logf sqrtf (sinf theta_i)
          (cosf theta_i) (cosf theta_i / sinf theta_i)
          (1 / (0.5 * (serf exp (cosf theta_i / sinf theta_i) + 1) * cosf theta_i
            + INV_2_SQRT_M_PI * sinf theta_i
              * expf (-(cosf theta_i / sinf theta_i) * (cosf theta_i / sinf theta_i))))
          U fuel (-0.9999) (max (-0.9999) (serf exp (cosf theta_i / sinf theta_i)))
          (0.5 * (-0.9999 + max (-0.9999) (serf exp (cosf theta_i / sinf theta_i))))
        = some (serf_min, serf_max, serf_current) ∧
      -0.9999 ≤ serf_min ∧ serf_min ≤ serf_max ∧
      serf_max ≤ max (-0.9999) (serf exp (cosf theta_i / sinf theta_i)) ∧
      serf_min ≤ min serf_max (max serf_min serf_current) ∧
      min serf_max (max serf_min serf_current) ≤ serf_max ∧
      -0.9999 ≤ min serf_max (max serf_min serf_current) ∧
      min serf_max (max serf_min serf_current)
        ≤ max (-0.9999) (serf exp (cosf theta_i / sinf theta_i)) ∧
      slope.x = serfinv logf sqrtf (min serf_max (max serf_min serf_current)) ∧
      slope.y = serfinv logf sqrtf (2 * U_2 - 1) := by
  have hT : (13743895 / 2 ^ 37 : K) ≤ 0.0001 := by norm_num
  rw [beckmann_sample_eq exp expf logf sqrtf cosf sinf fuel theta_i U U_2 (hT.trans hθ)
    (hT.trans hpa)] at hret
  rcases hl : MicrosurfaceSlopeBeckmann.sampleP22_11_loop exp expf logf sqrtf (sinf theta_i)
      (cosf theta_i) (cosf theta_i / sinf theta_i)
      (1 / (0.5 * (serf exp (cosf theta_i / sinf theta_i) + 1) * cosf theta_i
        + INV_2_SQRT_M_PI * sinf theta_i
          * expf (-(cosf theta_i / sinf theta_i) * (cosf theta_i / sinf theta_i))))
      U fuel (-0.9999) (max (-0.9999) (serf exp (cosf theta_i / sinf theta_i)))
      (0.5 * (-0.9999 + max (-0.9999) (serf exp (cosf theta_i / sinf theta_i))))
    with _ | ⟨smin, smax, scur⟩
  · rw [hl] at hret
    simp at hret
  · rw [hl] at hret
    simp only [Option.map_some', Option.some.injEq] at hret
    have hb := beckmann_loop_bracket exp expf logf sqrtf _ _ _ _ U (-0.9999)
      (max (-0.9999) (serf exp (cosf theta_i / sinf theta_i))) fuel _ _ _ _ (le_refl _)
      (le_max_left _ _) (le_refl _) hl
    refine ⟨smin, smax, scur, rfl, hb.1, hb.2.1, hb.2.2, le_min hb.2.1 (le_max_left _ _),
      min_le_left _ _, le_trans hb.1 (le_min hb.2.1 (le_max_left _ _)),
      le_trans (min_le_left _ _) hb.2.2, ?_, ?_⟩
    · rw [← hret]
    · rw [← hret]

theorem serfinv_central_eq (x : ℝ) (h : -Real.log ((1 - x) * (1 + x)) < 5) :
    serfinv Real.log Real.sqrt x
      = serfinvCentral (-Real.log ((1 - x) * (1 + x)) - 2.5) * x := by
  have e1 : (lit 1.0 : ℝ) = 1 := by simp only [lit]; norm_num
  have e5 : (lit 5.000000 : ℝ) = 5 := by simp only [lit]; norm_num
  have e25 : (lit 2.500000 : ℝ) = 2.5 := by simp only [lit]; norm_num
  simp only [serfinv, e1, e5, e25]
  rw [if_pos h]
  rfl

theorem horner_step (c M B L d x y hx hy : ℝ) (hxM : |x| ≤ M) (hyM : |y| ≤ M)
    (hd : |y - x| ≤ d) (hB : |hy| ≤ B) (hL : |hy - hx| ≤ L * d) (hL0 : 0 ≤ L) (hd0 : 0 ≤ d) :
    |c + hy * y| ≤ |c| + B * M ∧ |(c + hy * y) - (c + hx * x)| ≤ (B + L * M) * d := by
  have hM0 : 0 ≤ M := le_trans (abs_nonneg _) hxM
  have hB0 : 0 ≤ B := le_trans (abs_nonneg _) hB
  constructor
  · calc |c + hy * y| ≤ |c| + |hy * y| := abs_add _ _
      _ = |c| + |hy| * |y| := by rw [abs_mul]
      _ ≤ |c| + B * M := by
        have := mul_le_mul hB hyM (abs_nonneg _) hB0
        linarith
  · have e : (c + hy * y) - (c + hx * x) = hy * (y - x) + (hy - hx) * x := by ring
    rw [e]
    calc |hy * (y - x) + (hy - hx) * x| ≤ |hy * (y - x)| + |(hy - hx) * x| := abs_add _ _
      _ = |hy| * |y - x| + |hy - hx| * |x| := by rw [abs_mul, abs_mul]
      _ ≤ B * d + (L * d) * M := by
        have h1 := mul_le_mul hB hd (abs_nonneg _) hB0
        have h2 := mul_le_mul hL hxM (abs_nonneg _) (mul_nonneg hL0 hd0)
        linarith
      _ = (B + L * M) * d := by ring

theorem serfinvCentral_lipschitz (x y : ℝ) (hx : |x| ≤ 2.26) (hy : |y| ≤ 2.26) :
    |serfinvCentral y - serfinvCentral x| ≤ 0.3 * |y - x| := by
  have hd0 : 0 ≤ |y - x| := abs_nonneg _
  have s8 : |(2.81022636e-08 : ℝ)| ≤ 2.81022636e-08
      ∧ |(2.81022636e-08 : ℝ) - 2.81022636e-08| ≤ 0 * |y - x| := by
    constructor
    · rw [abs_of_pos (by norm_num)]
    · simp
  have s7 := horner_step 3.43273939e-07 2.26 _ _ _ x y _ _ hx hy le_rfl s8.1 s8.2 le_rfl hd0
  have s6 := horner_step (-3.5233877e-06) 2.26 _ _ _ x y _ _ hx hy le_rfl s7.1 s7.2
    (by positivity) hd0
  have s5 := horner_step (-4.39150654e-06) 2.26 _ _ _ x y _ _ hx hy le_rfl s6.1 s6.2
    (by positivity) hd0
  have s4 := horner_step 0.00021858087 2.26 _ _ _ x y _ _ hx hy le_rfl s5.1 s5.2
    (by positivity) hd0
  have s3 := horner_step (-0.00125372503) 2.26 _ _ _ x y _ _ hx hy le_rfl s4.1 s4.2
    (by positivity) hd0
  have s2 := horner_step (-0.00417768164) 2.26 _ _ _ x y _ _ hx hy le_rfl s3.1 s3.2
    (by positivity) hd0
  have s1 := horner_step 0.246640727 2.26 _ _ _ x y _ _ hx hy le_rfl s2.1 s2.2
    (by positivity) hd0
  have s0 := horner_step 1.50140941 2.26 _ _ _ x y _ _ hx hy le_rfl s1.1 s1.2
    (by positivity) hd0
  have h := s0.2
  have e : ∀ v : ℝ, serfinvCentral v = 1.50140941 + (0.246640727 + (-0.00417768164
      + (-0.00125372503 + (0.00021858087 + (-4.39150654e-06 + (-3.5233877e-06
      + (3.43273939e-07 + 2.81022636e-08 * v) * v) * v) * v) * v) * v) * v) * v := by
    intro v
    simp only [serfinvCentral, lit]
    push_cast
    rfl
  rw [e, e]
  refine le_trans h ?_
  apply mul_le_mul_of_nonneg_right _ hd0
  norm_num [abs_of_pos, abs_of_neg]

theorem serfinv_arg_bounds (e : ℝ) (h0 : 0.49 ≤ -e) (h1 : -e ≤ 0.51) :
    0 < (1 - e) * (1 + e) ∧ 0.24 ≤ -Real.log ((1 - e) * (1 + e))
      ∧ -Real.log ((1 - e) * (1 + e)) ≤ 0.36 := by
  have hx0 : 0.7399 ≤ (1 - e) * (1 + e) := by nlinarith
  have hx1 : (1 - e) * (1 + e) ≤ 0.7599 := by nlinarith
  have hpos : 0 < (1 - e) * (1 + e) := by linarith
  refine ⟨hpos, ?_, ?_⟩
  · have := Real.log_le_sub_one_of_pos hpos
    linarith
  · have := Real.one_sub_inv_le_log_of_pos hpos
    have hi : ((1 - e) * (1 + e))⁻¹ ≤ 1.36 := by
      rw [inv_le_comm₀ hpos (by norm_num)]
      norm_num
      linarith
    linarith

theorem serfinvCentral_range (v : ℝ) (h0 : -2.26 ≤ v) (h1 : v ≤ -2.14) :
    0.938 ≤ serfinvCentral v ∧ serfinvCentral v ≤ 0.975 := by
  have hl := serfinvCentral_lipschitz (-2.2) v (by rw [abs_of_neg] <;> norm_num)
    (by rw [abs_of_neg] <;> linarith)
  have e : serfinvCentral (-2.2 : ℝ) = 1868762736121374400933 / 1953125000000000000000 := by
    simp only [serfinvCentral, lit]
    norm_num
  have hd : |v - -2.2| ≤ 0.06 := by
    rw [abs_le]
    constructor <;> linarith
  rw [e, abs_le] at hl
  constructor <;> linarith [hl.1, hl.2]

theorem exp_neg_sub_exp_neg (a b : ℝ) (ha : 0 ≤ a) (hab : a < b) :
    0 < Real.exp (-a) - Real.exp (-b) ∧ Real.exp (-a) - Real.exp (-b) ≤ b - a := by
  have h1 : Real.exp (-b) < Real.exp (-a) := Real.exp_lt_exp.mpr (by linarith)
  have h2 : Real.exp (-a) ≤ 1 := by
    rw [← Real.exp_zero]
    exact Real.exp_le_exp.mpr (by linarith)
  have h3 : Real.exp (-b) = Real.exp (-a) * Real.exp (-(b - a)) := by
    rw [← Real.exp_add]
    congr 1
    ring
  have h4 := Real.add_one_le_exp (-(b - a))
  have h5 := Real.exp_pos (-a)
  refine ⟨by linarith, ?_⟩
  rw [h3]
  nlinarith

theorem newton_step_bounds (a η P₁ P₂ c τ : ℝ) (ha0 : 0.49 ≤ a) (ha1 : a ≤ 0.5) (hη0 : 0 < η)
    (hτ : τ ≤ 0.00001) (hητ : η ≤ 1.3 * τ)
    (hP₁0 : 0.938 ≤ P₁) (hP₂0 : 0.938 ≤ P₂) (hP₂1 : P₂ ≤ 0.975)
    (hPd : |P₂ - P₁| ≤ 0.41 * η) (hc : η * (P₁ * a) = c) (hcτ : c ≤ 0.57 * τ) :
    P₂ * (-a - η) < P₁ * (-a) ∧ P₁ * (-a) < 0 ∧
      (P₂ * (-a - η)) * (P₂ * (-a - η)) - (P₁ * (-a)) * (P₁ * (-a)) < 2 * τ := by
  obtain ⟨hd0, hd1⟩ := abs_le.mp hPd
  have hτ0 : 0 < τ := by linarith
  -- the increment of `-s`
  have hδ : P₂ * (a + η) - P₁ * a = P₂ * η + (P₂ - P₁) * a := by ring
  have ha : 0 ≤ a := by linarith
  have hq1 : -(0.41 * η) * a ≤ (P₂ - P₁) * a := mul_le_mul_of_nonneg_right hd0 ha
  have hq2 : (P₂ - P₁) * a ≤ 0.41 * η * a := mul_le_mul_of_nonneg_right hd1 ha
  have hq3 : 0.41 * η * a ≤ 0.41 * η * 0.5 :=
    mul_le_mul_of_nonneg_left ha1 (by linarith)
  have hq4 : 0.938 * η ≤ P₂ * η := mul_le_mul_of_nonneg_right hP₂0 hη0.le
  have hq5 : P₂ * η ≤ 0.975 * η := mul_le_mul_of_nonneg_right hP₂1 hη0.le
  have hδ0 : 0.7 * η ≤ P₂ * (a + η) - P₁ * a := by
    rw [hδ]
    linarith
  have hδ1 : P₂ * (a + η) - P₁ * a ≤ 1.18 * η := by
    rw [hδ]
    linarith
  have hpa : 0 < P₁ * a := mul_pos (by linarith) (by linarith)
  refine ⟨by linarith, by linarith, ?_⟩
  have e : (P₂ * (-a - η)) * (P₂ * (-a - η)) - (P₁ * (-a)) * (P₁ * (-a))
      = (P₂ * (a + η) - P₁ * a) * (2 * (P₁ * a) + (P₂ * (a + η) - P₁ * a)) := by ring
  rw [e]
  have h1 : (P₂ * (a + η) - P₁ * a) * (2 * (P₁ * a) + (P₂ * (a + η) - P₁ * a))
      ≤ 1.18 * η * (2 * (P₁ * a) + 1.18 * η) := by
    exact mul_le_mul hδ1 (by linarith) (by linarith) (by linarith)
  have h2 : 1.18 * η * (2 * (P₁ * a) + 1.18 * η) = 2.36 * c + 1.3924 * (η * η) := by
    rw [← hc]
    ring
  have h3 : η * η ≤ 1.3 * τ * (1.3 * τ) := mul_le_mul hητ hητ hη0.le (by linarith)
  have h4 : τ * τ ≤ 0.00001 * τ := mul_le_mul_of_nonneg_right hτ hτ0.le
  have h5 : 1.3 * τ * (1.3 * τ) = 1.69 * (τ * τ) := by ring
  linarith

set_option maxHeartbeats 1600000 in
theorem beckmann_horizon_step :
    serfinv Real.log Real.sqrt (-0.4999499995) < 0 ∧
      -0.9999 ≤ -0.4999499995 + 2 * 0.28209479177387814347 * (2748779 / 2 ^ 38)
        / serfinv Real.log Real.sqrt (-0.4999499995) ∧
      -0.4999499995 + 2 * 0.28209479177387814347 * (2748779 / 2 ^ 38)
        / serfinv Real.log Real.sqrt (-0.4999499995) < -0.4999499995 ∧
      serfinv Real.log Real.sqrt (-0.4999499995 + 2 * 0.28209479177387814347
        * (2748779 / 2 ^ 38) / serfinv Real.log Real.sqrt (-0.4999499995)) < 0 ∧
      |Real.exp (-serfinv Real.log Real.sqrt (-0.4999499995 + 2 * 0.28209479177387814347
            * (2748779 / 2 ^ 38) / serfinv Real.log Real.sqrt (-0.4999499995))
          * serfinv Real.log Real.sqrt (-0.4999499995 + 2 * 0.28209479177387814347
            * (2748779 / 2 ^ 38) / serfinv Real.log Real.sqrt (-0.4999499995)))
        - (Real.exp (-serfinv Real.log Real.sqrt (-0.4999499995)
            * serfinv Real.log Real.sqrt (-0.4999499995)) - 2748779 / 2 ^ 38)|
        < 2748779 / 2 ^ 38 ∧
      0 < Real.exp (-serfinv Real.log Real.sqrt (-0.4999499995)
            * serfinv Real.log Real.sqrt (-0.4999499995)) - 2748779 / 2 ^ 38 ∧
      Real.exp (-serfinv Real.log Real.sqrt (-0.4999499995)
            * serfinv Real.log Real.sqrt (-0.4999499995)) - 2748779 / 2 ^ 38 < 1 := by
  -- the first estimate
  obtain ⟨hx₁, hw₁0, hw₁1⟩ := serfinv_arg_bounds (-0.4999499995) (by norm_num) (by norm_num)
  have hs₁ := serfinv_central_eq (-0.4999499995) (by linarith)
  obtain ⟨hP₁0, hP₁1⟩ := serfinvCentral_range
    (-Real.log ((1 - -0.4999499995) * (1 + -0.4999499995)) - 2.5) (by linarith) (by linarith)
  have hlip : ∀ y : ℝ, |y| ≤ 2.26 →
      |serfinvCentral y
          - serfinvCentral (-Real.log ((1 - -0.4999499995) * (1 + -0.4999499995)) - 2.5)|
        ≤ 0.3 * |y - (-Real.log ((1 - -0.4999499995) * (1 + -0.4999499995)) - 2.5)| :=
    fun y hy => serfinvCentral_lipschitz _ y (by rw [abs_le]; constructor <;> linarith) hy
  generalize serfinvCentral
    (-Real.log ((1 - -0.4999499995) * (1 + -0.4999499995)) - 2.5) = P₁
    at hs₁ hP₁0 hP₁1 hlip
  have hs₁' : serfinv Real.log Real.sqrt (-0.4999499995) = P₁ * -0.4999499995 := hs₁
  -- the Newton step
  have hpa : 0 < P₁ * 0.4999499995 := mul_pos (by linarith) (by norm_num)
  obtain ⟨η, hη⟩ : ∃ η : ℝ, η = 2 * 0.28209479177387814347 * (2748779 / 2 ^ 38)
      / (P₁ * 0.4999499995) := ⟨_, rfl⟩
  have hηc : η * (P₁ * 0.4999499995) = 2 * 0.28209479177387814347 * (2748779 / 2 ^ 38) := by
    rw [hη]
    field_simp
    ring
  have hη0 : 0 < η := by
    rw [hη]
    positivity
  have hη1 : η ≤ 1.3 * (2748779 / 2 ^ 38) := by
    have h1 : 0.46 ≤ P₁ * 0.4999499995 := by nlinarith
    have h2 : η * 0.46 ≤ η * (P₁ * 0.4999499995) := mul_le_mul_of_nonneg_left h1 hη0.le
    rw [hηc] at h2
    norm_num at h2 ⊢
    linarith
  have he₂ : -0.4999499995 + 2 * 0.28209479177387814347 * (2748779 / 2 ^ 38)
      / serfinv Real.log Real.sqrt (-0.4999499995) = -0.4999499995 - η := by
    rw [hs₁', hη]
    field_simp
    ring
  rw [he₂, hs₁']
  have hη2 : η ≤ 0.00002 := by
    norm_num at hη1 ⊢
    linarith
  -- the second estimate
  obtain ⟨hx₂, hw₂0, hw₂1⟩ := serfinv_arg_bounds (-0.4999499995 - η) (by norm_num; linarith)
    (by norm_num; linarith)
  have hs₂ := serfinv_central_eq (-0.4999499995 - η) (by linarith)
  obtain ⟨hP₂0, hP₂1⟩ := serfinvCentral_range
    (-Real.log ((1 - (-0.4999499995 - η)) * (1 + (-0.4999499995 - η))) - 2.5) (by linarith)
    (by linarith)
  have hlip' := hlip _ (by rw [abs_le]; constructor <;> linarith :
    |-Real.log ((1 - (-0.4999499995 - η)) * (1 + (-0.4999499995 - η))) - 2.5| ≤ 2.26)
  generalize serfinvCentral
    (-Real.log ((1 - (-0.4999499995 - η)) * (1 + (-0.4999499995 - η))) - 2.5) = P₂
    at hs₂ hP₂0 hP₂1 hlip'
  -- the two arguments of the polynomial are close
  have hxx : (1 - (-0.4999499995 - η)) * (1 + (-0.4999499995 - η))
      ≤ (1 - -0.4999499995) * (1 + -0.4999499995) := by nlinarith
  have hlog := Real.log_le_log hx₂ hxx
  have hq : Real.log ((1 - -0.4999499995) * (1 + -0.4999499995))
      - Real.log ((1 - (-0.4999499995 - η)) * (1 + (-0.4999499995 - η))) ≤ 1.36 * η := by
    rw [← Real.log_div hx₁.ne' hx₂.ne']
    have h1 := Real.log_le_sub_one_of_pos (div_pos hx₁ hx₂)
    have h2 : (1 - -0.4999499995) * (1 + -0.4999499995)
        / ((1 - (-0.4999499995 - η)) * (1 + (-0.4999499995 - η))) - 1 ≤ 1.36 * η := by
      rw [sub_le_iff_le_add, div_le_iff₀ hx₂]
      nlinarith
    linarith
  have hPd : |P₂ - P₁| ≤ 0.41 * η := by
    refine le_trans hlip' ?_
    rw [abs_of_nonneg (by linarith)]
    linarith
  rw [hs₂]
  have hN := newton_step_bounds 0.4999499995 η P₁ P₂ _ (2748779 / 2 ^ 38) (by norm_num)
    (by norm_num) hη0 (by norm_num) hη1 hP₁0 hP₂0 hP₂1 hPd hηc (by norm_num)
  have e₁ : P₁ * -0.4999499995 = P₁ * (-0.4999499995) := rfl
  have e₂ : P₂ * (-0.4999499995 - η) = P₂ * (-0.4999499995 - η) := rfl
  obtain ⟨hN1, hN2, hN3⟩ := hN
  have hsq₁ : 0 ≤ P₁ * -0.4999499995 * (P₁ * -0.4999499995) := mul_self_nonneg _
  have hE := exp_neg_sub_exp_neg (P₁ * -0.4999499995 * (P₁ * -0.4999499995))
    (P₂ * (-0.4999499995 - η) * (P₂ * (-0.4999499995 - η))) hsq₁ (by nlinarith)
  have hn₁ : -(P₁ * -0.4999499995) * (P₁ * -0.4999499995)
      = -(P₁ * -0.4999499995 * (P₁ * -0.4999499995)) := by ring
  have hn₂ : -(P₂ * (-0.4999499995 - η)) * (P₂ * (-0.4999499995 - η))
      = -(P₂ * (-0.4999499995 - η) * (P₂ * (-0.4999499995 - η))) := by ring
  rw [hn₁, hn₂]
  have hs1sq : P₁ * -0.4999499995 * (P₁ * -0.4999499995) ≤ 0.24 := by nlinarith
  have hexp := Real.add_one_le_exp (-(P₁ * -0.4999499995 * (P₁ * -0.4999499995)))
  have hexp1 : Real.exp (-(P₁ * -0.4999499995 * (P₁ * -0.4999499995))) ≤ 1 := by
    rw [← Real.exp_zero]
    exact Real.exp_le_exp.mpr (by linarith)
  refine ⟨hN2, by norm_num; linarith, by linarith, by linarith, ?_, ?_, ?_⟩
  · rw [abs_lt]
    constructor <;> linarith [hE.1, hE.2]
  · norm_num at hexp ⊢
    linarith
  · have hτ : (0 : ℝ) < 2748779 / 2 ^ 38 := by positivity
    linarith

theorem beckmann_loop_two_steps (exp expf logf sqrtf : K → K)
    (sin_theta_i cos_theta_i slope_i c U smax e₁ e₂ : K)
    (hg₁ : smax - -(lit 0.9999) > lit (2748779 / 2 ^ 38))
    (hb₁ : -(lit 0.9999) ≤ e₁) (hb₁' : e₁ ≤ smax) (hne : smax ≠ e₁)
    (hs₁ : ¬ serfinv logf sqrtf e₁ ≥ slope_i)
    (hd₁ : c * (INV_2_SQRT_M_PI * sin_theta_i
          * expf (-serfinv logf sqrtf e₁ * serfinv logf sqrtf e₁)
        + cos_theta_i * (lit 0.5 + lit 0.5 * serf exp (serfinv logf sqrtf e₁))) - U
      = lit (2748779 / 2 ^ 38))
    (he₂ : e₂ = e₁ - lit (2748779 / 2 ^ 38) / (lit 0.5 * c * cos_theta_i
      - lit 0.5 * c * sin_theta_i * serfinv logf sqrtf e₁))
    (hg₂ : e₁ - -(lit 0.9999) > lit (2748779 / 2 ^ 38))
    (hb₂ : -(lit 0.9999) ≤ e₂) (hb₂' : e₂ ≤ e₁)
    (hs₂ : ¬ serfinv logf sqrtf e₂ ≥ slope_i)
    (hd₂ : |c * (INV_2_SQRT_M_PI * sin_theta_i
          * expf (-serfinv logf sqrtf e₂ * serfinv logf sqrtf e₂)
        + cos_theta_i * (lit 0.5 + lit 0.5 * serf exp (serfinv logf sqrtf e₂))) - U|
      < lit (2748779 / 2 ^ 38)) :
    MicrosurfaceSlopeBeckmann.sampleP22_11_loop exp expf logf sqrtf sin_theta_i cos_theta_i
      slope_i c U 2 (-(lit 0.9999)) smax e₁ = some (-(lit 0.9999), e₁, e₂) := by
  have hτ : (0 : K) < lit (2748779 / 2 ^ 38) := by
    simp only [lit]
    push_cast
    positivity
  have hin : ∀ lo hi x : K, lo ≤ x → x ≤ hi →
      (if !(decide (x ≥ lo) && decide (x ≤ hi)) then lit 0.5 * (lo + hi) else x) = x := by
    intro lo hi x h1 h2
    simp [h1, h2]
  rw [beckmann_loop_step exp expf logf sqrtf sin_theta_i cos_theta_i slope_i c U 1
    (-(lit 0.9999)) smax e₁ e₁ (lit (2748779 / 2 ^ 38)) hg₁ (hin _ _ _ hb₁ hb₁').symm
    (by rw [if_neg hs₁, hd₁])]
  rw [if_neg (by rw [fabsf_eq_abs, abs_of_pos hτ]; exact lt_irrefl _),
    if_pos (by simp only [lit] at hτ ⊢; push_cast at hτ ⊢; linarith),
    if_neg (by simpa using hne), ← he₂]
  rw [beckmann_loop_step exp expf logf sqrtf sin_theta_i cos_theta_i slope_i c U 0
    (-(lit 0.9999)) e₁ e₂ e₂ _ hg₂ (hin _ _ _ hb₂ hb₂').symm rfl]
  rw [if_neg hs₂, if_pos (by rw [fabsf_eq_abs]; exact hd₂)]

theorem serf_zero : serf Real.exp (0 : ℝ) = 1e-9 := by
  simp only [serf, fabsf, lit]
  norm_num

theorem beckmann_slope_search_bracket_witness :
    ∃ (slope : Vector2f ℝ) (serf_min serf_max serf_current : ℝ),
      MicrosurfaceSlopeBeckmann.sampleP22_11 Real.exp Real.exp Real.log Real.sqrt Real.cos
          Real.sin 2 (Real.pi / 2)
          (Real.exp (-serfinv Real.log Real.sqrt (-0.4999499995)
            * serfinv Real.log Real.sqrt (-0.4999499995)) - 2748779 / 2 ^ 38) (1 / 2)
        = some slope ∧
      MicrosurfaceSlopeBeckmann.sampleP22_11_loop Real.exp Real.exp Real.log Real.sqrt
          (Real.sin (Real.pi / 2)) (Real.cos (Real.pi / 2))
          (Real.cos (Real.pi / 2) / Real.sin (Real.pi / 2))
          (1 / (0.5 * (serf Real.exp (Real.cos (Real.pi / 2) / Real.sin (Real.pi / 2)) + 1)
              * Real.cos (Real.pi / 2)
            + INV_2_SQRT_M_PI * Real.sin (Real.pi / 2)
              * Real.exp (-(Real.cos (Real.pi / 2) / Real.sin (Real.pi / 2))
                * (Real.cos (Real.pi / 2) / Real.sin (Real.pi / 2)))))
          (Real.exp (-serfinv Real.log Real.sqrt (-0.4999499995)
            * serfinv Real.log Real.sqrt (-0.4999499995)) - 2748779 / 2 ^ 38) 2 (-0.9999)
          (max (-0.9999) (serf Real.exp (Real.cos (Real.pi / 2) / Real.sin (Real.pi / 2))))
          (0.5 * (-0.9999
            + max (-0.9999) (serf Real.exp (Real.cos (Real.pi / 2) / Real.sin (Real.pi / 2)))))
        = some (serf_min, serf_max, serf_current) ∧
      serf_max = -0.4999499995 ∧
      serf_max < max (-0.9999) (serf Real.exp (Real.cos (Real.pi / 2) / Real.sin (Real.pi / 2))) ∧
      serf_current < serf_max ∧
      -0.9999 ≤ serf_min ∧ serf_min ≤ serf_max ∧
      -0.9999 ≤ min serf_max (max serf_min serf_current) ∧
      min serf_max (max serf_min serf_current)
        ≤ max (-0.9999) (serf Real.exp (Real.cos (Real.pi / 2) / Real.sin (Real.pi / 2))) ∧
      slope.x = serfinv Real.log Real.sqrt (min serf_max (max serf_min serf_current)) ∧
      slope.y = serfinv Real.log Real.sqrt (2 * (1 / 2) - 1) ∧
      0 < Real.exp (-serfinv Real.log Real.sqrt (-0.4999499995)
            * serfinv Real.log Real.sqrt (-0.4999499995)) - 2748779 / 2 ^ 38 ∧
      Real.exp (-serfinv Real.log Real.sqrt (-0.4999499995)
            * serfinv Real.log Real.sqrt (-0.4999499995)) - 2748779 / 2 ^ 38 < 1 := by
  obtain ⟨H1, H2, H3, H4, H5, H6, H7⟩ := beckmann_horizon_step
  have e9 : (lit 0.9999 : ℝ) = 0.9999 := by simp only [lit]; push_cast; rfl
  have e5 : (lit 0.5 : ℝ) = 0.5 := by simp only [lit]; push_cast; rfl
  have eτ : (lit (2748779 / 2 ^ 38) : ℝ) = 2748779 / 2 ^ 38 := by
    simp only [lit]; push_cast; rfl
  have ek : (INV_2_SQRT_M_PI : ℝ) = 0.28209479177387814347 := by
    simp only [INV_2_SQRT_M_PI, lit]; push_cast; rfl
  have hk : (INV_2_SQRT_M_PI : ℝ) ≠ 0 := by rw [ek]; norm_num
  have hmax : max (-0.9999) (serf Real.exp (Real.cos (Real.pi / 2) / Real.sin (Real.pi / 2)))
      = 1e-9 := by
    rw [Real.cos_pi_div_two, zero_div, serf_zero]
    norm_num
  have hc : 0.5 * (serf Real.exp (Real.cos (Real.pi / 2) / Real.sin (Real.pi / 2)) + 1)
        * Real.cos (Real.pi / 2)
      + INV_2_SQRT_M_PI * Real.sin (Real.pi / 2)
        * Real.exp (-(Real.cos (Real.pi / 2) / Real.sin (Real.pi / 2))
          * (Real.cos (Real.pi / 2) / Real.sin (Real.pi / 2))) = INV_2_SQRT_M_PI := by
    rw [Real.cos_pi_div_two, Real.sin_pi_div_two]
    simp
  have hloop := beckmann_loop_two_steps Real.exp Real.exp Real.log Real.sqrt 1 0 0
    (1 / INV_2_SQRT_M_PI)
    (Real.exp (-serfinv Real.log Real.sqrt (-0.4999499995)
      * serfinv Real.log Real.sqrt (-0.4999499995)) - 2748779 / 2 ^ 38)
    1e-9 (-0.4999499995)
    (-0.4999499995 + 2 * 0.28209479177387814347 * (2748779 / 2 ^ 38)
        / serfinv Real.log Real.sqrt (-0.4999499995))
    (by rw [e9, eτ]; norm_num) (by rw [e9]; norm_num) (by norm_num) (by norm_num)
    (not_le.mpr H1)
    (by rw [eτ]; field_simp)
    (by rw [eτ, e5, ek]; field_simp; ring)
    (by rw [e9, eτ]; norm_num) (by rw [e9]; exact H2) H3.le (not_le.mpr H4)
    (by
      rw [eτ]
      have e : 1 / INV_2_SQRT_M_PI * (INV_2_SQRT_M_PI * 1
            * Real.exp (-serfinv Real.log Real.sqrt (-0.4999499995
                + 2 * 0.28209479177387814347 * (2748779 / 2 ^ 38)
                  / serfinv Real.log Real.sqrt (-0.4999499995))
              * serfinv Real.log Real.sqrt (-0.4999499995
                + 2 * 0.28209479177387814347 * (2748779 / 2 ^ 38)
                  / serfinv Real.log Real.sqrt (-0.4999499995)))
          + 0 * (lit 0.5 + lit 0.5 * serf Real.exp (serfinv Real.log Real.sqrt (-0.4999499995
                + 2 * 0.28209479177387814347 * (2748779 / 2 ^ 38)
                  / serfinv Real.log Real.sqrt (-0.4999499995)))))
          = Real.exp (-serfinv Real.log Real.sqrt (-0.4999499995
                + 2 * 0.28209479177387814347 * (2748779 / 2 ^ 38)
                  / serfinv Real.log Real.sqrt (-0.4999499995))
              * serfinv Real.log Real.sqrt (-0.4999499995
                + 2 * 0.28209479177387814347 * (2748779 / 2 ^ 38)
                  / serfinv Real.log Real.sqrt (-0.4999499995))) := by
        field_simp
      rw [e]
      exact H5)
  rw [e9] at hloop
  have hθ : (0.0001 : ℝ) ≤ Real.pi / 2 := by
    have := Real.pi_gt_three
    linarith
  have hpa : (0.0001 : ℝ) ≤ 0.5 * (serf Real.exp (Real.cos (Real.pi / 2)
        / Real.sin (Real.pi / 2)) + 1) * Real.cos (Real.pi / 2)
      + INV_2_SQRT_M_PI * Real.sin (Real.pi / 2)
        * Real.exp (-(Real.cos (Real.pi / 2) / Real.sin (Real.pi / 2))
          * (Real.cos (Real.pi / 2) / Real.sin (Real.pi / 2))) := by
    rw [hc, ek]
    norm_num
  have hl : MicrosurfaceSlopeBeckmann.sampleP22_11_loop Real.exp Real.exp Real.log Real.sqrt
          (Real.sin (Real.pi / 2)) (Real.cos (Real.pi / 2))
          (Real.cos (Real.pi / 2) / Real.sin (Real.pi / 2))
          (1 / (0.5 * (serf Real.exp (Real.cos (Real.pi / 2) / Real.sin (Real.pi / 2)) + 1)
              * Real.cos (Real.pi / 2)
            + INV_2_SQRT_M_PI * Real.sin (Real.pi / 2)
              * Real.exp (-(Real.cos (Real.pi / 2) / Real.sin (Real.pi / 2))
                * (Real.cos (Real.pi / 2) / Real.sin (Real.pi / 2)))))
          (Real.exp (-serfinv Real.log Real.sqrt (-0.4999499995)
            * serfinv Real.log Real.sqrt (-0.4999499995)) - 2748779 / 2 ^ 38) 2 (-0.9999)
          (max (-0.9999) (serf Real.exp (Real.cos (Real.pi / 2) / Real.sin (Real.pi / 2))))
          (0.5 * (-0.9999
            + max (-0.9999) (serf Real.exp (Real.cos (Real.pi / 2) / Real.sin (Real.pi / 2)))))
        = some (-0.9999, -0.4999499995,
          -0.4999499995 + 2 * 0.28209479177387814347 * (2748779 / 2 ^ 38)
            / serfinv Real.log Real.sqrt (-0.4999499995)) := by
    rw [hc, hmax, Real.cos_pi_div_two, Real.sin_pi_div_two, zero_div]
    rw [show (0.5 * (-0.9999 + 1e-9) : ℝ) = -0.4999499995 by norm_num]
    exact hloop
  have hT : (13743895 / 2 ^ 37 : ℝ) ≤ 0.0001 := by norm_num
  have hret := beckmann_sample_eq Real.exp Real.exp Real.log Real.sqrt Real.cos Real.sin 2
    (Real.pi / 2)
    (Real.exp (-serfinv Real.log Real.sqrt (-0.4999499995)
      * serfinv Real.log Real.sqrt (-0.4999499995)) - 2748779 / 2 ^ 38) (1 / 2)
    (hT.trans hθ) (hT.trans hpa)
  rw [hl, Option.map_some'] at hret
  obtain ⟨smin, smax, scur, hl', b1, b2, _, _, _, b6, b7, b8, b9⟩ :=
    beckmann_slope_search_bracket Real.exp Real.exp Real.log Real.sqrt Real.cos Real.sin 2
      (Real.pi / 2) _ (1 / 2) _ hθ hpa hret
  rw [hl] at hl'
  simp only [Option.some.injEq, Prod.mk.injEq] at hl'
  obtain ⟨rfl, rfl, rfl⟩ := hl'
  exact ⟨_, _, _, _, hret, hl, rfl, by rw [hmax]; norm_num, H3, b1, b2, b6, b7, b8, b9, H6, H7⟩

/-- C29 as stated fails at the near-normal threshold, which the code writes `0.0001f`: that
`float` is `13743895 / 2 ^ 37`, below `1e-4`.  For `theta_i = 0.0001f`, `U = 1/2` and `U_2 = 0`
the claimed slope is `sqrt (U / (1 - U)) * (cos 0, sin 0) = (1, 0)`, but the GGX sampler fails
the test `theta_i < 0.0001f` and takes its general branch, where `U_2 ≤ 0.5` gives `S = -1`,
`U2 = 1` and `z = 0.00357 / 0.000492`, so that `slope.y = -z * sqrt (1 + slope.x²) ≤ -7`. -/
theorem near_normal_threshold_counterexample :
    (13743895 / 2 ^ 37 : ℝ) < 0.0001 ∧
      Real.sqrt (1 / 2 / (1 - 1 / 2)) * Real.sin (6.28318530718 * 0) = 0 ∧
      (MicrosurfaceSlopeGGX.sampleP22_11 Real.sqrt Real.cos Real.sin (fun _ => false)
        (13743895 / 2 ^ 37) (1 / 2) 0).y ≤ -7 := by
  refine ⟨by norm_num, by simp, ?_⟩
  have hcos : 0 < Real.cos (13743895 / 2 ^ 37) := by
    apply Real.cos_pos_of_mem_Ioo
    have := Real.pi_gt_three
    constructor <;> norm_num <;> linarith
  have h1 : ¬ (13743895 / 2 ^ 37 : ℝ) < lit (13743895 / 2 ^ 37) := by
    simp only [lit]
    push_cast
    exact lt_irrefl _
  have h2 : ¬ ((lit 0.5 * (Real.cos (13743895 / 2 ^ 37) + lit 1.0) < lit (13743895 / 2 ^ 37)
      || lit 0.5 * (Real.cos (13743895 / 2 ^ 37) + lit 1.0)
        != lit 0.5 * (Real.cos (13743895 / 2 ^ 37) + lit 1.0)) = true) := by
    simp only [lit, Bool.or_eq_true, decide_eq_true_eq, bne_self_eq_false, Bool.false_eq_true,
      or_false, not_lt]
    push_cast
    norm_num
    linarith
  simp only [MicrosurfaceSlopeGGX.sampleP22_11]
  rw [if_neg h1, if_neg h2]
  have h3 : ¬ (0 : ℝ) > lit 0.5 := by
    simp only [lit]
    norm_num
  simp only [if_neg h3]
  have key : ∀ c z X : ℝ, c = 1 → 7 ≤ z → -c * z * Real.sqrt (c + X * X) ≤ -7 := by
    intro c z X hc hz
    subst hc
    have hs : 1 ≤ Real.sqrt (1 + X * X) :=
      Real.one_le_sqrt.mpr (by nlinarith [mul_self_nonneg X])
    nlinarith
  refine key _ _ _ ?_ ?_
  · simp only [lit]
    norm_num
  · simp only [lit]
    norm_num

/-- Amended C29. Near-normal slope sampling, for `theta_i` below the `float`
`0.0001f = 13743895 / 2 ^ 37` (which is less than `1e-4`): `sampleP22_11` returns
`r * (cos phi, sin phi)` with `phi = 6.28318530718 * U_2`, the source's constant for `2 π`, which
is within `1e-12 * |U_2|` of `2 π U_2`; for Beckmann `r = sqrt (-log U)`, so that `r ^ 2 = -log U`
and `exp (-r ^ 2) = U` for `U` in `(0, 1]`; for GGX `r = sqrt (U / (1 - U))`, so that
`r ^ 2 = U / (1 - U)` and `r ^ 2 / (1 + r ^ 2) = U` for `U` in `[0, 1)`. -/
theorem near_normal_slope_sampling (isinf : ℝ → Bool) (fuel : Nat) (theta_i U U_2 : ℝ)
    (hθ : theta_i < 13743895 / 2 ^ 37) :
    (MicrosurfaceSlopeBeckmann.sampleP22_11 Real.exp Real.exp Real.log Real.sqrt Real.cos
          Real.sin fuel theta_i U U_2
        = some ⟨Real.sqrt (-Real.log U) * Real.cos (6.28318530718 * U_2),
            Real.sqrt (-Real.log U) * Real.sin (6.28318530718 * U_2)⟩ ∧
      (0 < U → U ≤ 1 →
        Real.sqrt (-Real.log U) ^ 2 = -Real.log U ∧
        Real.exp (-Real.sqrt (-Real.log U) ^ 2) = U)) ∧
    (MicrosurfaceSlopeGGX.sampleP22_11 Real.sqrt Real.cos Real.sin isinf theta_i U U_2
        = ⟨Real.sqrt (U / (1 - U)) * Real.cos (6.28318530718 * U_2),
            Real.sqrt (U / (1 - U)) * Real.sin (6.28318530718 * U_2)⟩ ∧
      (0 ≤ U → U < 1 →
        Real.sqrt (U / (1 - U)) ^ 2 = U / (1 - U) ∧
        Real.sqrt (U / (1 - U)) ^ 2 / (1 + Real.sqrt (U / (1 - U)) ^ 2) = U)) ∧
    |(6.28318530718 : ℝ) * U_2 - 2 * Real.pi * U_2| ≤ 1e-12 * |U_2| := by
  have h1 : theta_i < lit (13743895 / 2 ^ 37) := by
    simp only [lit]
    push_cast
    exact hθ
  refine ⟨⟨?_, ?_⟩, ⟨?_, ?_⟩, ?_⟩
  · simp only [MicrosurfaceSlopeBeckmann.sampleP22_11]
    rw [if_pos h1]
    simp only [lit]
    push_cast
    rfl
  · intro h0 h1
    have hl : 0 ≤ -Real.log U := by
      have := Real.log_nonpos h0.le h1
      linarith
    rw [Real.sq_sqrt hl, neg_neg, Real.exp_log h0]
    exact ⟨rfl, rfl⟩
  · simp only [MicrosurfaceSlopeGGX.sampleP22_11]
    rw [if_pos h1]
    simp only [lit]
    push_cast
    norm_num
  · intro h0 h1
    have hd : 0 < 1 - U := by linarith
    have hq : 0 ≤ U / (1 - U) := div_nonneg h0 hd.le
    rw [Real.sq_sqrt hq]
    refine ⟨rfl, ?_⟩
    field_simp
  · have hlit : |(6.28318530718 : ℝ) - 2 * Real.pi| < 1e-12 := by
      have h1 := Real.pi_gt_d20
      have h2 := Real.pi_lt_d20
      rw [abs_lt]
      constructor <;> norm_num at h1 h2 ⊢ <;> linarith
    rw [← sub_mul, abs_mul]
    exact mul_le_mul_of_nonneg_right hlit.le (abs_nonneg _)

theorem near_normal_slope_sampling_witness :
    MicrosurfaceSlopeBeckmann.sampleP22_11 Real.exp Real.exp Real.log Real.sqrt Real.cos
          Real.sin 0 0 1 0
        = some ⟨Real.sqrt (-Real.log 1) * Real.cos (6.28318530718 * 0),
            Real.sqrt (-Real.log 1) * Real.sin (6.28318530718 * 0)⟩ ∧
      Real.exp (-Real.sqrt (-Real.log 1) ^ 2) = 1 ∧
      MicrosurfaceSlopeGGX.sampleP22_11 Real.sqrt Real.cos Real.sin (fun _ => false) 0 (1 / 2) 0
        = ⟨Real.sqrt (1 / 2 / (1 - 1 / 2)) * Real.cos (6.28318530718 * 0),
            Real.sqrt (1 / 2 / (1 - 1 / 2)) * Real.sin (6.28318530718 * 0)⟩ ∧
      Real.sqrt (1 / 2 / (1 - 1 / 2)) ^ 2 = 1 / 2 / (1 - 1 / 2) :=
  ⟨(near_normal_slope_sampling (fun _ => false) 0 0 1 0 (by norm_num)).1.1,
    ((near_normal_slope_sampling (fun _ => false) 0 0 1 0 (by norm_num)).1.2 (by norm_num)
      (by norm_num)).2,
    (near_normal_slope_sampling (fun _ => false) 0 0 (1 / 2) 0 (by norm_num)).2.1.1,
    ((near_normal_slope_sampling (fun _ => false) 0 0 (1 / 2) 0 (by norm_num)).2.1.2
      (by norm_num) (by norm_num)).1⟩

/-! ## Single precision at grazing incidence

`Lambda` and `projectedArea` take the angle `theta_i = acosf(wi.z)` and its tangent.  For
`wi.z = 2^-27` the angle `arccos wi.z` lies `2^-27` below `π / 2`, closer to the `float`
`13176795 / 2 ^ 23` above `π / 2` than to the one below, so that a correctly rounded `acosf`
returns an angle whose tangent is negative.  The statements of this section take `acosf` with its
value at `± 2^-27` rounded in this way, and the real `tan`, `sin` and `sqrt`. -/

theorem arcsin_grazing_bounds :
    (1 / 2 ^ 27 : ℝ) ≤ Real.arcsin (1 / 2 ^ 27) ∧
      Real.arcsin (1 / 2 ^ 27) ≤ Real.pi / 2 * (1 / 2 ^ 27) := by
  have hx0 : (0 : ℝ) ≤ 1 / 2 ^ 27 := by positivity
  have hx1 : (1 / 2 ^ 27 : ℝ) ≤ 1 := by norm_num
  have hy0 : 0 ≤ Real.arcsin (1 / 2 ^ 27) := Real.arcsin_nonneg.mpr hx0
  have hy1 : Real.arcsin (1 / 2 ^ 27) ≤ Real.pi / 2 := Real.arcsin_le_pi_div_two _
  have hs : Real.sin (Real.arcsin (1 / 2 ^ 27)) = 1 / 2 ^ 27 :=
    Real.sin_arcsin (by linarith) hx1
  have h1 := Real.sin_le hy0
  have h2 := Real.mul_le_sin hy0 hy1
  rw [hs] at h1 h2
  refine ⟨h1, ?_⟩
  have hpi := Real.pi_pos
  have h3 : Real.arcsin (1 / 2 ^ 27) = Real.pi / 2 * (2 / Real.pi * Real.arcsin (1 / 2 ^ 27)) := by
    field_simp
    ring
  rw [h3]
  exact mul_le_mul_of_nonneg_left h2 (by positivity)

theorem grazing_angle_bounds :
    Real.pi / 2 < 13176795 / 2 ^ 23 ∧ (13176795 / 2 ^ 23 : ℝ) < 3 * Real.pi / 4 ∧
      |(13176795 / 2 ^ 23 : ℝ) - Real.arccos (1 / 2 ^ 27)| < 1 / 2 ^ 24 ∧
      |(13176795 / 2 ^ 23 : ℝ) - Real.arccos (-(1 / 2 ^ 27))| < 1 / 2 ^ 24 := by
  have h1 := Real.pi_gt_d20
  have h2 := Real.pi_lt_d20
  obtain ⟨ha, hb⟩ := arcsin_grazing_bounds
  rw [Real.arccos_eq_pi_div_two_sub_arcsin, Real.arccos_eq_pi_div_two_sub_arcsin,
    Real.arcsin_neg]
  refine ⟨?_, ?_, ?_, ?_⟩
  · norm_num at h1 h2 ⊢
    linarith
  · norm_num at h1 h2 ⊢
    linarith
  · rw [abs_lt]
    norm_num at h1 h2 ha hb ⊢
    constructor <;> linarith
  · rw [abs_lt]
    norm_num at h1 h2 ha hb ⊢
    constructor <;> linarith

theorem acosf_grazing (a x : ℝ) (m : ℤ) (hx : x = 1 / 2 ^ 27 ∨ x = -(1 / 2 ^ 27))
    (hfl : a = m / 2 ^ 23) (hrd : |a - Real.arccos x| < 1 / 2 ^ 24) :
    a = 13176795 / 2 ^ 23 := by
  have h1 := Real.pi_gt_d20
  have h2 := Real.pi_lt_d20
  obtain ⟨ha, hb⟩ := arcsin_grazing_bounds
  have hm : (13176794 : ℝ) < m ∧ (m : ℝ) < 13176796 := by
    rw [hfl, abs_lt, Real.arccos_eq_pi_div_two_sub_arcsin] at hrd
    rcases hx with hx | hx
    · rw [hx] at hrd
      obtain ⟨l, u⟩ := hrd
      have l' : Real.pi / 2 - Real.arcsin (1 / 2 ^ 27) - 1 / 2 ^ 24 < (m : ℝ) / 2 ^ 23 := by
        linarith
      have u' : (m : ℝ) / 2 ^ 23 < Real.pi / 2 - Real.arcsin (1 / 2 ^ 27) + 1 / 2 ^ 24 := by
        linarith
      rw [lt_div_iff₀ (by positivity)] at l'
      rw [div_lt_iff₀ (by positivity)] at u'
      norm_num at h1 h2 ha hb l' u' ⊢
      constructor <;> nlinarith
    · rw [hx, Real.arcsin_neg] at hrd
      obtain ⟨l, u⟩ := hrd
      have l' : Real.pi / 2 + Real.arcsin (1 / 2 ^ 27) - 1 / 2 ^ 24 < (m : ℝ) / 2 ^ 23 := by
        linarith
      have u' : (m : ℝ) / 2 ^ 23 < Real.pi / 2 + Real.arcsin (1 / 2 ^ 27) + 1 / 2 ^ 24 := by
        linarith
      rw [lt_div_iff₀ (by positivity)] at l'
      rw [div_lt_iff₀ (by positivity)] at u'
      norm_num at h1 h2 ha hb l' u' ⊢
      constructor <;> nlinarith
  have hm' : m = 13176795 := by
    have a1 : (13176794 : ℤ) < m := by exact_mod_cast hm.1
    have a2 : m < (13176796 : ℤ) := by exact_mod_cast hm.2
    omega
  rw [hfl, hm']
  norm_num

theorem tan_grazing_angle : Real.tan (13176795 / 2 ^ 23) < -1 := by
  obtain ⟨h1, h2, _, _⟩ := grazing_angle_bounds
  have hp : Real.tan (13176795 / 2 ^ 23) = Real.tan (13176795 / 2 ^ 23 - Real.pi) :=
    (Real.tan_sub_pi _).symm
  rw [hp]
  have h3 : Real.tan (-(Real.pi / 4)) = -1 := by
    rw [Real.tan_neg, Real.tan_pi_div_four]
  rw [← h3]
  have hpi := Real.pi_pos
  apply Real.tan_lt_tan_of_lt_of_lt_pi_div_two <;> linarith

theorem ggx_Lambda_grazing (acosf : ℝ → ℝ) (wi : Vector3f ℝ) (au av : ℝ)
    (hz0 : -0.9999 ≤ wi.z) (hz1 : wi.z ≤ 0.9999)
    (hθ : acosf wi.z = 13176795 / 2 ^ 23) (hα : 0 < alpha_i Real.sqrt wi au av) :
    MicrosurfaceSlopeGGX.Lambda Real.sqrt acosf Real.tan wi au av
        = 0.5 * (-1 - Real.sqrt (1 + (Real.tan (13176795 / 2 ^ 23)
            * alpha_i Real.sqrt wi au av) ^ 2)) ∧
      MicrosurfaceSlopeGGX.Lambda Real.sqrt acosf Real.tan wi au av < -1 ∧
      MicrosurfaceSlopeGGX.Lambda Real.sqrt acosf Real.tan wi au av
        < -(1 / 2) - alpha_i Real.sqrt wi au av / 2 := by
  have hT := tan_grazing_angle
  have ha : 1 / Real.tan (13176795 / 2 ^ 23) / alpha_i Real.sqrt wi au av < 0 := by
    apply div_neg_of_neg_of_pos _ hα
    apply div_neg_of_pos_of_neg one_pos
    linarith
  have he : MicrosurfaceSlopeGGX.Lambda Real.sqrt acosf Real.tan wi au av
      = 0.5 * (-1 - Real.sqrt (1 + (Real.tan (13176795 / 2 ^ 23)
          * alpha_i Real.sqrt wi au av) ^ 2)) := by
    have hg1 : ¬ wi.z > lit 0.9999 := by
      simp only [lit]
      push_cast
      exact not_lt.mpr hz1
    have hg2 : ¬ wi.z < -(lit 0.9999) := by
      simp only [lit]
      push_cast
      exact not_lt.mpr hz0
    simp only [MicrosurfaceSlopeGGX.Lambda]
    rw [if_neg hg1, if_neg hg2, hθ]
    have e1 : (lit 1.0 : ℝ) = 1 := by simp only [lit]; norm_num
    have e2 : (lit 1 : ℝ) = 1 := by simp only [lit]; norm_num
    have e5 : (lit 0.5 : ℝ) = 0.5 := by simp only [lit]; push_cast; rfl
    rw [e1, e2, e5, sign_of_neg _ ha]
    have hTne : Real.tan (13176795 / 2 ^ 23) ≠ 0 := by linarith
    have hq : 1 / (1 / Real.tan (13176795 / 2 ^ 23) / alpha_i Real.sqrt wi au av
        * (1 / Real.tan (13176795 / 2 ^ 23) / alpha_i Real.sqrt wi au av))
        = (Real.tan (13176795 / 2 ^ 23) * alpha_i Real.sqrt wi au av) ^ 2 := by
      field_simp
      ring
    rw [hq]
    ring
  have hT2 : 1 < Real.tan (13176795 / 2 ^ 23) ^ 2 := by nlinarith
  have hs1 : 1
      < Real.sqrt (1 + (Real.tan (13176795 / 2 ^ 23) * alpha_i Real.sqrt wi au av) ^ 2) := by
    apply Real.lt_sqrt_of_sq_lt
    have := mul_pos (lt_trans one_pos hT2) (mul_pos hα hα)
    nlinarith
  have hsq : alpha_i Real.sqrt wi au av
      < Real.sqrt (1 + (Real.tan (13176795 / 2 ^ 23) * alpha_i Real.sqrt wi au av) ^ 2) := by
    apply Real.lt_sqrt_of_sq_lt
    nlinarith [mul_nonneg (sub_nonneg.mpr hT2.le) (sq_nonneg (alpha_i Real.sqrt wi au av))]
  refine ⟨he, ?_, ?_⟩ <;> rw [he] <;> norm_num <;> linarith

theorem conductor_phase_nonneg (slope : MicrosurfaceSlope ℝ) (au av : ℝ) (wi wo : Vector3f ℝ)
    (hpa : 0 ≤ slope.projectedArea wi au av)
    (hD : 0 ≤ slope.D (Normalize Real.sqrt (wi + wo)) au av) :
    0 ≤ MicrosurfaceConductor.evalPhaseFunction Real.sqrt
      ⟨MicrosurfaceHeightUniform, slope, au, av⟩ wi wo := by
  simp only [MicrosurfaceConductor.evalPhaseFunction, lit]
  push_cast
  split_ifs with h
  · norm_num
  · rw [D_wi_eq]
    split_ifs with h1 h2
    · norm_num
    · norm_num
    · rcases le_or_lt (Dot wi (Normalize Real.sqrt (wi + wo))) 0 with hd | hd
      · rw [max_eq_left hd]
        norm_num
      · rw [max_eq_right hd.le]
        have : 0 ≤ 1 / slope.projectedArea wi au av := by positivity
        positivity

/-- C27 fails in single precision at grazing incidence.  Let `acosf (2^-27)` be the `float`
nearest to `arccos (2^-27)`: a multiple `m / 2 ^ 23` of the spacing of the floats of `[1, 2)`,
less than half that spacing away.  Then for every `wi` with `wi.z = 2^-27` and `wi.x`, `wi.y` not
both zero, `alpha_u, alpha_v > 0` and either height distribution, the GGX instance has
`acosf wi.z > π / 2`, `Lambda wi < -1` (the claim: `≥ 0`), `G_1 wi < 0`, and `G_1 wi h0 > 1` at
every height `h0` with `0 < C1 h0 < 1` (the claim: both in `[0, 1]`). -/
theorem ggx_masking_grazing (M_PI : ℝ) (acosf : ℝ → ℝ) (m : ℤ) (height_uniform : Bool)
    (wi : Vector3f ℝ) (alpha_u alpha_v h0 : ℝ)
    (hz : wi.z = 1 / 2 ^ 27) (hxy : wi.x ≠ 0 ∨ wi.y ≠ 0) (hu : 0 < alpha_u) (hv : 0 < alpha_v)
    (hfl : acosf (1 / 2 ^ 27) = m / 2 ^ 23)
    (hrd : |acosf (1 / 2 ^ 27) - Real.arccos (1 / 2 ^ 27)| < 1 / 2 ^ 24)
    (hC0 : 0 < (Microsurface.create M_PI Real.exp Real.exp Real.log Real.sqrt acosf Real.tan
      Real.sin height_uniform false alpha_u alpha_v).m_microsurfaceheight.C1 h0)
    (hC1 : (Microsurface.create M_PI Real.exp Real.exp Real.log Real.sqrt acosf Real.tan
      Real.sin height_uniform false alpha_u alpha_v).m_microsurfaceheight.C1 h0 < 1) :
    Real.pi / 2 < acosf wi.z ∧
      MicrosurfaceSlopeGGX.Lambda Real.sqrt acosf Real.tan wi alpha_u alpha_v < -1 ∧
      (Microsurface.create M_PI Real.exp Real.exp Real.log Real.sqrt acosf Real.tan
        Real.sin height_uniform false alpha_u alpha_v).G_1 wi < 0 ∧
      1 < (Microsurface.create M_PI Real.exp Real.exp Real.log Real.sqrt acosf Real.tan
        Real.sin height_uniform false alpha_u alpha_v).G_1_h Real.rpow wi h0 := by
  have hθ : acosf wi.z = 13176795 / 2 ^ 23 := by
    rw [hz]
    exact acosf_grazing _ _ m (Or.inl rfl) hfl hrd
  have hz0 : -0.9999 ≤ wi.z := by rw [hz]; norm_num
  have hz1 : wi.z ≤ 0.9999 := by rw [hz]; norm_num
  have hzp : 0 < wi.z := by rw [hz]; norm_num
  have hα : 0 < alpha_i Real.sqrt wi alpha_u alpha_v :=
    alpha_i_pos_of_ne wi alpha_u alpha_v hxy (by rw [hz]; norm_num) hu hv
  have hL : MicrosurfaceSlopeGGX.Lambda Real.sqrt acosf Real.tan wi alpha_u alpha_v < -1 := (ggx_Lambda_grazing acosf wi alpha_u alpha_v hz0 hz1 hθ hα).2.1
  have hs : (Microsurface.create M_PI Real.exp Real.exp Real.log Real.sqrt acosf Real.tan
      Real.sin height_uniform false alpha_u alpha_v).m_microsurfaceslope.Lambda wi
        (Microsurface.create M_PI Real.exp Real.exp Real.log Real.sqrt acosf Real.tan
          Real.sin height_uniform false alpha_u alpha_v).m_alphau
        (Microsurface.create M_PI Real.exp Real.exp Real.log Real.sqrt acosf Real.tan
          Real.sin height_uniform false alpha_u alpha_v).m_alphav
      = MicrosurfaceSlopeGGX.Lambda Real.sqrt acosf Real.tan wi alpha_u alpha_v := by
    simp [Microsurface.create, MicrosurfaceSlopeGGX]
  refine ⟨?_, hL, ?_, ?_⟩
  · rw [hθ]
    exact grazing_angle_bounds.1
  · rw [G_1_eq, if_neg (not_lt.mpr hz1), if_neg (not_le.mpr hzp), hs]
    apply one_div_neg.mpr
    linarith
  · rw [G_1_h_eq, if_neg (not_lt.mpr hz1), if_neg (not_le.mpr hzp), hs]
    exact Real.one_lt_rpow_of_pos_of_lt_one_of_neg hC0 hC1 (by linarith)

theorem ggx_masking_grazing_witness :
    |(13176795 / 2 ^ 23 : ℝ) - Real.arccos (1 / 2 ^ 27)| < 1 / 2 ^ 24 ∧
      (Microsurface.create Real.pi Real.exp Real.exp Real.log Real.sqrt
        (fun x => if x = 1 / 2 ^ 27 then 13176795 / 2 ^ 23 else Real.arccos x) Real.tan
        Real.sin true false 1 1).G_1 (⟨1, 0, 1 / 2 ^ 27⟩ : Vector3f ℝ) < 0 ∧
      1 < (Microsurface.create Real.pi Real.exp Real.exp Real.log Real.sqrt
        (fun x => if x = 1 / 2 ^ 27 then 13176795 / 2 ^ 23 else Real.arccos x) Real.tan
        Real.sin true false 1 1).G_1_h Real.rpow (⟨1, 0, 1 / 2 ^ 27⟩ : Vector3f ℝ) 0 := by
  have hC : MicrosurfaceHeightUniform.C1 (0 : ℝ) = 1 / 2 := by
    rw [uniform_C1_eq]
    norm_num
  have h := ggx_masking_grazing Real.pi
    (fun x => if x = 1 / 2 ^ 27 then 13176795 / 2 ^ 23 else Real.arccos x) 13176795 true
    (⟨1, 0, 1 / 2 ^ 27⟩ : Vector3f ℝ) 1 1 0 rfl (Or.inl one_ne_zero) one_pos one_pos
    (by simp) (by beta_reduce; rw [if_pos rfl]; exact grazing_angle_bounds.2.2.1)
    (by simp [Microsurface.create, MicrosurfaceHeightUniform, hC])
    (by simp [Microsurface.create, MicrosurfaceHeightUniform, hC]; norm_num)
  exact ⟨grazing_angle_bounds.2.2.1, h.2.2.1, h.2.2.2⟩

/-- C21 fails in single precision at grazing incidence.  Let `acosf (2^-27)` and
`acosf (-2^-27)` be the floats nearest to `arccos (2^-27)` and `arccos (-2^-27)` (multiples of
`2 ^ -23` less than `2 ^ -24` away; both are `13176795 / 2 ^ 23`).  Then for every `wi` with
`wi.z = 2^-27` and `wi.x`, `wi.y` not both zero and `alpha_u, alpha_v > 0`, GGX has
`projectedArea wi > 0` but `wi.z * (1 + Lambda wi) < 0`, and `Lambda (-wi) = Lambda wi`, which is
less than `-1 - Lambda wi`. -/
theorem smith_projected_area_grazing (acosf : ℝ → ℝ) (m₁ m₂ : ℤ) (wi : Vector3f ℝ)
    (alpha_u alpha_v : ℝ)
    (hz : wi.z = 1 / 2 ^ 27) (hxy : wi.x ≠ 0 ∨ wi.y ≠ 0) (hu : 0 < alpha_u) (hv : 0 < alpha_v)
    (hfl₁ : acosf (1 / 2 ^ 27) = m₁ / 2 ^ 23)
    (hrd₁ : |acosf (1 / 2 ^ 27) - Real.arccos (1 / 2 ^ 27)| < 1 / 2 ^ 24)
    (hfl₂ : acosf (-(1 / 2 ^ 27)) = m₂ / 2 ^ 23)
    (hrd₂ : |acosf (-(1 / 2 ^ 27)) - Real.arccos (-(1 / 2 ^ 27))| < 1 / 2 ^ 24) :
    0 < MicrosurfaceSlopeGGX.projectedArea Real.sqrt acosf Real.sin wi alpha_u alpha_v ∧
      wi.z * (1 + MicrosurfaceSlopeGGX.Lambda Real.sqrt acosf Real.tan wi alpha_u alpha_v) < 0 ∧
      MicrosurfaceSlopeGGX.Lambda Real.sqrt acosf Real.tan (-wi) alpha_u alpha_v
        = MicrosurfaceSlopeGGX.Lambda Real.sqrt acosf Real.tan wi alpha_u alpha_v ∧
      MicrosurfaceSlopeGGX.Lambda Real.sqrt acosf Real.tan (-wi) alpha_u alpha_v
        < -1 - MicrosurfaceSlopeGGX.Lambda Real.sqrt acosf Real.tan wi alpha_u alpha_v := by
  have hθ : acosf wi.z = 13176795 / 2 ^ 23 := by
    rw [hz]
    exact acosf_grazing _ _ m₁ (Or.inl rfl) hfl₁ hrd₁
  have hnz : (-wi).z = -(1 / 2 ^ 27) := by
    rw [Vector3f.neg_def, hz]
  have hθ' : acosf (-wi).z = 13176795 / 2 ^ 23 := by
    rw [hnz]
    exact acosf_grazing _ _ m₂ (Or.inr rfl) hfl₂ hrd₂
  have hzp : 0 < wi.z := by rw [hz]; norm_num
  have hα : 0 < alpha_i Real.sqrt wi alpha_u alpha_v :=
    alpha_i_pos_of_ne wi alpha_u alpha_v hxy (by rw [hz]; norm_num) hu hv
  have hL := ggx_Lambda_grazing acosf wi alpha_u alpha_v (by rw [hz]; norm_num)
    (by rw [hz]; norm_num) hθ hα
  have hL' := ggx_Lambda_grazing acosf (-wi) alpha_u alpha_v (by rw [hnz]; norm_num)
    (by rw [hnz]; norm_num) hθ' (by rw [alpha_i_neg]; exact hα)
  rw [alpha_i_neg] at hL'
  refine ⟨?_, ?_, ?_, ?_⟩
  · have hg1 : ¬ wi.z > lit 0.9999 := by
      simp only [lit]
      push_cast
      rw [hz]
      norm_num
    have hg2 : ¬ wi.z < -(lit 0.9999) := by
      simp only [lit]
      push_cast
      rw [hz]
      norm_num
    simp only [MicrosurfaceSlopeGGX.projectedArea]
    rw [if_neg hg1, if_neg hg2]
    have e5 : (lit 0.5 : ℝ) = 0.5 := by simp only [lit]; push_cast; rfl
    rw [e5]
    have := Real.sqrt_nonneg (wi.z * wi.z + Real.sin (acosf wi.z) * Real.sin (acosf wi.z)
      * alpha_i Real.sqrt wi alpha_u alpha_v * alpha_i Real.sqrt wi alpha_u alpha_v)
    norm_num
    linarith
  · apply mul_neg_of_pos_of_neg hzp
    linarith [hL.2.1]
  · rw [hL'.1, hL.1]
  · rw [hL'.1, ← hL.1]
    linarith [hL.2.1]

theorem smith_projected_area_grazing_witness :
    |(13176795 / 2 ^ 23 : ℝ) - Real.arccos (1 / 2 ^ 27)| < 1 / 2 ^ 24 ∧
      |(13176795 / 2 ^ 23 : ℝ) - Real.arccos (-(1 / 2 ^ 27))| < 1 / 2 ^ 24 ∧
      0 < MicrosurfaceSlopeGGX.projectedArea Real.sqrt
        (fun x => if x = 1 / 2 ^ 27 ∨ x = -(1 / 2 ^ 27) then 13176795 / 2 ^ 23
          else Real.arccos x) Real.sin (⟨1, 0, 1 / 2 ^ 27⟩ : Vector3f ℝ) 1 1 ∧
      1 / 2 ^ 27 * (1 + MicrosurfaceSlopeGGX.Lambda Real.sqrt
        (fun x => if x = 1 / 2 ^ 27 ∨ x = -(1 / 2 ^ 27) then 13176795 / 2 ^ 23
          else Real.arccos x) Real.tan (⟨1, 0, 1 / 2 ^ 27⟩ : Vector3f ℝ) 1 1) < 0 ∧
      MicrosurfaceSlopeGGX.Lambda Real.sqrt
        (fun x => if x = 1 / 2 ^ 27 ∨ x = -(1 / 2 ^ 27) then 13176795 / 2 ^ 23
          else Real.arccos x) Real.tan (-(⟨1, 0, 1 / 2 ^ 27⟩ : Vector3f ℝ)) 1 1
        = MicrosurfaceSlopeGGX.Lambda Real.sqrt
        (fun x => if x = 1 / 2 ^ 27 ∨ x = -(1 / 2 ^ 27) then 13176795 / 2 ^ 23
          else Real.arccos x) Real.tan (⟨1, 0, 1 / 2 ^ 27⟩ : Vector3f ℝ) 1 1 := by
  have h := smith_projected_area_grazing
    (fun x => if x = 1 / 2 ^ 27 ∨ x = -(1 / 2 ^ 27) then 13176795 / 2 ^ 23 else Real.arccos x)
    13176795 13176795 (⟨1, 0, 1 / 2 ^ 27⟩ : Vector3f ℝ) 1 1 rfl (Or.inl one_ne_zero) one_pos
    one_pos (by simp)
    (by beta_reduce; rw [if_pos (Or.inl rfl)]; exact grazing_angle_bounds.2.2.1)
    (by simp)
    (by beta_reduce; rw [if_pos (Or.inr rfl)]; exact grazing_angle_bounds.2.2.2)
  exact ⟨grazing_angle_bounds.2.2.1, grazing_angle_bounds.2.2.2, h.1, h.2.1, h.2.2.1⟩

/-- C3 fails in single precision at grazing exitance.  Let `acosf (2^-27)` be the `float`
nearest to `arccos (2^-27)` (a multiple of `2 ^ -23` less than `2 ^ -24` away) and let `acosf`
be exact at `4/5`.  For the conductor with uniform heights and GGX slopes of roughness `(1, 1)`,
`wi = (3/5, 0, 4/5)` and `wo = (1, 0, 2^-27)`, the value `evalSingleScattering wi wo` is negative,
while the first-bounce term
`evalPhaseFunction wi wo * G_1 wo (sampleHeight (-wi) (1 + invC1 0.999) U)` is non-negative for
every draw `U`, so that no mean of it over `U` equals `evalSingleScattering wi wo`. -/
theorem conductor_single_scattering_grazing (acosf : ℝ → ℝ) (m : ℤ)
    (hfl : acosf (1 / 2 ^ 27) = m / 2 ^ 23)
    (hrd : |acosf (1 / 2 ^ 27) - Real.arccos (1 / 2 ^ 27)| < 1 / 2 ^ 24)
    (hwi : acosf (4 / 5) = Real.arccos (4 / 5)) :
    MicrosurfaceConductor.evalSingleScattering Real.sqrt
        ⟨MicrosurfaceHeightUniform,
          MicrosurfaceSlopeGGX Real.pi Real.sqrt acosf Real.tan Real.sin, 1, 1⟩
        ⟨3 / 5, 0, 4 / 5⟩ ⟨1, 0, 1 / 2 ^ 27⟩ < 0 ∧
      ∀ U : ℝ, 0 ≤ MicrosurfaceConductor.evalPhaseFunction Real.sqrt
          ⟨MicrosurfaceHeightUniform,
            MicrosurfaceSlopeGGX Real.pi Real.sqrt acosf Real.tan Real.sin, 1, 1⟩
          ⟨3 / 5, 0, 4 / 5⟩ ⟨1, 0, 1 / 2 ^ 27⟩ *
        Microsurface.G_1_h Real.rpow
          ⟨MicrosurfaceHeightUniform,
            MicrosurfaceSlopeGGX Real.pi Real.sqrt acosf Real.tan Real.sin, 1, 1⟩
          ⟨1, 0, 1 / 2 ^ 27⟩
          (Microsurface.sampleHeight Real.rpow
            ⟨MicrosurfaceHeightUniform,
              MicrosurfaceSlopeGGX Real.pi Real.sqrt acosf Real.tan Real.sin, 1, 1⟩
            (-(⟨3 / 5, 0, 4 / 5⟩ : Vector3f ℝ))
            (lit 1.0 + MicrosurfaceHeightUniform.invC1 (lit 0.999)) U) := by
  have hθ : acosf (⟨1, 0, 1 / 2 ^ 27⟩ : Vector3f ℝ).z = 13176795 / 2 ^ 23 :=
    acosf_grazing _ _ m (Or.inl rfl) hfl hrd
  -- the projected roughness of both directions
  have hαo : 1 ≤ alpha_i Real.sqrt (⟨1, 0, 1 / 2 ^ 27⟩ : Vector3f ℝ) 1 1 := by
    rw [alpha_i_eq, Real.one_le_sqrt]
    norm_num
  have hαi : alpha_i Real.sqrt (⟨3 / 5, 0, 4 / 5⟩ : Vector3f ℝ) 1 1 = 1 := by
    rw [alpha_i_eq]
    norm_num
  -- Lambda of the grazing direction is below -9/8
  have hLo := ggx_Lambda_grazing acosf (⟨1, 0, 1 / 2 ^ 27⟩ : Vector3f ℝ) 1 1 (by norm_num)
    (by norm_num) hθ (by linarith)
  have hT := tan_grazing_angle
  have hLo' : MicrosurfaceSlopeGGX.Lambda Real.sqrt acosf Real.tan
      (⟨1, 0, 1 / 2 ^ 27⟩ : Vector3f ℝ) 1 1 < -(9 / 8) := by
    rw [hLo.1]
    have hs : 5 / 4 < Real.sqrt (1 + (Real.tan (13176795 / 2 ^ 23)
        * alpha_i Real.sqrt (⟨1, 0, 1 / 2 ^ 27⟩ : Vector3f ℝ) 1 1) ^ 2) := by
      apply Real.lt_sqrt_of_sq_lt
      have h1 : 1 ≤ -Real.tan (13176795 / 2 ^ 23)
          * alpha_i Real.sqrt (⟨1, 0, 1 / 2 ^ 27⟩ : Vector3f ℝ) 1 1 := by nlinarith
      nlinarith
    norm_num
    linarith
  -- Lambda of the incident direction is 1/8
  have hLi : MicrosurfaceSlopeGGX.Lambda Real.sqrt acosf Real.tan
      (⟨3 / 5, 0, 4 / 5⟩ : Vector3f ℝ) 1 1 = 1 / 8 := by
    have e : MicrosurfaceSlopeGGX.Lambda Real.sqrt acosf Real.tan
        (⟨3 / 5, 0, 4 / 5⟩ : Vector3f ℝ) 1 1
        = MicrosurfaceSlopeGGX.Lambda Real.sqrt Real.arccos Real.tan
          (⟨3 / 5, 0, 4 / 5⟩ : Vector3f ℝ) 1 1 := by
      simp only [MicrosurfaceSlopeGGX.Lambda, hwi]
    rw [e, ggx_Lambda_eq _ _ _ (by norm_num) (by norm_num), hαi]
    have ht : Real.tan (Real.arccos (4 / 5)) = 3 / 4 := by
      rw [Real.tan_arccos]
      have : Real.sqrt (1 - (4 / 5 : ℝ) ^ 2) = 3 / 5 := by
        rw [show (1 - (4 / 5 : ℝ) ^ 2) = (3 / 5) ^ 2 by norm_num]
        exact Real.sqrt_sq (by norm_num)
      rw [this]
      norm_num
    simp only [ht]
    rw [sign_of_pos _ (by norm_num)]
    have : Real.sqrt (1 + 1 / (1 / (3 / 4) / 1 * (1 / (3 / 4) / 1))) = 5 / 4 := by
      rw [show (1 + 1 / (1 / (3 / 4 : ℝ) / 1 * (1 / (3 / 4) / 1))) = (5 / 4) ^ 2 by norm_num]
      exact Real.sqrt_sq (by norm_num)
    rw [this]
    norm_num
  have hD : 0 < (MicrosurfaceSlopeGGX Real.pi Real.sqrt acosf Real.tan Real.sin).D
      (Normalize Real.sqrt ((⟨3 / 5, 0, 4 / 5⟩ : Vector3f ℝ) + ⟨1, 0, 1 / 2 ^ 27⟩)) 1 1 :=
    ggx_D_pos _ _ _ _ _ _ _ (normalize_z_pos _ (by simp only [Vector3f.add_def]; norm_num))
      one_pos one_pos
  constructor
  · rw [conductor_evalSingleScattering_eq]
    show (MicrosurfaceSlopeGGX Real.pi Real.sqrt acosf Real.tan Real.sin).D
        (Normalize Real.sqrt ((⟨3 / 5, 0, 4 / 5⟩ : Vector3f ℝ) + ⟨1, 0, 1 / 2 ^ 27⟩)) 1 1
      * (1 / (1 + MicrosurfaceSlopeGGX.Lambda Real.sqrt acosf Real.tan
            (⟨3 / 5, 0, 4 / 5⟩ : Vector3f ℝ) 1 1
          + MicrosurfaceSlopeGGX.Lambda Real.sqrt acosf Real.tan
            (⟨1, 0, 1 / 2 ^ 27⟩ : Vector3f ℝ) 1 1)) / (4 * (4 / 5)) < 0
    rw [hLi]
    apply div_neg_of_neg_of_pos _ (by norm_num)
    apply mul_neg_of_pos_of_neg hD
    apply one_div_neg.mpr
    linarith
  · intro U
    apply mul_nonneg
    · apply conductor_phase_nonneg _ _ _ _ _ _ hD.le
      show 0 ≤ MicrosurfaceSlopeGGX.projectedArea Real.sqrt acosf Real.sin
        (⟨3 / 5, 0, 4 / 5⟩ : Vector3f ℝ) 1 1
      simp only [MicrosurfaceSlopeGGX.projectedArea, lit]
      push_cast
      rw [if_neg (by norm_num), if_neg (by norm_num)]
      have := Real.sqrt_nonneg (4 / 5 * (4 / 5) + Real.sin (acosf (4 / 5))
        * Real.sin (acosf (4 / 5)) * alpha_i Real.sqrt (⟨3 / 5, 0, 4 / 5⟩ : Vector3f ℝ) 1 1
        * alpha_i Real.sqrt (⟨3 / 5, 0, 4 / 5⟩ : Vector3f ℝ) 1 1)
      norm_num
      linarith
    · rw [G_1_h_eq, if_neg (by norm_num), if_neg (by norm_num)]
      exact Real.rpow_nonneg (uniform_C1_bounds _).1 _

theorem conductor_single_scattering_grazing_witness :
    |(13176795 / 2 ^ 23 : ℝ) - Real.arccos (1 / 2 ^ 27)| < 1 / 2 ^ 24 ∧
      MicrosurfaceConductor.evalSingleScattering Real.sqrt
        ⟨MicrosurfaceHeightUniform,
          MicrosurfaceSlopeGGX Real.pi Real.sqrt
            (fun x => if x = 1 / 2 ^ 27 then 13176795 / 2 ^ 23 else Real.arccos x) Real.tan
            Real.sin, 1, 1⟩
        ⟨3 / 5, 0, 4 / 5⟩ ⟨1, 0, 1 / 2 ^ 27⟩ < 0 ∧
      0 ≤ MicrosurfaceConductor.evalPhaseFunction Real.sqrt
          ⟨MicrosurfaceHeightUniform,
            MicrosurfaceSlopeGGX Real.pi Real.sqrt
              (fun x => if x = 1 / 2 ^ 27 then 13176795 / 2 ^ 23 else Real.arccos x) Real.tan
              Real.sin, 1, 1⟩
          ⟨3 / 5, 0, 4 / 5⟩ ⟨1, 0, 1 / 2 ^ 27⟩ *
        Microsurface.G_1_h Real.rpow
          ⟨MicrosurfaceHeightUniform,
            MicrosurfaceSlopeGGX Real.pi Real.sqrt
              (fun x => if x = 1 / 2 ^ 27 then 13176795 / 2 ^ 23 else Real.arccos x) Real.tan
              Real.sin, 1, 1⟩
          ⟨1, 0, 1 / 2 ^ 27⟩
          (Microsurface.sampleHeight Real.rpow
            ⟨MicrosurfaceHeightUniform,
              MicrosurfaceSlopeGGX Real.pi Real.sqrt
                (fun x => if x = 1 / 2 ^ 27 then 13176795 / 2 ^ 23 else Real.arccos x) Real.tan
                Real.sin, 1, 1⟩
            (-(⟨3 / 5, 0, 4 / 5⟩ : Vector3f ℝ))
            (lit 1.0 + MicrosurfaceHeightUniform.invC1 (lit 0.999)) (1 / 2)) := by
  have h := conductor_single_scattering_grazing
    (fun x => if x = 1 / 2 ^ 27 then 13176795 / 2 ^ 23 else Real.arccos x) 13176795
    (by simp) (by beta_reduce; rw [if_pos rfl]; exact grazing_angle_bounds.2.2.1)
    (by beta_reduce; rw [if_neg (by norm_num)])
  exact ⟨grazing_angle_bounds.2.2.1, h.1, h.2 (1 / 2)⟩

end Exact

end MicrosurfaceScattering
